import Mathlib

/-! PowerMan: device dialogue engine, target fanout and action queue

A shallow embedding of `src/device.c` (and the parts of `src/config.h` and
`src/action.c` it relies on).  C structures become Lean structures, pointers
to `Node` become handles into a node store (`Cluster`), the LLNL `List` type
becomes `List`, a `ListIterator` becomes a list together with a cursor, and
functions that can hit an assertion or dereference `NULL` return `Option`.

The POSIX regular expression engine (`regexec` from libc) is not part of the
repository; every function that calls it takes the engine as the parameter
`rx`.  C strings are modelled as `String` (ASCII text, `strlen` is `length`).
-/

namespace Powerman

/-! ## Data model (config.h, device.h, action.h) -/

/-- Command kinds, in the order of the table `pm_coms` in action.c. -/
inductive Command where
  | PM_ERROR
  | PM_LOG_IN
  | PM_CHECK_LOGIN
  | PM_LOG_OUT
  | PM_UPDATE_PLUGS
  | PM_UPDATE_NODES
  | PM_POWER_ON
  | PM_POWER_OFF
  | PM_POWER_CYCLE
  | PM_RESET
  | PM_NAMES
  deriving DecidableEq, Repr

/-- State of a plug or of a node (`State_Val`). -/
inductive State_Val where
  | ST_UNKNOWN
  | ST_OFF
  | ST_ON
  deriving DecidableEq, Repr

/-- The C `struct timeval`. -/
structure Timeval where
  tv_sec : Int
  tv_usec : Int
  deriving DecidableEq, Repr

/-- Target matching mode of a protocol (`String_Mode`). -/
inductive String_Mode where
  | NO_MODE
  | REGEX
  | LITERAL
  deriving DecidableEq, Repr

/-- Device kinds (`Dev_Type`), as named in `init_Device`. -/
inductive Dev_Type where
  | NO_DEV
  | TTY_DEV
  | TCP_DEV
  | TELNET_DEV
  | SNMP_DEV
  | PMD_DEV
  deriving DecidableEq, Repr

/-- A `Node *` is a handle into the node store. -/
abbrev NodeRef := Nat

/-- The fields of `Node` that device.c reads and writes. -/
structure Node where
  name : String
  p_state : State_Val
  n_state : State_Val
  deriving DecidableEq, Repr

/-- The node store: what every `Node *` points to. -/
abbrev Cluster := NodeRef → Node

/-- The `Interpretation` structure: `val` is the text that starts at the
position the `char *` points to, `none` for a pointer that was never set. -/
structure Interpretation where
  plug_name : String
  match_pos : Nat
  val : Option String
  node : Option NodeRef
  deriving DecidableEq, Repr

/-- A script element (`Script_El`): the tag `type` together with the member
of the union `s_or_e` that belongs to it.  Regular expressions are kept as
their source text; `map` is `none` for a `NULL` list. -/
inductive Script_El where
  | SND_EXP_UNKNOWN
  | SEND (fmt : String)
  | EXPECT (completion : String) (exp : String) (map : Option (List Interpretation))
  | DELAY (tv : Timeval)
  deriving DecidableEq, Repr

/-- The `Protocol` structure: a `NULL` script is `none`. -/
structure Protocol where
  mode : String_Mode
  scripts : Command → Option (List Script_El)

/-- A `ListIterator` over a script: the list it was created on and the
position of the next element it will return. -/
structure ListIterator where
  list : List Script_El
  pos : Nat
  deriving DecidableEq, Repr

/-- The call `list_iterator_create(l)`. -/
def list_iterator_create (l : List Script_El) : ListIterator :=
  { list := l, pos := 0 }

/-- The call `list_iterator_reset(i)`. -/
def list_iterator_reset (i : ListIterator) : ListIterator :=
  { i with pos := 0 }

/-- The call `list_next(i)`: the element under the cursor (or `NULL`) and the
advanced iterator. -/
def list_next (i : ListIterator) : Option Script_El × ListIterator :=
  match i.list.get? i.pos with
  | some el => (some el, { i with pos := i.pos + 1 })
  | none => (none, i)

/-- The `Action` structure; `client`, `itr`, `cur` and `target` are pointers
that may be `NULL`. -/
structure Action where
  com : Command
  client : Option Nat
  seq : Nat
  itr : Option ListIterator
  cur : Option Script_El
  target : Option String
  deriving DecidableEq, Repr

/-- The constructor `make_Action` (`act_create` in action.c). -/
def make_Action (com : Command) : Action :=
  { com := com, client := none, seq := 0, itr := none, cur := none, target := none }

/-- A `Plug`: its device-local name and the node plugged into it, if any. -/
structure Plug where
  name : String
  node : Option NodeRef
  deriving DecidableEq, Repr

/-- Connection state held in the low part of `dev->status`. -/
inductive Conn where
  | DEV_NOT_CONNECTED
  | DEV_CONNECTING
  | DEV_CONNECTED
  deriving DecidableEq, Repr

/-- The status word `dev->status`.  The header device.h with the numeric
values is not among the sources; the word is kept as the connection state
plus the two independent bits `DEV_SENDING` and `DEV_EXPECTING`.  Assigning
one of the three connection constants clears both bits. -/
structure Status where
  conn : Conn
  sending : Bool
  expecting : Bool
  deriving DecidableEq, Repr

/-- A `Buffer` holds the bytes queued on one direction of the socket. -/
abbrev Buffer := String

/-- The `Device` structure. -/
structure Device where
  name : String
  type : Dev_Type
  loggedin : Bool
  error : Bool
  status : Status
  fd : Option Nat
  acts : List Action
  time_stamp : Timeval
  timeout : Timeval
  to_ : Option Buffer
  from_ : Option Buffer
  prot : Protocol
  all : String
  on_re : String
  off_re : String
  plugs : List Plug
  logit : Bool

/-! ## The regular expression engine (libc) -/

/-- One entry of the `regmatch_t` array. -/
structure regmatch_t where
  rm_so : Int
  rm_eo : Int
  deriving DecidableEq, Repr

/-- What `Regexec` leaves behind: its return value and the array `pmatch`. -/
structure RegexecOut where
  n : Int
  pmatch : List regmatch_t
  deriving DecidableEq, Repr

/-- The value `REG_NOERROR` of regex.h. -/
def REG_NOERROR : Int := 0

/-- The value `REG_NOMATCH` of regex.h. -/
def REG_NOMATCH : Int := 1

/-- The entry `pmatch[i]`; entries that `regexec` did not fill are `-1`. -/
def RegexecOut.pm (r : RegexecOut) (i : Nat) : regmatch_t :=
  r.pmatch.getD i { rm_so := -1, rm_eo := -1 }

/-- The regular expression engine: `Regcomp` of the pattern followed by
`Regexec` on the subject. -/
abbrev Regexec := String → String → RegexecOut

/-! ## Target fanout: `do_target_copy`, `do_target_some`, `set_targets` -/

/-- The function `do_target_copy`.  `list_iterator_create` on a `NULL` script
does not return, hence `none`. -/
def do_target_copy (dev : Device) (sact : Action) (target : Option String) : Option Action :=
  match dev.prot.scripts sact.com with
  | none => none
  | some script =>
    some { com := sact.com, client := sact.client, seq := sact.seq,
           itr := some (list_iterator_create script), cur := none, target := target }

/-- The test on one node name in `do_target_some` that clears `all`:
`(n == REG_NOMATCH) || ((pm[0].rm_eo - pm[0].rm_so) != length_String(name))`. -/
def not_whole_name (rx : Regexec) (target name : String) : Bool :=
  let r := rx target name
  decide (r.n = REG_NOMATCH) ||
    decide ((r.pm 0).rm_eo - (r.pm 0).rm_so ≠ (name.length : Int))

/-- The selector matches the node name in full: the test above fails. -/
def full_match (rx : Regexec) (target name : String) : Bool :=
  !not_whole_name rx target name

/-- The local variables `all`, `any` and `new_acts` of `do_target_some`. -/
structure TargetScan where
  all : Bool
  any : Bool
  new_acts : List Action
  deriving DecidableEq, Repr

/-- The `while ((plug = list_next(plug_i)))` loop of `do_target_some`. -/
def do_target_some_loop (rx : Regexec) (cl : Cluster) (dev : Device) (sact : Action)
    (target : String) : List Plug → TargetScan → Option TargetScan
  | [], st => some st
  | plug :: rest, st =>
    match plug.node with
    | none => do_target_some_loop rx cl dev sact target rest { st with all := false }
    | some nd =>
      if not_whole_name rx target (cl nd).name then
        do_target_some_loop rx cl dev sact target rest { st with all := false }
      else
        match do_target_copy dev sact (some plug.name) with
        | none => none
        | some act =>
          do_target_some_loop rx cl dev sact target rest
            { st with any := true, new_acts := st.new_acts ++ [act] }

/-- The loop `while ((act = list_pop(new_acts))) list_append(dev->acts, act)`. -/
def drain_new_acts : List Action → List Action → List Action
  | [], acts => acts
  | act :: rest, acts => drain_new_acts rest (acts ++ [act])

/-- The function `do_target_some`. -/
def do_target_some (rx : Regexec) (cl : Cluster) (dev : Device) (sact : Action) :
    Option Device :=
  match sact.target with
  | none => none
  | some target =>
    match do_target_some_loop rx cl dev sact target dev.plugs
        { all := true, any := false, new_acts := [] } with
    | none => none
    | some st =>
      if st.all then
        match do_target_copy dev sact (some dev.all) with
        | none => none
        | some act => some { dev with acts := dev.acts ++ [act] }
      else if st.any then
        some { dev with acts := drain_new_acts st.new_acts dev.acts }
      else
        some dev

/-- The function `set_targets`. -/
def set_targets (rx : Regexec) (cl : Cluster) (dev : Device) (sact : Action) :
    Option Device :=
  match sact.com with
  | .PM_LOG_IN =>
    let acts :=
      match dev.acts with
      | [] => some []
      | act :: rest =>
        match act.itr with
        | none => none
        | some itr => some ({ act with itr := some (list_iterator_reset itr) } :: rest)
    match acts, do_target_copy dev sact none with
    | some acts, some act => some { dev with acts := act :: acts }
    | _, _ => none
  | .PM_ERROR | .PM_CHECK_LOGIN | .PM_LOG_OUT | .PM_UPDATE_PLUGS | .PM_UPDATE_NODES =>
    match do_target_copy dev sact none with
    | none => none
    | some act => some { dev with acts := dev.acts ++ [act] }
  | .PM_POWER_ON | .PM_POWER_OFF | .PM_POWER_CYCLE | .PM_RESET | .PM_NAMES =>
    match sact.target with
    | none => none
    | some target =>
      if dev.prot.mode = String_Mode.LITERAL then
        do_target_some rx cl dev sact
      else
        match do_target_copy dev sact (some target) with
        | none => none
        | some act => some { dev with acts := dev.acts ++ [act] }

/-! ## Line buffers (buffer.c is not among the sources) -/

/-- Modelled from the spec: the formatting done by `send_Buffer`, whose source
(buffer.c) is missing.  Spec 4.1 and 4.2: the format holds at most one `%s`
slot and the argument, when there is one, is substituted for it. -/
def format_chars : List Char → List Char → List Char
  | [], _ => []
  | '%' :: 's' :: rest, arg => arg ++ rest
  | c :: rest, arg => c :: format_chars rest arg

/-- Modelled from the spec: `send_Buffer(b, fmt, arg)` of the missing buffer.c,
spec 4.1 `append_format`: the formatted bytes are put behind the bytes that
are already queued. -/
def send_Buffer (b : Buffer) (fmt : String) (arg : Option String) : Buffer :=
  match arg with
  | none => b ++ fmt
  | some a => b ++ String.mk (format_chars fmt.data a.data)

/-- Modelled from the spec: `get_String_from_Buffer(b, re)` of the missing
buffer.c, spec 4.1 `try_consume_regex`: when the expression matches, the
buffered bytes up to the end of the match are returned and dropped from the
buffer; otherwise the buffer stays intact and nothing is returned. -/
def get_String_from_Buffer (rx : Regexec) (b : Buffer) (re : String) :
    Option (String × Buffer) :=
  let r := rx re b
  if r.n ≠ REG_NOERROR ∨ (r.pm 0).rm_so = -1 ∨ (r.pm 0).rm_eo = -1 then none
  else some (b.take (r.pm 0).rm_eo.toNat, b.drop (r.pm 0).rm_eo.toNat)

/-- Modelled from the spec: `is_empty_Buffer(b)` of the missing buffer.c. -/
def is_empty_Buffer (b : Buffer) : Bool :=
  b.isEmpty

/-- Modelled from the spec: whether `find_RegEx(re, str, len)` of the missing
util.c returns a non-`NULL` position, that is, whether the expression matches
the text (spec 4.4: the token is tested against the ON and OFF regex). -/
def find_RegEx (rx : Regexec) (re : String) (str : String) : Bool :=
  let r := rx re str
  !(decide (r.n ≠ REG_NOERROR) || decide ((r.pm 0).rm_so = -1) ||
    decide ((r.pm 0).rm_eo = -1))

/-! ## Semantics of a captured reply: `match_RegEx`, `do_PMD_semantics`,
`do_Device_semantics` -/

/-- Which of the two states of a node an update writes. -/
inductive StateField where
  | plug_state
  | node_state
  deriving DecidableEq, Repr

/-- The assignment `node->p_state = v` or `node->n_state = v`. -/
def set_state (f : StateField) (cl : Cluster) (nd : NodeRef) (v : State_Val) : Cluster :=
  match f with
  | .plug_state => Function.update cl nd { cl nd with p_state := v }
  | .node_state => Function.update cl nd { cl nd with n_state := v }

/-- The read of the field that `set_state` writes. -/
def get_state (f : StateField) (cl : Cluster) (nd : NodeRef) : State_Val :=
  match f with
  | .plug_state => (cl nd).p_state
  | .node_state => (cl nd).n_state

/-- The plug loop of `do_PMD_semantics` for one state field.  The pointer
`ch` is the text from its position to the terminating NUL; `some []` points
at the NUL, which reads as neither `'0'` nor `'1'`, and `none` is a pointer
that may not be dereferenced (`NULL`, or past the NUL). -/
def do_PMD_semantics_loop (f : StateField) :
    List Plug → Option (List Char) → Cluster → Option Cluster
  | [], _, cl => some cl
  | plug :: rest, ch, cl =>
    match plug.node with
    | none => do_PMD_semantics_loop f rest ch cl
    | some nd =>
      match ch with
      | none => none
      | some cs =>
        let cl1 := set_state f cl nd .ST_UNKNOWN
        let cl2 := if cs.head? = some '1' then set_state f cl1 nd .ST_ON else cl1
        let cl3 := if cs.head? = some '0' then set_state f cl2 nd .ST_OFF else cl2
        do_PMD_semantics_loop f rest (match cs with | [] => none | _ :: tl => some tl) cl3

/-- The function `do_PMD_semantics`: `interp = list_peek(map)`, the head
action must exist, `ch = interp->val`, then the loop that belongs to the
command. -/
def do_PMD_semantics (dev : Device) (map : List Interpretation) (cl : Cluster) :
    Option Cluster :=
  match dev.acts with
  | [] => none
  | act :: _ =>
    match map with
    | [] => none
    | interp :: _ =>
      let ch := interp.val.map String.data
      match act.com with
      | .PM_UPDATE_PLUGS => do_PMD_semantics_loop .plug_state dev.plugs ch cl
      | .PM_UPDATE_NODES => do_PMD_semantics_loop .node_state dev.plugs ch cl
      | _ => some cl

/-- The C `isspace` in the "C" locale. -/
def isspace (c : Char) : Bool :=
  c = ' ' || c = Char.ofNat 9 || c = Char.ofNat 10 || c = Char.ofNat 11 ||
    c = Char.ofNat 12 || c = Char.ofNat 13

/-- The scan `while (*end && !isspace(*end) && ((end - str) < len)) end++`
followed by `*end = 0`: the text up to the first white space. -/
def trim_token (str : String) : String :=
  String.mk (str.data.takeWhile (fun c => !isspace c))

/-- The interpretation loop of `do_Device_semantics` for one state field. -/
def do_Device_semantics_loop (rx : Regexec) (dev : Device) (f : StateField) :
    List Interpretation → Cluster → Option Cluster
  | [], cl => some cl
  | interp :: rest, cl =>
    match interp.node with
    | none => do_Device_semantics_loop rx dev f rest cl
    | some nd =>
      match interp.val with
      | none => none
      | some val =>
        let cl1 := set_state f cl nd .ST_UNKNOWN
        let str := trim_token val
        let cl2 := if find_RegEx rx dev.on_re str then set_state f cl1 nd .ST_ON else cl1
        let cl3 := if find_RegEx rx dev.off_re str then set_state f cl2 nd .ST_OFF else cl2
        do_Device_semantics_loop rx dev f rest cl3

/-- The function `do_Device_semantics`. -/
def do_Device_semantics (rx : Regexec) (dev : Device) (map : List Interpretation)
    (cl : Cluster) : Option Cluster :=
  match dev.acts with
  | [] => none
  | act :: _ =>
    match act.com with
    | .PM_UPDATE_PLUGS => do_Device_semantics_loop rx dev .plug_state map cl
    | .PM_UPDATE_NODES => do_Device_semantics_loop rx dev .node_state map cl
    | _ => some cl

/-- The loop of `match_RegEx` that points every `interp->val` at the start of
its subgroup; the two assertions bound `rm_so` and `rm_eo` by `MAX_BUF`. -/
def match_RegEx_loop (max_buf : Int) (r : RegexecOut) (str : String) :
    List Interpretation → Option (List Interpretation)
  | [] => some []
  | interp :: rest =>
    let m := r.pm interp.match_pos
    if m.rm_so < max_buf ∧ m.rm_so ≥ 0 ∧ m.rm_eo < max_buf ∧ m.rm_eo ≥ 0 then
      match match_RegEx_loop max_buf r str rest with
      | none => none
      | some rest1 => some ({ interp with val := some (str.drop m.rm_so.toNat) } :: rest1)
    else none

/-- The function `match_RegEx`: the result flag and the interpretation map of
the current EXPECT with its `val` pointers set (`none` map: `NULL`).  The
value `MAX_BUF` of the missing buffer.h is the parameter `max_buf`.  The
pointers reach the semantics functions through the returned map; they are not
written back into the script, where every later match sets them anew before
they are read. -/
def match_RegEx (rx : Regexec) (max_buf : Int) (dev : Device) (expect : String) :
    Option (Bool × Option (List Interpretation)) :=
  match dev.acts with
  | [] => none
  | act :: _ =>
    match act.cur with
    | some (.EXPECT _ exp map) =>
      let r := rx exp expect
      if r.n ≠ REG_NOERROR then some (false, map)
      else if (r.pm 0).rm_so = -1 ∨ (r.pm 0).rm_eo = -1 then some (false, map)
      else if ¬ (r.pm 0).rm_so ≤ (expect.length : Int) then none
      else
        match map with
        | none => some (true, none)
        | some m =>
          if dev.type = Dev_Type.PMD_DEV then
            match m with
            | [] => none
            | interp :: rest => some (true, some ({ interp with val := some expect } :: rest))
          else
            match match_RegEx_loop max_buf r expect m with
            | none => none
            | some m1 => some (true, some m1)
    | _ => none

/-! ## The script engine: `process_send`, `process_delay`, `process_expect`,
`process_script`, `map_Action_to_Device` -/

/-- The call `del_Action(dev->acts)` (`act_del_queuehead` in action.c): the
head of the queue is popped and destroyed. -/
def del_Action (acts : List Action) : List Action :=
  acts.tail

/-- The function `process_send`; it always returns `TRUE`. -/
def process_send (dev : Device) : Option (Bool × Device) :=
  match dev.acts with
  | [] => none
  | act :: _ =>
    match act.cur, dev.to_ with
    | some (.SEND fmt), some buf =>
      some (true, { dev with to_ := some (send_Buffer buf fmt act.target),
                             status := { dev.status with sending := true } })
    | _, _ => none

/-- The function `process_delay`: the wait itself leaves the device as it
is; it always returns `FALSE`. -/
def process_delay (dev : Device) : Option (Bool × Device) :=
  match dev.acts with
  | [] => none
  | act :: _ =>
    match act.cur with
    | some (.DELAY _) => some (false, dev)
    | _ => none

/-- The function `process_expect`: `TRUE` when nothing could be taken from
the incoming buffer, `FALSE` after a reply was consumed and interpreted. -/
def process_expect (rx : Regexec) (max_buf : Int) (dev : Device) (cl : Cluster) :
    Option (Bool × Device × Cluster) :=
  match dev.acts with
  | [] => none
  | act :: _ =>
    match act.cur, dev.from_ with
    | some (.EXPECT _ exp _), some buf =>
      match get_String_from_Buffer rx buf exp with
      | none => some (true, dev, cl)
      | some (expect, buf1) =>
        let dev1 := { dev with from_ := some buf1,
                               status := { dev.status with expecting := false } }
        match match_RegEx rx max_buf dev1 expect with
        | some (true, none) => some (false, dev1, cl)
        | some (true, some map) =>
          let cl1 :=
            if dev1.type = Dev_Type.PMD_DEV then do_PMD_semantics dev1 map cl
            else do_Device_semantics rx dev1 map cl
          match cl1 with
          | none => none
          | some cl2 => some (false, dev1, cl2)
        | _ => none
    | _, _ => none

/-- The tail of one turn of the `while (!done)` loop of `process_script`,
from `act->cur = list_next(act->itr)` to the new head's `cur`. -/
def process_script_advance (now : Timeval) (dev : Device) : Option Device :=
  match dev.acts with
  | [] => none
  | act :: rest =>
    match act.itr with
    | none => none
    | some itr =>
      let dev1 : Device :=
        match list_next itr with
        | (none, _) =>
          { dev with loggedin := if act.com = Command.PM_LOG_IN then true else dev.loggedin,
                     acts := del_Action dev.acts }
        | (some el, itr1) =>
          let d : Device := { dev with acts := { act with cur := some el, itr := some itr1 } :: rest }
          match el with
          | .EXPECT _ _ _ =>
            { d with time_stamp := now, status := { d.status with expecting := true } }
          | _ => d
      match dev1.acts with
      | [] => some dev1
      | act1 :: rest1 =>
        match act1.cur with
        | some _ => some dev1
        | none =>
          match act1.itr with
          | none => none
          | some itr1 =>
            some { dev1 with acts :=
              { act1 with cur := (list_next itr1).1, itr := some (list_next itr1).2 } :: rest1 }

/-- The `while (!done)` loop of `process_script`; `fuel` bounds the number of
turns. -/
def process_script_loop (rx : Regexec) (max_buf : Int) (now : Timeval) :
    Nat → Device → Cluster → Option (Device × Cluster)
  | 0, _, _ => none
  | fuel + 1, dev, cl =>
    match dev.acts with
    | [] => none
    | act :: _ =>
      match act.cur with
      | none => none
      | some .SND_EXP_UNKNOWN => none
      | some (.EXPECT _ _ _) =>
        match process_expect rx max_buf dev cl with
        | none => none
        | some (true, dev1, cl1) => some (dev1, cl1)
        | some (false, dev1, cl1) =>
          match process_script_advance now dev1 with
          | none => none
          | some dev2 =>
            if dev2.acts.isEmpty then some (dev2, cl1)
            else process_script_loop rx max_buf now fuel dev2 cl1
      | some (.SEND _) =>
        match process_send dev with
        | none => none
        | some (done, dev1) =>
          match process_script_advance now dev1 with
          | none => none
          | some dev2 =>
            if done || dev2.acts.isEmpty then some (dev2, cl)
            else process_script_loop rx max_buf now fuel dev2 cl
      | some (.DELAY _) =>
        match process_delay dev with
        | none => none
        | some (done, dev1) =>
          match process_script_advance now dev1 with
          | none => none
          | some dev2 =>
            if done || dev2.acts.isEmpty then some (dev2, cl)
            else process_script_loop rx max_buf now fuel dev2 cl

/-- Number of script elements the iterators of the queued actions still hold,
plus one per action: every turn of the loop of `process_script` lowers it. -/
def script_work (acts : List Action) : Nat :=
  (acts.map (fun act =>
    match act.itr with
    | none => 1
    | some itr => itr.list.length - itr.pos + 1)).sum

/-- The function `process_script`; `now` is what `gettimeofday` returns. -/
def process_script (rx : Regexec) (max_buf : Int) (now : Timeval) (dev : Device)
    (cl : Cluster) : Option (Device × Cluster) :=
  match dev.acts with
  | [] => some (dev, cl)
  | act :: _ =>
    match act.cur, dev.from_ with
    | none, _ => none
    | some (.EXPECT _ _ _), none => none
    | some (.EXPECT _ _ _), some buf =>
      if is_empty_Buffer buf then some (dev, cl)
      else process_script_loop rx max_buf now (script_work dev.acts + 1) dev cl
    | some _, _ => process_script_loop rx max_buf now (script_work dev.acts + 1) dev cl

/-- The start-up loop `while ((act->cur = list_next(act->itr)))` of
`map_Action_to_Device` with the `del_Action` behind it; `fuel` bounds the
number of turns. -/
def start_script_loop (now : Timeval) : Nat → Device → Option Device
  | 0, _ => none
  | fuel + 1, dev =>
    match dev.acts with
    | [] => none
    | act :: rest =>
      match act.itr with
      | none => none
      | some itr =>
        match list_next itr with
        | (none, _) => some { dev with acts := del_Action dev.acts }
        | (some el, itr1) =>
          let dev1 : Device :=
            { dev with acts := { act with cur := some el, itr := some itr1 } :: rest }
          match el with
          | .SEND _ =>
            match process_send { dev1 with status := { dev1.status with sending := true } } with
            | none => none
            | some (_, dev2) => start_script_loop now fuel dev2
          | .EXPECT _ _ _ =>
            some { dev1 with time_stamp := now,
                             status := { dev1.status with expecting := true } }
          | .DELAY _ => some dev1
          | .SND_EXP_UNKNOWN => start_script_loop now fuel dev1

/-- The function `map_Action_to_Device`; `now` is what `gettimeofday`
returns. -/
def map_Action_to_Device (rx : Regexec) (cl : Cluster) (now : Timeval) (dev : Device)
    (sact : Action) : Option Device :=
  if !dev.loggedin && sact.com ≠ Command.PM_LOG_IN then some dev
  else if (dev.prot.scripts sact.com).isNone then some dev
  else
    match set_targets rx cl dev sact with
    | none => none
    | some dev1 =>
      match dev1.acts with
      | [] => some dev1
      | act :: _ =>
        match act.itr with
        | none => none
        | some itr => start_script_loop now (itr.list.length - itr.pos + 1) dev1

/-! ## Connection handling -/

/-- The function `initiate_nonblocking_connect`; `newfd` is the descriptor
`Socket` returns and `n` the return value of `Connect`. -/
def initiate_nonblocking_connect (rx : Regexec) (cl : Cluster) (now : Timeval)
    (newfd : Nat) (n : Int) (dev : Device) : Option Device :=
  if ¬ (dev.type = Dev_Type.TCP_DEV ∨ dev.type = Dev_Type.PMD_DEV ∨
      dev.type = Dev_Type.TELNET_DEV) then none
  else if dev.status ≠ { conn := Conn.DEV_NOT_CONNECTED, sending := false, expecting := false }
  then none
  else if dev.fd ≠ none then none
  else if dev.type = Dev_Type.TELNET_DEV then none
  else
    let dev1 : Device :=
      { dev with fd := some newfd,
                 to_ := some (dev.to_.getD ""),
                 from_ := some (dev.from_.getD "") }
    if n ≥ 0 then
      map_Action_to_Device rx cl now
        { dev1 with error := false,
                    status := { conn := Conn.DEV_CONNECTED, sending := false, expecting := false } }
        (make_Action Command.PM_LOG_IN)
    else
      some { dev1 with
        status := { conn := Conn.DEV_CONNECTING, sending := false, expecting := false } }

/-- The function `do_Device_connect`; `err` is the pending socket error read
with `getsockopt` (or `errno`).  On an error `clear_Buffer` empties the two
buffers, which must exist. -/
def do_Device_connect (rx : Regexec) (cl : Cluster) (now : Timeval) (err : Int)
    (dev : Device) : Option Device :=
  if err ≠ 0 then
    match dev.to_, dev.from_ with
    | some _, some _ =>
      some { dev with fd := none, error := true,
                      status := { conn := Conn.DEV_NOT_CONNECTED, sending := false,
                                  expecting := false },
                      to_ := some "", from_ := some "" }
    | _, _ => none
  else
    map_Action_to_Device rx cl now
      { dev with error := false,
                 status := { conn := Conn.DEV_CONNECTED, sending := false, expecting := false } }
      (make_Action Command.PM_LOG_IN)

/-- The function `do_Device_reconnect`; `newfd` and `n` are handed on to
`initiate_nonblocking_connect`. -/
def do_Device_reconnect (rx : Regexec) (cl : Cluster) (now : Timeval) (newfd : Nat)
    (n : Int) (dev : Device) : Option Device :=
  match dev.from_, dev.to_ with
  | some _, some _ =>
    let dev1 : Device :=
      { dev with fd := none, from_ := none, to_ := none,
                 status := { conn := Conn.DEV_NOT_CONNECTED, sending := false,
                             expecting := false },
                 loggedin := false }
    let dev2 : Device :=
      match dev1.acts with
      | act :: _ =>
        if act.com = Command.PM_LOG_IN then { dev1 with acts := del_Action dev1.acts } else dev1
      | [] => dev1
    initiate_nonblocking_connect rx cl now newfd n dev2
  | _, _ => none

/-- The plug loop of `recover_Device`. -/
def recover_Device_loop : List Plug → Cluster → Cluster
  | [], cl => cl
  | plug :: rest, cl =>
    match plug.node with
    | some nd =>
      recover_Device_loop rest
        (set_state .node_state (set_state .plug_state cl nd .ST_UNKNOWN) nd .ST_UNKNOWN)
    | none => recover_Device_loop rest cl

/-- The function `recover_Device`. -/
def recover_Device (rx : Regexec) (cl : Cluster) (now : Timeval) (newfd : Nat) (n : Int)
    (dev : Device) : Option (Device × Cluster) :=
  let cl1 := recover_Device_loop dev.plugs cl
  match do_Device_reconnect rx cl1 now newfd n { dev with acts := [] } with
  | none => none
  | some dev1 => some (dev1, cl1)

/-- What `read_Buffer` on the device socket reports. -/
inductive ReadResult where
  | data (bytes : String)
  | eof
  | ewouldblock
  | econnreset
  deriving DecidableEq, Repr

/-- The function `handle_Device_read`: arriving bytes are put into the
incoming buffer, end of file or a connection reset start the reconnect. -/
def handle_Device_read (rx : Regexec) (cl : Cluster) (now : Timeval) (newfd : Nat)
    (n : Int) (res : ReadResult) (dev : Device) : Option Device :=
  match res with
  | .data bytes =>
    match dev.from_ with
    | none => none
    | some buf => some { dev with from_ := some (buf ++ bytes) }
  | .ewouldblock => some dev
  | .eof | .econnreset => do_Device_reconnect rx cl now newfd n dev

/-- The constructor `make_Device`; `now` is what `gettimeofday` returns.  The
fields it leaves unset (`all`, the ON and OFF expressions) are empty here,
and the `NULL` protocol is a protocol without scripts. -/
def make_Device (name : String) (now : Timeval) : Device :=
  { name := name, type := .NO_DEV, loggedin := false, error := false,
    status := { conn := .DEV_NOT_CONNECTED, sending := false, expecting := false },
    fd := none, acts := [], time_stamp := now,
    timeout := { tv_sec := 0, tv_usec := 0 }, to_ := none, from_ := none,
    prot := { mode := .NO_MODE, scripts := fun _ => none },
    all := "", on_re := "", off_re := "", plugs := [], logit := false }

/-! ## Stall detection: `overdue`, `stalled_Device` -/

/-- The function `overdue`; `now` is what `gettimeofday` returns. -/
def overdue (time_stamp timeout now : Timeval) : Bool :=
  let limit_usec := time_stamp.tv_usec + timeout.tv_usec
  let limit_sec := time_stamp.tv_sec + timeout.tv_sec
  let limit : Timeval :=
    if limit_usec > 1000000 then { tv_sec := limit_sec + 1, tv_usec := limit_usec - 1000000 }
    else { tv_sec := limit_sec, tv_usec := limit_usec }
  decide (now.tv_sec > limit.tv_sec) ||
    (decide (now.tv_sec = limit.tv_sec) && decide (now.tv_usec > limit.tv_usec))

/-- The function `stalled_Device`. -/
def stalled_Device (dev : Device) (now : Timeval) : Bool :=
  dev.status.expecting && overdue dev.time_stamp dev.timeout now

/-! ## The global action queue (action.c) -/

/-- The state action.c works on: the queue `act_actions`, the device list
`dev_devices`, and the calls of `cli_reply` made so far, oldest first (the
client module is not among the sources; a reply is recorded as the action it
was made for). -/
structure Dispatcher where
  act_actions : List Action
  dev_devices : List Device
  replies : List Action

/-- The function `act_create`. -/
def act_create (com : Command) : Action :=
  { com := com, client := none, seq := 0, itr := none, cur := none, target := none }

/-- The function `act_add`. -/
def act_add (act : Action) (st : Dispatcher) : Dispatcher :=
  { st with act_actions := st.act_actions ++ [act] }

/-- The function `act_update`. -/
def act_update (st : Dispatcher) : Dispatcher :=
  { st with act_actions :=
      (st.act_actions ++ [act_create .PM_UPDATE_PLUGS]) ++ [act_create .PM_UPDATE_NODES] }

/-- The function `act_del_queuehead`: `list_pop` and `act_destroy`, which
does not return on the `NULL` that an empty queue pops. -/
def act_del_queuehead (acts : List Action) : Option (List Action) :=
  match acts with
  | [] => none
  | _ :: rest => some rest

/-- The function `act_find` on the queue: the action it returns and the queue
it leaves.  `cli_exists` is the callback of the client module. -/
def act_find (cli_exists : Nat → Bool) : List Action → Option Action × List Action
  | [] => (none, [])
  | act :: rest =>
    match act.client with
    | none => (some act, act :: rest)
    | some c =>
      if cli_exists c then (some act, act :: rest)
      else act_find cli_exists rest

/-- The function `act_finish`. -/
def act_finish (act : Action) (st : Dispatcher) : Option Dispatcher :=
  let replies := if act.client ≠ none then st.replies ++ [act] else st.replies
  match act_del_queuehead st.act_actions with
  | none => none
  | some acts => some { st with act_actions := acts, replies := replies }

/-- The call `dev_acttodev(dev, act)` of `act_initiate`: the function that
device.c defines under the name `map_Action_to_Device`. -/
def dev_acttodev (rx : Regexec) (cl : Cluster) (now : Timeval) (dev : Device)
    (act : Action) : Option Device :=
  map_Action_to_Device rx cl now dev act

/-- The loop `while ((dev = list_next(itr))) dev_acttodev(dev, act)` of
`act_initiate`. -/
def act_initiate_devices (rx : Regexec) (cl : Cluster) (now : Timeval) (act : Action) :
    List Device → Option (List Device)
  | [] => some []
  | dev :: rest =>
    match dev_acttodev rx cl now dev act with
    | none => none
    | some dev1 =>
      match act_initiate_devices rx cl now act rest with
      | none => none
      | some rest1 => some (dev1 :: rest1)

/-- The function `act_initiate`; `fuel` bounds the depth of its recursion. -/
def act_initiate_fuel (rx : Regexec) (cl : Cluster) (now : Timeval)
    (cli_exists : Nat → Bool) : Nat → Action → Dispatcher → Option Dispatcher
  | 0, _, _ => none
  | fuel + 1, act, st =>
    match act.com with
    | .PM_ERROR | .PM_LOG_IN | .PM_CHECK_LOGIN | .PM_LOG_OUT | .PM_NAMES =>
      match act_finish act st with
      | none => none
      | some st1 =>
        match act_find cli_exists st1.act_actions with
        | (none, acts) => some { st1 with act_actions := acts }
        | (some act1, acts) =>
          act_initiate_fuel rx cl now cli_exists fuel act1 { st1 with act_actions := acts }
    | .PM_UPDATE_PLUGS | .PM_UPDATE_NODES | .PM_POWER_ON | .PM_POWER_OFF | .PM_POWER_CYCLE
    | .PM_RESET =>
      match act_initiate_devices rx cl now act st.dev_devices with
      | none => none
      | some devs => some { st with dev_devices := devs }

/-- The function `act_initiate`: every level of the recursion takes one
action off the queue, so the queue length plus one is fuel enough. -/
def act_initiate (rx : Regexec) (cl : Cluster) (now : Timeval) (cli_exists : Nat → Bool)
    (act : Action) (st : Dispatcher) : Option Dispatcher :=
  act_initiate_fuel rx cl now cli_exists (st.act_actions.length + 1) act st

/-- Modelled from the spec: the calls that the select loop of the missing
powermand.c makes into action.c (spec 4.6 and 6): a client request is
appended, the periodic update is appended, the head of the queue is looked
up, the dispatcher runs on quiescence, the action in flight (the head of the
queue) is finished.  A lookup carries the clients that exist at its time. -/
inductive QueueOp where
  | add (act : Action)
  | update
  | find (cli_exists : Nat → Bool)
  | initiate (cli_exists : Nat → Bool)
  | finish

/-- Modelled from the spec: one call of the select loop into action.c.  The
dispatcher step is `act = act_find(); if (act != NULL) act_initiate(act)`. -/
def queue_step (rx : Regexec) (cl : Cluster) (now : Timeval) (op : QueueOp)
    (st : Dispatcher) : Option Dispatcher :=
  match op with
  | .add act => some (act_add act st)
  | .update => some (act_update st)
  | .find cli_exists => some { st with act_actions := (act_find cli_exists st.act_actions).2 }
  | .initiate cli_exists =>
    match act_find cli_exists st.act_actions with
    | (none, acts) => some { st with act_actions := acts }
    | (some act, acts) => act_initiate rx cl now cli_exists act { st with act_actions := acts }
  | .finish =>
    match st.act_actions with
    | [] => some st
    | act :: _ => act_finish act st

/-- Modelled from the spec: a run of the select loop, call by call. -/
def queue_run (rx : Regexec) (cl : Cluster) (now : Timeval) :
    List QueueOp → Dispatcher → Option Dispatcher
  | [], st => some st
  | op :: ops, st =>
    match queue_step rx cl now op st with
    | none => none
    | some st1 => queue_run rx cl now ops st1

/-! ## The client library (libpowerman.c) -/

/-- The error codes of libpowerman.h that libpowerman.c returns. -/
inductive pm_err_t where
  | PM_ESUCCESS
  | PM_ERRNOVALID
  | PM_ENOADDR
  | PM_ECONNECT
  | PM_ENOMEM
  | PM_EBADHAND
  | PM_EBADNODE
  | PM_EBADARG
  | PM_ESERVEREOF
  deriving DecidableEq, Repr

/-- What one turn of the loop of `_server_recv_response` meets: the buffer
cannot be grown, or `read` returns 0, a negative value, or bytes (no bytes
is a return value of 0). -/
inductive RecvEvent where
  | nomem
  | eof
  | error
  | data (bytes : String)
  deriving DecidableEq, Repr

/-- The function `_terminated`: it returns 1 whatever has been read. -/
def _terminated (_buf : String) (_count : Nat) : Bool :=
  true

/-- The `do ... while (!_terminated(buf, count))` loop of
`_server_recv_response`: the error code and the bytes read.  The reads are
consumed from the list; `none` when the list ends before the loop does. -/
def server_recv_loop : List RecvEvent → String → Option (pm_err_t × String)
  | [], _ => none
  | .nomem :: _, buf => some (.PM_ENOMEM, buf)
  | .eof :: _, buf => some (.PM_ESERVEREOF, buf)
  | .error :: _, buf => some (.PM_ERRNOVALID, buf)
  | .data bytes :: rest, buf =>
    if bytes.length = 0 then some (.PM_ESERVEREOF, buf)
    else if _terminated (buf ++ bytes) (buf ++ bytes).length then
      some (.PM_ESUCCESS, buf ++ bytes)
    else server_recv_loop rest (buf ++ bytes)

/-- The function `_server_recv_response`.  The argument `response` is a
`char **`: `none` is `NULL`, `some v` points to a variable that holds `v`.
The result is the error code and what `response` points to afterwards;
`none` when `*response = buf` stores through `NULL`. -/
def _server_recv_response (reads : List RecvEvent) (response : Option (Option String)) :
    Option (pm_err_t × Option (Option String)) :=
  match server_recv_loop reads "" with
  | none => none
  | some (err, buf) =>
    if err = pm_err_t.PM_ESUCCESS then
      match response with
      | none => none
      | some _ => some (err, some (some buf))
    else some (err, response)

/-- The `while (count < msglen)` loop of `_server_send_command`; the list
holds the return values of the successive calls of `write`. -/
def server_send_loop (msglen : Nat) : List Int → Nat → Option pm_err_t
  | [], count => if count < msglen then none else some .PM_ESUCCESS
  | n :: rest, count =>
    if count < msglen then
      if n < 0 then some .PM_ERRNOVALID
      else server_send_loop msglen rest (count + n.toNat)
    else some .PM_ESUCCESS

/-- The function `_server_send_command`.  `CP_EOL` and `CP_LINEMAX` of the
missing client_proto.h are the parameters `cp_eol` and `cp_linemax`; `snprintf`
cuts the line to `cp_linemax - 1` characters. -/
def _server_send_command (cp_eol : String) (cp_linemax : Nat) (writes : List Int)
    (cmd : String) (arg : Option String) : Option pm_err_t :=
  let sendstr :=
    (cmd ++ (if arg.isSome then " " else "") ++ arg.getD "" ++ cp_eol).data.take
      (cp_linemax - 1)
  server_send_loop sendstr.length writes 0

/-- The function `_server_command`. -/
def _server_command (cp_eol : String) (cp_linemax : Nat) (writes : List Int)
    (reads : List RecvEvent) (cmd : String) (arg : Option String)
    (response : Option (Option String)) : Option (pm_err_t × Option (Option String)) :=
  match _server_send_command cp_eol cp_linemax writes cmd arg with
  | none => none
  | some err =>
    if err ≠ pm_err_t.PM_ESUCCESS then some (err, response)
    else
      match _server_recv_response reads response with
      | none => none
      | some (err2, response2) =>
        if err2 ≠ pm_err_t.PM_ESUCCESS then some (err2, response2)
        else some (.PM_ESUCCESS, response2)

/-! ## Specification vocabulary -/

/-- The plug is bound to a node whose name the selector matches in full. -/
def plug_matches (rx : Regexec) (cl : Cluster) (target : String) (plug : Plug) : Bool :=
  match plug.node with
  | none => false
  | some nd => full_match rx target (cl nd).name

/-- The per-device action `do_target_copy` returns for a script and target. -/
def copied_action (sact : Action) (script : List Script_El) (target : Option String) :
    Action :=
  { com := sact.com, client := sact.client, seq := sact.seq,
    itr := some { list := script, pos := 0 }, cur := none, target := target }

/-- The commands that take a node selector and are fanned out per plug. -/
def targeted (com : Command) : Bool :=
  match com with
  | .PM_POWER_ON | .PM_POWER_OFF | .PM_POWER_CYCLE | .PM_RESET => true
  | _ => false

/-- A time as a number of microseconds. -/
def usec_of (t : Timeval) : Int :=
  t.tv_sec * 1000000 + t.tv_usec

/-- A normalised time: the microseconds lie between 0 and 999999. -/
def normalised (t : Timeval) : Prop :=
  0 ≤ t.tv_usec ∧ t.tv_usec < 1000000

/-- The commands that `act_initiate` answers itself, without the devices. -/
def informational (com : Command) : Bool :=
  match com with
  | .PM_ERROR | .PM_LOG_IN | .PM_CHECK_LOGIN | .PM_LOG_OUT | .PM_NAMES => true
  | _ => false

/-- The action has a client and that client no longer exists. -/
def client_gone (cli_exists : Nat → Bool) (act : Action) : Bool :=
  match act.client with
  | some c => !cli_exists c
  | none => false

/-- The action has a client and that client exists. -/
def client_live (cli_exists : Nat → Bool) (act : Action) : Bool :=
  match act.client with
  | some c => cli_exists c
  | none => false

/-- The actions a call appends to the global queue. -/
def queue_added (op : QueueOp) : List Action :=
  match op with
  | .add act => [act]
  | .update => [act_create .PM_UPDATE_PLUGS, act_create .PM_UPDATE_NODES]
  | _ => []

/-- The actions a run appends to the global queue, in order. -/
def queue_added_run (ops : List QueueOp) : List Action :=
  (ops.map queue_added).flatten

/-- Which of the actions that leave the queue in a call are replied to:
those with a client when the call finishes the action in flight, those with a
live client when the dispatcher runs, none otherwise. -/
def replied_in (op : QueueOp) (act : Action) : Bool :=
  match op with
  | .finish => act.client.isSome
  | .initiate cli_exists => client_live cli_exists act
  | _ => false

/-- The update command that writes the given state field. -/
def update_command (f : StateField) : Command :=
  match f with
  | .plug_state => .PM_UPDATE_PLUGS
  | .node_state => .PM_UPDATE_NODES

/-- The state field an update of the given one leaves alone. -/
def other_field (f : StateField) : StateField :=
  match f with
  | .plug_state => .node_state
  | .node_state => .plug_state

/-- The queue with the iterator of its head action set back to the start. -/
def reset_head : List Action → List Action
  | [] => []
  | act :: rest => { act with itr := act.itr.map list_iterator_reset } :: rest

/-- The actions that a disconnect keeps: all but a PM_LOG_IN at the head. -/
def kept_after_disconnect : List Action → List Action
  | [] => []
  | act :: rest => if act.com = Command.PM_LOG_IN then rest else act :: rest

/-- The node store with one state field overwritten: `w nd = some v` puts `v`
into the field of node `nd`, `w nd = none` leaves the node as it is. -/
def overwrite (f : StateField) (w : NodeRef → Option State_Val) (cl : Cluster) : Cluster :=
  fun nd =>
    match w nd with
    | none => cl nd
    | some v =>
      match f with
      | .plug_state => { cl nd with p_state := v }
      | .node_state => { cl nd with n_state := v }

/-- The choice `process_expect` makes between the two semantics functions:
`do_PMD_semantics` for a proxy device, `do_Device_semantics` otherwise. -/
def expect_semantics (rx : Regexec) (dev : Device) (map : List Interpretation)
    (cl : Cluster) : Option Cluster :=
  if dev.type = Dev_Type.PMD_DEV then do_PMD_semantics dev map cl
  else do_Device_semantics rx dev map cl

/-- The state field that the command of the head action updates: the
node-state for PM_UPDATE_NODES, the plug-state for PM_UPDATE_PLUGS (and for
the commands that update nothing). -/
def head_field (dev : Device) : StateField :=
  match dev.acts with
  | act :: _ =>
    match act.com with
    | .PM_UPDATE_NODES => .node_state
    | _ => .plug_state
  | [] => .plug_state

/-- The action is not handed to the devices by act_initiate: its command is
answered directly, or its client no longer exists and act_find discards it. -/
def passed_over (cli_exists : Nat → Bool) (act : Action) : Bool :=
  informational act.com || client_gone cli_exists act

/-- Position of the first occurrence of `pat` in the text, counted from `k`. -/
def literal_find (pat : List Char) : List Char → Nat → Option Nat
  | [], k => if pat = [] then some k else none
  | c :: cs, k => if pat.isPrefixOf (c :: cs) then some k else literal_find pat cs (k + 1)

/-- A small engine that reads the pattern as literal text: it reports the
leftmost occurrence of the pattern in the subject as `pm[0]`.  It stands in
for libc when the definitions are run on concrete inputs. -/
def literal_regexec : Regexec := fun pat str =>
  match literal_find pat.data str.data 0 with
  | some k => { n := REG_NOERROR,
                pmatch := [{ rm_so := (k : Int), rm_eo := (k : Int) + (pat.length : Int) }] }
  | none => { n := REG_NOMATCH, pmatch := [] }

/-- A node store with `node0`, `node1` and `node2`. -/
def ex_cluster : Cluster := fun i =>
  match i with
  | 0 => { name := "node0", p_state := .ST_UNKNOWN, n_state := .ST_UNKNOWN }
  | 1 => { name := "node1", p_state := .ST_UNKNOWN, n_state := .ST_UNKNOWN }
  | _ => { name := "node2", p_state := .ST_UNKNOWN, n_state := .ST_UNKNOWN }

/-- A protocol in which power-on and log-in have scripts. -/
def ex_prot (mode : String_Mode) : Protocol :=
  { mode := mode,
    scripts := fun com =>
      match com with
      | .PM_LOG_IN => some [.SEND "login\n", .EXPECT "ok" "ok" none]
      | .PM_POWER_ON => some [.SEND "on %s\n", .EXPECT "done" "done" none]
      | .PM_POWER_OFF =>
        some [.SEND "select %s\n", .EXPECT "selected" "selected" none, .SEND "off\n",
              .SEND "commit\n", .EXPECT "done" "done" none]
      | _ => none }

/-- A connected, logged-in LITERAL device with the given plugs and queue. -/
def ex_dev (plugs : List Plug) (acts : List Action) : Device :=
  { name := "pdu", type := .TCP_DEV, loggedin := true, error := false,
    status := { conn := .DEV_CONNECTED, sending := false, expecting := false },
    fd := some 3, acts := acts,
    time_stamp := { tv_sec := 0, tv_usec := 0 }, timeout := { tv_sec := 10, tv_usec := 0 },
    to_ := some "", from_ := some "", prot := ex_prot .LITERAL, all := "*",
    on_re := "ON", off_re := "OFF", plugs := plugs, logit := false }

/-- The update script of the proxy device: one EXPECT with a single map
entry. -/
def ex_pmd_script : List Script_El :=
  [.SEND "status\n",
   .EXPECT "" "" (some [{ plug_name := "vector", match_pos := 0, val := none, node := none }])]

/-- A connected proxy device with the given plugs whose head action is an
update of the given kind, waiting at the EXPECT of its script. -/
def ex_pmd_dev (com : Command) (plugs : List Plug) : Device :=
  { name := "pmd", type := .PMD_DEV, loggedin := true, error := false,
    status := { conn := .DEV_CONNECTED, sending := false, expecting := true },
    fd := some 4,
    acts := [{ com := com, client := none, seq := 0,
               itr := some { list := ex_pmd_script, pos := 2 },
               cur := ex_pmd_script.get? 1, target := none }],
    time_stamp := { tv_sec := 0, tv_usec := 0 }, timeout := { tv_sec := 10, tv_usec := 0 },
    to_ := some "", from_ := some "",
    prot := { mode := .REGEX,
              scripts := fun c =>
                match c with
                | .PM_UPDATE_PLUGS => some ex_pmd_script
                | .PM_UPDATE_NODES => some ex_pmd_script
                | _ => none },
    all := ".*", on_re := "1", off_re := "0", plugs := plugs, logit := false }

/-- A power-on request from client 7 for the given selector. -/
def ex_on (target : String) : Action :=
  { com := .PM_POWER_ON, client := some 7, seq := 1, itr := none, cur := none,
    target := some target }

/-- A power-off request from client 7 for node1. -/
def ex_off : Action :=
  { com := .PM_POWER_OFF, client := some 7, seq := 2, itr := none, cur := none,
    target := some "node1" }

/-- The time the scenarios run at. -/
def ex_now : Timeval :=
  { tv_sec := 100, tv_usec := 0 }

/-- Scenario, part 1: the power-off of node1 is mapped to the device, the
device answers "selected" and process_script carries on with the script. -/
def relogin_before : Option Device :=
  (map_Action_to_Device literal_regexec ex_cluster ex_now
      (ex_dev [⟨"1", some 0⟩, ⟨"2", some 1⟩] []) ex_off).bind fun d1 =>
  (handle_Device_read literal_regexec ex_cluster ex_now 5 (-1) (.data "selected") d1).bind
    fun d2 => (process_script literal_regexec 64000 ex_now d2 ex_cluster).map Prod.fst

/-- Scenario, part 2: the read reports end of file, the device reconnects
and the connect completes without error. -/
def relogin_reconnected : Option Device :=
  relogin_before.bind fun d1 =>
  (handle_Device_read literal_regexec ex_cluster ex_now 5 (-1) .eof d1).bind
    (do_Device_connect literal_regexec ex_cluster ex_now 0)

/-- Scenario, part 3: the device answers the login with "ok" and
process_script runs. -/
def relogin_after_login : Option Device :=
  relogin_reconnected.bind fun d1 =>
  (handle_Device_read literal_regexec ex_cluster ex_now 5 (-1) (.data "ok") d1).bind
    fun d2 => (process_script literal_regexec 64000 ex_now d2 ex_cluster).map Prod.fst

/-- What the scenario looks at: per queued action its command, current
element and iterator position. -/
def queue_view (dev : Device) : List (Command × Option Script_El × Option Nat) :=
  dev.acts.map (fun act => (act.com, act.cur, act.itr.map ListIterator.pos))

/-- A device in the middle of a non-blocking connect, not logged in, whose
login script is the given one. -/
def ex_connecting (login : List Script_El) : Device :=
  { name := "pdu", type := .TCP_DEV, loggedin := false, error := false,
    status := { conn := .DEV_CONNECTING, sending := false, expecting := false },
    fd := some 3, acts := [],
    time_stamp := { tv_sec := 0, tv_usec := 0 }, timeout := { tv_sec := 10, tv_usec := 0 },
    to_ := some "", from_ := some "",
    prot := { mode := .LITERAL,
              scripts := fun com =>
                match com with
                | .PM_LOG_IN => some login
                | _ => none },
    all := "*", on_re := "ON", off_re := "OFF", plugs := [⟨"1", some 0⟩], logit := false }

/-- A device whose head action waits at an EXPECT with the completion
expression "END" and the capture expression "on", with the given bytes in the
incoming buffer. -/
def ex_expecting (incoming : String) : Device :=
  { (ex_dev [⟨"1", some 0⟩] []) with
    status := { conn := .DEV_CONNECTED, sending := false, expecting := true },
    from_ := some incoming,
    acts := [{ com := .PM_POWER_ON, client := some 7, seq := 1,
               itr := some { list := [.SEND "on %s\n", .EXPECT "END" "on" none], pos := 2 },
               cur := some (.EXPECT "END" "on" none), target := some "1" }] }

/-- A device that started to expect at 0.5 s with a timeout of 0.5 s. -/
def ex_waiting : Device :=
  { (ex_dev [⟨"1", some 0⟩] []) with
    status := { conn := .DEV_CONNECTED, sending := false, expecting := true },
    time_stamp := { tv_sec := 0, tv_usec := 500000 },
    timeout := { tv_sec := 0, tv_usec := 500000 } }

/-- A power-off action of the device queue that has reached the fourth
element of its script. -/
def ex_running : Action :=
  { com := .PM_POWER_OFF, client := some 7, seq := 2,
    itr := some { list := [.SEND "select %s\n", .EXPECT "selected" "selected" none,
                           .SEND "off\n", .SEND "commit\n", .EXPECT "done" "done" none],
                  pos := 4 },
    cur := some (.SEND "commit\n"), target := some "2" }

/-- A request of the given kind from the given client, without target. -/
def ex_req (com : Command) (client : Option Nat) (seq : Nat) : Action :=
  { com := com, client := client, seq := seq, itr := none, cur := none, target := none }

/-- A REGEX-mode device with the scripts of the example protocol. -/
def ex_regex_dev (plugs : List Plug) (acts : List Action) : Device :=
  { (ex_dev plugs acts) with prot := ex_prot .REGEX }

/-- Client 7 exists, every other client is gone. -/
def ex_clients : Nat → Bool := fun c => c == 7

/-- An ordinary device whose head action is a plug update waiting at an
EXPECT that binds the reply to node 0 and, a second time, to no node. -/
def ex_status_dev : Device :=
  { (ex_dev [⟨"1", some 0⟩] []) with
    status := { conn := .DEV_CONNECTED, sending := false, expecting := true },
    acts := [{ com := .PM_UPDATE_PLUGS, client := none, seq := 0,
               itr := some { list := [.SEND "status\n",
                                      .EXPECT "ON" "ON"
                                        (some [{ plug_name := "1", match_pos := 0, val := none,
                                                 node := some 0 },
                                               { plug_name := "2", match_pos := 0, val := none,
                                                 node := none }])],
                             pos := 2 },
               cur := some (.EXPECT "ON" "ON"
                 (some [{ plug_name := "1", match_pos := 0, val := none, node := some 0 },
                        { plug_name := "2", match_pos := 0, val := none, node := none }])),
               target := none }] }

/-- A logged-in device that expects a reply for the running power-off
action. -/
def ex_stalled : Device :=
  { (ex_dev [⟨"1", some 0⟩, ⟨"2", some 1⟩] [ex_running]) with
    status := { conn := .DEV_CONNECTED, sending := false, expecting := true } }

/-- A node store in which every node is ON, plug and node state alike. -/
def ex_cluster_on : Cluster := fun i =>
  { name := (ex_cluster i).name, p_state := .ST_ON, n_state := .ST_ON }

/-- A device whose ON expression "O" and OFF expression "N" both match the
token "ON"; the head action is the plug-status update of `ex_status_dev`. -/
def ex_overlap_dev : Device :=
  { ex_status_dev with on_re := "O", off_re := "N" }

/-- A configured device that has not been connected yet: no descriptor, no
buffers, status NOT_CONNECTED. -/
def ex_unconnected : Device :=
  { (ex_connecting [.SEND "login\n", .EXPECT "ok" "ok" none]) with
    fd := none, to_ := none, from_ := none,
    status := { conn := .DEV_NOT_CONNECTED, sending := false, expecting := false } }

/-- A dispatcher state: a NAMES request of the live client 7, a NAMES request
of the vanished client 8, a power-on of node0 and a plug update are queued;
the device list holds one device. -/
def ex_dispatcher : Dispatcher :=
  { act_actions := [ex_req .PM_NAMES (some 7) 1, ex_req .PM_NAMES (some 8) 2,
      ex_on "node0", act_create .PM_UPDATE_PLUGS],
    dev_devices := [ex_dev [⟨"1", some 0⟩] []],
    replies := [] }

/-- The pattern matched at the start of the text, for patterns made of
literal characters and of the group "([01])", which takes one character '0'
or '1': the position behind the match and the offsets of the groups.  The
text starts at position `k` of the subject; `fuel` bounds the pattern
length. -/
def group_match : Nat → List Char → List Char → Nat → Option (Nat × List regmatch_t)
  | 0, _, _, _ => none
  | fuel + 1, pat, text, k =>
    if pat = [] then some (k, [])
    else if "([01])".data.isPrefixOf pat then
      match text with
      | c :: tl =>
        if c = '0' ∨ c = '1' then
          (group_match fuel (pat.drop 6) tl (k + 1)).map
            (fun r => (r.1, { rm_so := (k : Int), rm_eo := (k : Int) + 1 } :: r.2))
        else none
      | [] => none
    else
      match pat, text with
      | p :: ps, c :: tl => if p = c then group_match fuel ps tl (k + 1) else none
      | _, _ => none

/-- The leftmost position of the text at which the pattern matches. -/
def group_search (pat : List Char) : List Char → Nat → Option (Nat × Nat × List regmatch_t)
  | [], k => (group_match (pat.length + 1) pat [] k).map (fun r => (k, r))
  | c :: tl, k =>
    match group_match (pat.length + 1) pat (c :: tl) k with
    | some r => some (k, r)
    | none => group_search pat tl (k + 1)

/-- A small engine with subgroups: literal characters and the group "([01])".
It reports the leftmost match as `pm[0]` and the groups as `pm[1]`, `pm[2]`
and so on, as `regexec` does for such an expression. -/
def group_regexec : Regexec := fun pat str =>
  match group_search pat.data str.data 0 with
  | some (so, eo, groups) =>
    { n := REG_NOERROR, pmatch := { rm_so := (so : Int), rm_eo := (eo : Int) } :: groups }
  | none => { n := REG_NOMATCH, pmatch := [] }

/-- The interpretation map of `ex_capture_dev`: subgroup 1 is the plug of
node 0, subgroup 2 the plug of node 1. -/
def ex_capture_map : List Interpretation :=
  [{ plug_name := "1", match_pos := 1, val := none, node := some 0 },
   { plug_name := "2", match_pos := 2, val := none, node := some 1 }]

/-- An ordinary device with ON expression "1" and OFF expression "0" whose
head action is a plug update waiting at the EXPECT `exp`, with `incoming` in
the buffer. -/
def ex_capture_dev (exp : String) (incoming : String) : Device :=
  { (ex_dev [⟨"1", some 0⟩, ⟨"2", some 1⟩] []) with
    on_re := "1", off_re := "0",
    status := { conn := .DEV_CONNECTED, sending := false, expecting := true },
    from_ := some incoming,
    acts := [{ com := .PM_UPDATE_PLUGS, client := none, seq := 0,
               itr := some { list := [.SEND "status\n", .EXPECT exp exp (some ex_capture_map)],
                             pos := 2 },
               cur := some (.EXPECT exp exp (some ex_capture_map)),
               target := none }] }

end Powerman

namespace Powerman

/-! ## Target fanout (C1 to C4) -/

theorem do_target_copy_eq (dev : Device) (sact : Action) (script : List Script_El)
    (h : dev.prot.scripts sact.com = some script) (t : Option String) :
    do_target_copy dev sact t = some (copied_action sact script t) := by
  simp [do_target_copy, h, list_iterator_create, copied_action]

theorem drain_new_acts_eq (new_acts acts : List Action) :
    drain_new_acts new_acts acts = acts ++ new_acts := by
  induction new_acts generalizing acts with
  | nil => simp [drain_new_acts]
  | cons a rest ih => simp [drain_new_acts, ih]

theorem do_target_some_loop_eq (rx : Regexec) (cl : Cluster) (dev : Device) (sact : Action)
    (target : String) (script : List Script_El)
    (h : dev.prot.scripts sact.com = some script) (plugs : List Plug) (st : TargetScan) :
    do_target_some_loop rx cl dev sact target plugs st =
      some { all := st.all && plugs.all (plug_matches rx cl target),
             any := st.any || plugs.any (plug_matches rx cl target),
             new_acts := st.new_acts ++
               (plugs.filter (plug_matches rx cl target)).map
                 (fun p => copied_action sact script (some p.name)) } := by
  induction plugs generalizing st with
  | nil => simp [do_target_some_loop]
  | cons plug rest ih =>
    cases hn : plug.node with
    | none =>
      simp [do_target_some_loop, hn, ih, plug_matches]
    | some nd =>
      by_cases hm : not_whole_name rx target (cl nd).name = true
      · simp [do_target_some_loop, hn, ih, plug_matches, full_match, hm]
      · simp [do_target_some_loop, hn, ih, plug_matches, full_match, hm,
          do_target_copy_eq dev sact script h]

theorem do_target_some_loop_none_match (rx : Regexec) (cl : Cluster) (dev : Device)
    (sact : Action) (target : String) (plugs : List Plug) (st : TargetScan)
    (hno : ∀ p ∈ plugs, plug_matches rx cl target p = false) :
    do_target_some_loop rx cl dev sact target plugs st =
      some { st with all := st.all && plugs.isEmpty } := by
  induction plugs generalizing st with
  | nil => simp [do_target_some_loop]
  | cons plug rest ih =>
    have hp := hno plug (List.mem_cons_self _ _)
    have hrest : ∀ p ∈ rest, plug_matches rx cl target p = false :=
      fun p hp => hno p (List.mem_cons_of_mem _ hp)
    cases hn : plug.node with
    | none => simp [do_target_some_loop, hn, ih _ hrest]
    | some nd =>
      simp [plug_matches, hn, full_match] at hp
      simp [do_target_some_loop, hn, hp, ih _ hrest]

theorem plug_matches_iff (rx : Regexec) (cl : Cluster) (target : String) (plug : Plug) :
    plug_matches rx cl target plug = true ↔
      ∃ nd, plug.node = some nd ∧ full_match rx target (cl nd).name = true := by
  cases hn : plug.node with
  | none => simp [plug_matches, hn]
  | some nd => simp [plug_matches, hn]

theorem do_target_some_eq (rx : Regexec) (cl : Cluster) (dev : Device) (sact : Action)
    (target : String) (script : List Script_El)
    (htarget : sact.target = some target)
    (hscript : dev.prot.scripts sact.com = some script) :
    do_target_some rx cl dev sact =
      some { dev with acts := dev.acts ++
        (if dev.plugs.all (plug_matches rx cl target) then
          [copied_action sact script (some dev.all)]
        else
          (dev.plugs.filter (plug_matches rx cl target)).map
            (fun p => copied_action sact script (some p.name))) } := by
  unfold do_target_some
  simp only [htarget, do_target_some_loop_eq rx cl dev sact target script hscript,
    do_target_copy_eq dev sact script hscript, drain_new_acts_eq]
  by_cases hall : dev.plugs.all (plug_matches rx cl target) = true
  · simp [hall]
  · by_cases hany : dev.plugs.any (plug_matches rx cl target) = true
    · simp [hall, hany]
    · have hnone : dev.plugs.filter (plug_matches rx cl target) = [] := by
        simp only [List.any_eq_true, not_exists, not_and] at hany
        exact List.filter_eq_nil_iff.mpr (fun p hp => hany p hp)
      simp [hall, hany, hnone]

/-- C1: on a LITERAL-mode device whose plugs are all bound to nodes whose
names the selector matches in full, set_targets (through do_target_some) for
a targeted command appends exactly one per-device action to the tail of the
device queue, its target is the device's "all" token, and the entries already
queued stay as they were. -/
theorem C1_all_plugs_match_one_all_action (rx : Regexec) (cl : Cluster) (dev : Device)
    (sact : Action) (target : String) (script : List Script_El)
    (hmode : dev.prot.mode = String_Mode.LITERAL)
    (hcom : targeted sact.com = true)
    (htarget : sact.target = some target)
    (hscript : dev.prot.scripts sact.com = some script)
    (hall : ∀ plug ∈ dev.plugs,
      ∃ nd, plug.node = some nd ∧ full_match rx target (cl nd).name = true) :
    set_targets rx cl dev sact =
        some { dev with acts := dev.acts ++ [copied_action sact script (some dev.all)] } ∧
      do_target_some rx cl dev sact =
        some { dev with acts := dev.acts ++ [copied_action sact script (some dev.all)] } := by
  have hall2 : dev.plugs.all (plug_matches rx cl target) = true := by
    simp only [List.all_eq_true]
    exact fun p hp => (plug_matches_iff rx cl target p).mpr (hall p hp)
  have hsome := do_target_some_eq rx cl dev sact target script htarget hscript
  simp only [hall2, if_true] at hsome
  refine ⟨?_, hsome⟩
  unfold set_targets
  cases hc : sact.com <;> simp [hc, targeted] at hcom <;> simp [htarget, hmode, hsome]

/-- Witness of C1: a device whose only plug carries node1, selector "node1". -/
theorem C1_witness :
    (ex_dev [⟨"7", some 1⟩] []).prot.mode = String_Mode.LITERAL ∧
    (set_targets literal_regexec ex_cluster (ex_dev [⟨"7", some 1⟩] []) (ex_on "node1")
        = some { (ex_dev [⟨"7", some 1⟩] []) with
            acts := [] ++ [copied_action (ex_on "node1")
              [.SEND "on %s\n", .EXPECT "done" "done" none] (some "*")] } ∧
      do_target_some literal_regexec ex_cluster (ex_dev [⟨"7", some 1⟩] []) (ex_on "node1")
        = some { (ex_dev [⟨"7", some 1⟩] []) with
            acts := [] ++ [copied_action (ex_on "node1")
              [.SEND "on %s\n", .EXPECT "done" "done" none] (some "*")] }) :=
  ⟨rfl, C1_all_plugs_match_one_all_action literal_regexec ex_cluster
    (ex_dev [⟨"7", some 1⟩] []) (ex_on "node1") "node1"
    [.SEND "on %s\n", .EXPECT "done" "done" none] rfl rfl rfl rfl
    (by
      intro plug hp
      have : plug = ⟨"7", some 1⟩ := by simpa [ex_dev] using hp
      subst this
      exact ⟨1, rfl, by decide⟩)⟩

/-- C2: when at least one plug matches but not all do (some plug is unbound
or some bound node's name is not matched in full), do_target_some appends to
the device queue exactly one per-device action per matching plug, in device
plug order, each with that plug's device-local name as target, and nothing
else. -/
theorem C2_some_plugs_match_one_action_each (rx : Regexec) (cl : Cluster) (dev : Device)
    (sact : Action) (target : String) (script : List Script_El)
    (htarget : sact.target = some target)
    (hscript : dev.prot.scripts sact.com = some script)
    (hany : ∃ plug ∈ dev.plugs,
      ∃ nd, plug.node = some nd ∧ full_match rx target (cl nd).name = true)
    (hnotall : ∃ plug ∈ dev.plugs,
      plug.node = none ∨ ∃ nd, plug.node = some nd ∧ full_match rx target (cl nd).name = false) :
    do_target_some rx cl dev sact =
        some { dev with acts := dev.acts ++
          ((dev.plugs.filter (plug_matches rx cl target)).map
            (fun p => copied_action sact script (some p.name))) } ∧
      dev.plugs.filter (plug_matches rx cl target) ≠ [] := by
  have hall2 : ¬ dev.plugs.all (plug_matches rx cl target) = true := by
    simp only [List.all_eq_true, not_forall]
    obtain ⟨plug, hp, hbad⟩ := hnotall
    refine ⟨plug, hp, ?_⟩
    rw [plug_matches_iff]
    rintro ⟨nd, hnd, hm⟩
    rcases hbad with h | ⟨nd2, hnd2, hm2⟩
    · simp [h] at hnd
    · rw [hnd] at hnd2
      cases hnd2
      simp [hm] at hm2
  have hsome := do_target_some_eq rx cl dev sact target script htarget hscript
  refine ⟨by simpa [hall2] using hsome, ?_⟩
  obtain ⟨plug, hp, hm⟩ := hany
  intro hnil
  have hmem : plug ∈ dev.plugs.filter (plug_matches rx cl target) :=
    List.mem_filter.mpr ⟨hp, (plug_matches_iff rx cl target plug).mpr hm⟩
  rw [hnil] at hmem
  exact List.not_mem_nil _ hmem

/-- Witness of C2: plugs 1, 2, 3 carry node0, node1 and nothing; the selector
"node1" picks plug 2 only. -/
theorem C2_witness :
    do_target_some literal_regexec ex_cluster
        (ex_dev [⟨"1", some 0⟩, ⟨"2", some 1⟩, ⟨"3", none⟩] []) (ex_on "node1")
      = some { (ex_dev [⟨"1", some 0⟩, ⟨"2", some 1⟩, ⟨"3", none⟩] []) with
          acts := [copied_action (ex_on "node1")
            [.SEND "on %s\n", .EXPECT "done" "done" none] (some "2")] } ∧
    [(⟨"1", some 0⟩ : Plug), ⟨"2", some 1⟩, ⟨"3", none⟩].filter
      (plug_matches literal_regexec ex_cluster "node1") ≠ [] :=
  C2_some_plugs_match_one_action_each literal_regexec ex_cluster
    (ex_dev [⟨"1", some 0⟩, ⟨"2", some 1⟩, ⟨"3", none⟩] []) (ex_on "node1") "node1"
    [.SEND "on %s\n", .EXPECT "done" "done" none] rfl rfl
    ⟨⟨"2", some 1⟩, by simp [ex_dev], 1, rfl, by decide⟩
    ⟨⟨"3", none⟩, by simp [ex_dev], Or.inl rfl⟩

/-- Counterexample to C3 as stated: on a device without plugs no plug matches
the selector, yet do_target_some finds "all" still set and queues one action
for the "all" token. -/
theorem C3_counterexample :
    (∀ plug ∈ (ex_dev [] []).plugs,
        plug_matches literal_regexec ex_cluster "node1" plug = false) ∧
      (do_target_some literal_regexec ex_cluster (ex_dev [] []) (ex_on "node1")).map
          Device.acts
        = some [copied_action (ex_on "node1")
            [.SEND "on %s\n", .EXPECT "done" "done" none] (some "*")] ∧
      (do_target_some literal_regexec ex_cluster (ex_dev [] []) (ex_on "node1")).map
          Device.acts
        ≠ some (ex_dev [] []).acts := by
  refine ⟨?_, ?_, ?_⟩
  · intro plug hp
    simp [ex_dev] at hp
  · decide
  · decide

/-- C3 (amended): on a device that has at least one plug, a selector that
matches no plug (no plug is bound to a node whose name the selector matches in
full) makes do_target_some create no per-device action: the device, and with
it the queue, is returned as it was. -/
theorem C3_no_plug_matches_queue_unchanged (rx : Regexec) (cl : Cluster) (dev : Device)
    (sact : Action) (target : String)
    (htarget : sact.target = some target)
    (hplugs : dev.plugs ≠ [])
    (hno : ∀ plug ∈ dev.plugs, ∀ nd, plug.node = some nd →
      full_match rx target (cl nd).name = false) :
    do_target_some rx cl dev sact = some dev := by
  have hno2 : ∀ p ∈ dev.plugs, plug_matches rx cl target p = false := by
    intro p hp
    cases hn : p.node with
    | none => simp [plug_matches, hn]
    | some nd => simpa [plug_matches, hn] using hno p hp nd hn
  unfold do_target_some
  simp only [htarget, do_target_some_loop_none_match rx cl dev sact target dev.plugs _ hno2]
  simp [hplugs]

/-- Witness of C3 (amended): plugs on node0 and on nothing, selector "node1". -/
theorem C3_witness :
    do_target_some literal_regexec ex_cluster (ex_dev [⟨"1", some 0⟩, ⟨"3", none⟩] [])
        (ex_on "node1")
      = some (ex_dev [⟨"1", some 0⟩, ⟨"3", none⟩] []) :=
  C3_no_plug_matches_queue_unchanged literal_regexec ex_cluster
    (ex_dev [⟨"1", some 0⟩, ⟨"3", none⟩] []) (ex_on "node1") "node1" rfl
    (by simp [ex_dev])
    (by
      intro plug hp nd hnd
      have h : plug = ⟨"1", some 0⟩ ∨ plug = ⟨"3", none⟩ := by simpa [ex_dev] using hp
      rcases h with h | h
      · subst h
        cases hnd
        decide
      · subst h
        cases hnd)

/-- C4: every per-device action that do_target_some adds to the device queue
has as target either the device-local name of a plug bound to a node whose
name the selector matches in full, or the device's "all" token, and the "all"
token is used only when no plug is unbound and every bound node's name
matches; nothing is added for an unbound plug or a plug whose node does not
match. -/
theorem C4_added_actions_target_matching_plugs (rx : Regexec) (cl : Cluster) (dev : Device)
    (sact : Action) (target : String) (script : List Script_El)
    (htarget : sact.target = some target)
    (hscript : dev.prot.scripts sact.com = some script) :
    ∃ added : List Action,
      do_target_some rx cl dev sact = some { dev with acts := dev.acts ++ added } ∧
      ∀ act ∈ added,
        (∃ plug ∈ dev.plugs, ∃ nd, plug.node = some nd ∧
            full_match rx target (cl nd).name = true ∧ act.target = some plug.name) ∨
        (act.target = some dev.all ∧
          ∀ plug ∈ dev.plugs,
            ∃ nd, plug.node = some nd ∧ full_match rx target (cl nd).name = true) := by
  have hsome := do_target_some_eq rx cl dev sact target script htarget hscript
  by_cases hall : dev.plugs.all (plug_matches rx cl target) = true
  · refine ⟨[copied_action sact script (some dev.all)], by simpa [hall] using hsome, ?_⟩
    intro act hact
    have hact2 : act = copied_action sact script (some dev.all) := by simpa using hact
    subst hact2
    refine Or.inr ⟨rfl, ?_⟩
    intro plug hp
    exact (plug_matches_iff rx cl target plug).mp (List.all_eq_true.mp hall plug hp)
  · refine ⟨(dev.plugs.filter (plug_matches rx cl target)).map
        (fun p => copied_action sact script (some p.name)), by simpa [hall] using hsome, ?_⟩
    intro act hact
    obtain ⟨plug, hpf, rfl⟩ := List.mem_map.mp hact
    obtain ⟨hp, hm⟩ := List.mem_filter.mp hpf
    obtain ⟨nd, hnd, hfm⟩ := (plug_matches_iff rx cl target plug).mp hm
    exact Or.inl ⟨plug, hp, nd, hnd, hfm, rfl⟩

/-- Witness of C4: plugs 1, 2, 3 carry node0, node1 and nothing, selector
"node1". -/
theorem C4_witness :
    ∃ added : List Action,
      do_target_some literal_regexec ex_cluster
          (ex_dev [⟨"1", some 0⟩, ⟨"2", some 1⟩, ⟨"3", none⟩] []) (ex_on "node1")
        = some { (ex_dev [⟨"1", some 0⟩, ⟨"2", some 1⟩, ⟨"3", none⟩] []) with
            acts := [] ++ added } ∧
      ∀ act ∈ added,
        (∃ plug ∈ [(⟨"1", some 0⟩ : Plug), ⟨"2", some 1⟩, ⟨"3", none⟩],
            ∃ nd, plug.node = some nd ∧
              full_match literal_regexec "node1" (ex_cluster nd).name = true ∧
              act.target = some plug.name) ∨
        (act.target = some "*" ∧
          ∀ plug ∈ [(⟨"1", some 0⟩ : Plug), ⟨"2", some 1⟩, ⟨"3", none⟩],
            ∃ nd, plug.node = some nd ∧
              full_match literal_regexec "node1" (ex_cluster nd).name = true) :=
  C4_added_actions_target_matching_plugs literal_regexec ex_cluster
    (ex_dev [⟨"1", some 0⟩, ⟨"2", some 1⟩, ⟨"3", none⟩] []) (ex_on "node1") "node1"
    [.SEND "on %s\n", .EXPECT "done" "done" none] rfl rfl

/-! ## Proxy replies (C5, C6) -/

theorem get_set_state_same (f : StateField) (cl : Cluster) (nd : NodeRef) (v : State_Val) :
    get_state f (set_state f cl nd v) nd = v := by
  cases f <;> simp [get_state, set_state]

theorem set_state_other (f : StateField) (cl : Cluster) (nd nd2 : NodeRef) (v : State_Val)
    (h : nd2 ≠ nd) : set_state f cl nd v nd2 = cl nd2 := by
  cases f <;> simp [set_state, Function.update_noteq h]

/-- One turn of the plug loop of do_PMD_semantics on a bound plug writes the
state named by the character under the pointer. -/
theorem pmd_turn_state (f : StateField) (cl : Cluster) (nd : NodeRef) (cs : List Char) :
    get_state f
        (if cs.head? = some '0' then
          set_state f (if cs.head? = some '1' then
            set_state f (set_state f cl nd .ST_UNKNOWN) nd .ST_ON
            else set_state f cl nd .ST_UNKNOWN) nd .ST_OFF
        else (if cs.head? = some '1' then
            set_state f (set_state f cl nd .ST_UNKNOWN) nd .ST_ON
            else set_state f cl nd .ST_UNKNOWN)) nd =
      (if cs.head? = some '0' then State_Val.ST_OFF
       else if cs.head? = some '1' then State_Val.ST_ON else State_Val.ST_UNKNOWN) := by
  by_cases h0 : cs.head? = some '0' <;> by_cases h1 : cs.head? = some '1' <;>
    simp [h0, h1, get_set_state_same]

theorem pmd_turn_other (f : StateField) (cl : Cluster) (nd nd2 : NodeRef) (cs : List Char)
    (h : nd2 ≠ nd) :
    (if cs.head? = some '0' then
          set_state f (if cs.head? = some '1' then
            set_state f (set_state f cl nd .ST_UNKNOWN) nd .ST_ON
            else set_state f cl nd .ST_UNKNOWN) nd .ST_OFF
        else (if cs.head? = some '1' then
            set_state f (set_state f cl nd .ST_UNKNOWN) nd .ST_ON
            else set_state f cl nd .ST_UNKNOWN)) nd2 = cl nd2 := by
  by_cases h0 : cs.head? = some '0' <;> by_cases h1 : cs.head? = some '1' <;>
    simp [h0, h1, set_state_other f _ nd nd2 _ h]

/-- The plug loop of do_PMD_semantics does not touch a node that is on none
of the plugs it walks over. -/
theorem do_PMD_semantics_loop_frame (f : StateField) (plugs : List Plug)
    (ch : Option (List Char)) (cl cl2 : Cluster) (nd : NodeRef)
    (hrun : do_PMD_semantics_loop f plugs ch cl = some cl2)
    (hfree : ∀ plug ∈ plugs, plug.node ≠ some nd) : cl2 nd = cl nd := by
  induction plugs generalizing ch cl with
  | nil =>
    simp [do_PMD_semantics_loop] at hrun
    rw [← hrun]
  | cons plug rest ih =>
    have hrest : ∀ p ∈ rest, p.node ≠ some nd := fun p hp => hfree p (List.mem_cons_of_mem _ hp)
    cases hn : plug.node with
    | none =>
      simp only [do_PMD_semantics_loop, hn] at hrun
      exact ih ch cl hrun hrest
    | some nd1 =>
      have hne : nd ≠ nd1 := by
        intro h
        exact hfree plug (List.mem_cons_self _ _) (by rw [hn, h])
      cases ch with
      | none => simp [do_PMD_semantics_loop, hn] at hrun
      | some cs =>
        simp only [do_PMD_semantics_loop, hn] at hrun
        rw [ih _ _ hrun hrest]
        exact pmd_turn_other f cl nd1 nd cs hne

/-- The plug loop of do_PMD_semantics on plugs that are all bound, with at
least one character per plug: it returns, and the node of plug number i, when
no later plug carries the same node, ends in the state named by character
number i. -/
theorem do_PMD_semantics_loop_bound (f : StateField) (plugs : List Plug) (cs : List Char)
    (cl : Cluster)
    (hbound : ∀ plug ∈ plugs, plug.node ≠ none)
    (hlen : plugs.length ≤ cs.length) :
    ∃ cl2, do_PMD_semantics_loop f plugs (some cs) cl = some cl2 ∧
      ∀ (i : Nat) (plug : Plug) (nd : NodeRef) (c : Char),
        plugs.get? i = some plug → plug.node = some nd → cs.get? i = some c →
        (∀ (j : Nat) (plug2 : Plug), i < j → plugs.get? j = some plug2 →
          plug2.node ≠ some nd) →
        get_state f cl2 nd =
          (if c = '0' then State_Val.ST_OFF
           else if c = '1' then State_Val.ST_ON else State_Val.ST_UNKNOWN) := by
  induction plugs generalizing cs cl with
  | nil => exact ⟨cl, by simp [do_PMD_semantics_loop], by intro i plug nd c h; simp at h⟩
  | cons plug rest ih =>
    have hrest : ∀ p ∈ rest, p.node ≠ none := fun p hp => hbound p (List.mem_cons_of_mem _ hp)
    cases hn : plug.node with
    | none => exact absurd hn (hbound plug (List.mem_cons_self _ _))
    | some nd0 =>
      cases cs with
      | nil => simp at hlen
      | cons c0 tl =>
        have hlen2 : rest.length ≤ tl.length := by simpa using hlen
        obtain ⟨cl2, hrun, hstates⟩ := ih tl
          (if (c0 :: tl).head? = some '0' then
            set_state f (if (c0 :: tl).head? = some '1' then
              set_state f (set_state f cl nd0 .ST_UNKNOWN) nd0 .ST_ON
              else set_state f cl nd0 .ST_UNKNOWN) nd0 .ST_OFF
          else (if (c0 :: tl).head? = some '1' then
              set_state f (set_state f cl nd0 .ST_UNKNOWN) nd0 .ST_ON
              else set_state f cl nd0 .ST_UNKNOWN)) hrest hlen2
        refine ⟨cl2, by simpa only [do_PMD_semantics_loop, hn] using hrun, ?_⟩
        intro i plug1 nd c hi hnd hc hlast
        cases i with
        | zero =>
          simp only [List.get?_cons_zero, Option.some.injEq] at hi hc
          subst hi
          subst hc
          rw [hn] at hnd
          cases hnd
          have hfree : ∀ p ∈ rest, p.node ≠ some nd0 := by
            intro p hp
            obtain ⟨k, hk⟩ := List.get?_of_mem hp
            exact hlast (k + 1) p (Nat.succ_pos k) (by simpa using hk)
          have hkeep := do_PMD_semantics_loop_frame f rest (some tl) _ cl2 nd0 hrun hfree
          have hturn := pmd_turn_state f cl nd0 (c0 :: tl)
          cases f <;> simp only [get_state] at hturn ⊢ <;> rw [hkeep, hturn] <;> simp
        | succ k =>
          simp only [List.get?_cons_succ] at hi hc
          exact hstates k plug1 nd c hi hnd hc
            (fun j p2 hj hp2 => hlast (j + 1) p2 (Nat.succ_lt_succ hj) (by simpa using hp2))

/-- For a proxy device match_RegEx hands the whole reply to the first map
entry. -/
theorem match_RegEx_pmd_val (rx : Regexec) (max_buf : Int) (dev : Device) (reply : String)
    (map : List Interpretation)
    (htype : dev.type = Dev_Type.PMD_DEV)
    (hmr : match_RegEx rx max_buf dev reply = some (true, some map)) :
    ∃ interp more, map = interp :: more ∧ interp.val = some reply := by
  unfold match_RegEx at hmr
  cases hacts : dev.acts with
  | nil => simp [hacts] at hmr
  | cons act rest =>
    simp only [hacts] at hmr
    cases hcur : act.cur with
    | none => simp [hcur] at hmr
    | some el =>
      cases el with
      | SND_EXP_UNKNOWN => simp [hcur] at hmr
      | SEND fmt => simp [hcur] at hmr
      | DELAY tv => simp [hcur] at hmr
      | EXPECT completion exp m =>
        simp only [hcur, htype] at hmr
        split_ifs at hmr <;> try (exact absurd hmr (by simp))
        cases m with
        | none => simp at hmr
        | some m1 =>
          cases m1 with
          | nil => simp at hmr
          | cons interp more =>
            simp at hmr
            exact ⟨_, _, hmr.symm, rfl⟩

/-- C5: for a proxy device handling PM_UPDATE_PLUGS whose plugs are all bound
to nodes, and a reply string with as many characters as the device has plugs
(handed over by match_RegEx), do_PMD_semantics returns, and its turn for the
i-th plug sets the plug-state of the node on that plug to ON when the i-th
character is '1' and to OFF when it is '0': this is the node's state after
the loop has walked the first i+1 plugs, and its state in the end unless a
later plug carries the same node (which is then set again for that plug). -/
theorem C5_proxy_reply_sets_plug_states (rx : Regexec) (max_buf : Int) (dev : Device)
    (cl : Cluster) (act : Action) (rest : List Action) (reply : String)
    (map : List Interpretation)
    (htype : dev.type = Dev_Type.PMD_DEV)
    (hacts : dev.acts = act :: rest)
    (hcom : act.com = Command.PM_UPDATE_PLUGS)
    (hmr : match_RegEx rx max_buf dev reply = some (true, some map))
    (hbound : ∀ plug ∈ dev.plugs, plug.node ≠ none)
    (hlen : reply.length = dev.plugs.length) :
    ∃ cl2, do_PMD_semantics dev map cl = some cl2 ∧
      ∀ (i : Nat) (plug : Plug) (nd : NodeRef) (c : Char),
        dev.plugs.get? i = some plug → plug.node = some nd → reply.data.get? i = some c →
        (∃ cl1,
          do_PMD_semantics { dev with plugs := dev.plugs.take (i + 1) } map cl = some cl1 ∧
          (c = '1' → (cl1 nd).p_state = State_Val.ST_ON) ∧
          (c = '0' → (cl1 nd).p_state = State_Val.ST_OFF)) ∧
        ((∀ (j : Nat) (plug2 : Plug), i < j → dev.plugs.get? j = some plug2 →
            plug2.node ≠ some nd) →
          (c = '1' → (cl2 nd).p_state = State_Val.ST_ON) ∧
          (c = '0' → (cl2 nd).p_state = State_Val.ST_OFF)) := by
  obtain ⟨interp, more, hmap, hval⟩ := match_RegEx_pmd_val rx max_buf dev reply map htype hmr
  have hlen2 : dev.plugs.length ≤ reply.data.length := by
    have : reply.data.length = reply.length := rfl
    omega
  have hread : ∀ (c : Char) (v : State_Val),
      v = (if c = '0' then State_Val.ST_OFF
           else if c = '1' then State_Val.ST_ON else State_Val.ST_UNKNOWN) →
      (c = '1' → v = State_Val.ST_ON) ∧ (c = '0' → v = State_Val.ST_OFF) := by
    intro c v hv
    constructor
    · intro h1
      subst h1
      simpa using hv
    · intro h0
      subst h0
      simpa using hv
  obtain ⟨cl2, hrun, hstates⟩ :=
    do_PMD_semantics_loop_bound .plug_state dev.plugs reply.data cl hbound hlen2
  refine ⟨cl2, by simp [do_PMD_semantics, hacts, hmap, hcom, hval, hrun], ?_⟩
  intro i plug nd c hi hnd hc
  constructor
  · have hb1 : ∀ p ∈ dev.plugs.take (i + 1), p.node ≠ none :=
      fun p hp => hbound p (List.mem_of_mem_take hp)
    have hl1 : (dev.plugs.take (i + 1)).length ≤ reply.data.length := by
      rw [List.length_take]
      omega
    obtain ⟨cl1, hrun1, hstates1⟩ :=
      do_PMD_semantics_loop_bound .plug_state (dev.plugs.take (i + 1)) reply.data cl hb1 hl1
    refine ⟨cl1, by simp [do_PMD_semantics, hacts, hmap, hcom, hval, hrun1], ?_⟩
    have hi1 : (dev.plugs.take (i + 1)).get? i = some plug := by
      rw [List.get?_eq_getElem?, List.getElem?_take_of_lt (Nat.lt_succ_self i),
        ← List.get?_eq_getElem?]
      exact hi
    have hnone : ∀ (j : Nat) (plug2 : Plug), i < j →
        (dev.plugs.take (i + 1)).get? j = some plug2 → plug2.node ≠ some nd := by
      intro j plug2 hj hp2
      have hshort : (dev.plugs.take (i + 1)).length ≤ j := by
        rw [List.length_take]
        omega
      rw [List.get?_eq_none.mpr hshort] at hp2
      cases hp2
    exact hread c _ (hstates1 i plug nd c hi1 hnd hc hnone)
  · intro hlast
    exact hread c _ (hstates i plug nd c hi hnd hc hlast)

/-- Witness of C5: five plugs on nodes 0 to 4 and the reply "10110", which
gives ON, OFF, ON, ON, OFF in plug order. -/
theorem C5_witness :
    (∃ cl2,
      do_PMD_semantics
          (ex_pmd_dev .PM_UPDATE_PLUGS
            [⟨"p0", some 0⟩, ⟨"p1", some 1⟩, ⟨"p2", some 2⟩, ⟨"p3", some 3⟩, ⟨"p4", some 4⟩])
          [{ plug_name := "vector", match_pos := 0, val := some "10110", node := none }]
          ex_cluster = some cl2 ∧
      ∀ (i : Nat) (plug : Plug) (nd : NodeRef) (c : Char),
        [(⟨"p0", some 0⟩ : Plug), ⟨"p1", some 1⟩, ⟨"p2", some 2⟩, ⟨"p3", some 3⟩,
          ⟨"p4", some 4⟩].get? i = some plug →
        plug.node = some nd → "10110".data.get? i = some c →
        (∃ cl1,
          do_PMD_semantics
              { (ex_pmd_dev .PM_UPDATE_PLUGS
                  [⟨"p0", some 0⟩, ⟨"p1", some 1⟩, ⟨"p2", some 2⟩, ⟨"p3", some 3⟩,
                    ⟨"p4", some 4⟩]) with
                plugs := [(⟨"p0", some 0⟩ : Plug), ⟨"p1", some 1⟩, ⟨"p2", some 2⟩,
                  ⟨"p3", some 3⟩, ⟨"p4", some 4⟩].take (i + 1) }
              [{ plug_name := "vector", match_pos := 0, val := some "10110", node := none }]
              ex_cluster = some cl1 ∧
          (c = '1' → (cl1 nd).p_state = State_Val.ST_ON) ∧
          (c = '0' → (cl1 nd).p_state = State_Val.ST_OFF)) ∧
        ((∀ (j : Nat) (plug2 : Plug), i < j →
          [(⟨"p0", some 0⟩ : Plug), ⟨"p1", some 1⟩, ⟨"p2", some 2⟩, ⟨"p3", some 3⟩,
            ⟨"p4", some 4⟩].get? j = some plug2 → plug2.node ≠ some nd) →
          (c = '1' → (cl2 nd).p_state = State_Val.ST_ON) ∧
          (c = '0' → (cl2 nd).p_state = State_Val.ST_OFF))) ∧
    (do_PMD_semantics
          (ex_pmd_dev .PM_UPDATE_PLUGS
            [⟨"p0", some 0⟩, ⟨"p1", some 1⟩, ⟨"p2", some 2⟩, ⟨"p3", some 3⟩, ⟨"p4", some 4⟩])
          [{ plug_name := "vector", match_pos := 0, val := some "10110", node := none }]
          ex_cluster).map (fun cl2 => [0, 1, 2, 3, 4].map (fun nd => (cl2 nd).p_state))
      = some [.ST_ON, .ST_OFF, .ST_ON, .ST_ON, .ST_OFF] :=
  ⟨C5_proxy_reply_sets_plug_states literal_regexec 64000
      (ex_pmd_dev .PM_UPDATE_PLUGS
        [⟨"p0", some 0⟩, ⟨"p1", some 1⟩, ⟨"p2", some 2⟩, ⟨"p3", some 3⟩, ⟨"p4", some 4⟩])
      ex_cluster _ [] "10110"
      [{ plug_name := "vector", match_pos := 0, val := some "10110", node := none }]
      rfl rfl rfl (by decide)
      (by
        intro plug hp
        simp [ex_pmd_dev] at hp
        rcases hp with h | h | h | h | h <;> subst h <;> simp)
      (by decide),
    by decide⟩

/-- C6 (failing input): a proxy device with plugs p0 (unbound) and p1 (node
1) receives the vector "01", one character per plug.  The plug at ordinal 1
should read character 1, which is '1' (ON); do_PMD_semantics does not move
the pointer past the unbound plug, reads character 0 and leaves node 1 OFF. -/
theorem C6_unbound_plug_shifts_vector :
    "01".data.get? 1 = some '1' ∧
    (do_PMD_semantics
        (ex_pmd_dev .PM_UPDATE_PLUGS [⟨"p0", none⟩, ⟨"p1", some 1⟩])
        [{ plug_name := "vector", match_pos := 0, val := some "01", node := none }]
        ex_cluster).map (fun cl2 => (cl2 1).p_state) = some State_Val.ST_OFF := by
  constructor
  · decide
  · decide

/-! ## Script progress (C7, C8, C9) -/

/-- C7 (failing input): a power-off script is part-way (its next element is
the fourth, SEND "commit") when the connection drops.  After the reconnect
the action is kept behind a fresh PM_LOG_IN with its iterator back at 0, but
its current element is still SEND "commit".  When process_script completes
the login, the element processed next for the kept action is that fourth
element: "commit" goes out right behind "login", and the first element, SEND
"select %s", is only the one to come after it. -/
theorem C7_preserved_action_resumes_at_stale_element :
    relogin_before.map (fun d => (queue_view d, d.to_))
      = some ([(.PM_POWER_OFF, some (.SEND "commit\n"), some 4)], some "select 2\noff\n") ∧
    relogin_reconnected.map (fun d => (queue_view d, d.to_, d.loggedin))
      = some ([(.PM_LOG_IN, some (.EXPECT "ok" "ok" none), some 2),
               (.PM_POWER_OFF, some (.SEND "commit\n"), some 0)], some "login\n", false) ∧
    relogin_after_login.map (fun d => (queue_view d, d.to_, d.loggedin))
      = some ([(.PM_POWER_OFF, some (.SEND "select %s\n"), some 1)],
              some "login\ncommit\n", true) := by
  refine ⟨?_, ?_, ?_⟩ <;> rfl

/-- C8 (failing input): the connect of a device whose PM_LOG_IN script is the
single element SEND "login" completes.  The start-up loop of
map_Action_to_Device runs the script to its end and removes the action, and
loggedin stays false.  With the script SEND "login", EXPECT "ok" the action
ends in process_script, which does set loggedin. -/
theorem C8_startup_loop_leaves_loggedin_false :
    (do_Device_connect literal_regexec ex_cluster ex_now 0
        (ex_connecting [.SEND "login\n"])).map (fun d => (d.acts, d.to_, d.loggedin))
      = some ([], some "login\n", false) ∧
    (((do_Device_connect literal_regexec ex_cluster ex_now 0
          (ex_connecting [.SEND "login\n", .EXPECT "ok" "ok" none])).bind
        (handle_Device_read literal_regexec ex_cluster ex_now 5 (-1) (.data "ok"))).bind
        (fun d => process_script literal_regexec 64000 ex_now d ex_cluster)).map
          (fun r => (r.1.acts, r.1.to_, r.1.loggedin))
      = some ([], some "login\n", true) := by
  refine ⟨?_, ?_⟩ <;> decide

/-- C9 (failing input): the head action waits at an EXPECT whose completion
expression is "END" and whose capture expression is "on".  With "on" in the
incoming buffer the completion expression does not match yet, but
process_expect consumes "on" and reports progress; with "on END" it consumes
"on" only and leaves " END" behind, where the completion expression would
take all of it.  The buffer is consumed with the capture expression. -/
theorem C9_buffer_consumed_with_capture_regex :
    get_String_from_Buffer literal_regexec "on" "END" = none ∧
    (process_expect literal_regexec 64000 (ex_expecting "on") ex_cluster).map
        (fun r => (r.1, r.2.1.from_, r.2.1.status.expecting))
      = some (false, some "", false) ∧
    get_String_from_Buffer literal_regexec "on END" "END" = some ("on END", "") ∧
    (process_expect literal_regexec 64000 (ex_expecting "on END") ex_cluster).map
        (fun r => (r.1, r.2.1.from_, r.2.1.status.expecting))
      = some (false, some " END", false) := by
  refine ⟨?_, ?_, ?_, ?_⟩ <;> decide

/-! ## Stall detection (C10) -/

/-- C10 (failing input): the device expects since 0.500000 s with a timeout
of 0.500000 s and the clock reads 1.000000 s, so the elapsed time equals the
timeout.  The microseconds add up to exactly 1000000, which the test
"limit.tv_usec > 1000000" does not carry over, and stalled_Device returns
true. -/
theorem C10_stalled_when_elapsed_equals_timeout :
    normalised ex_waiting.time_stamp ∧ normalised ex_waiting.timeout ∧
    normalised { tv_sec := 1, tv_usec := 0 } ∧
    usec_of { tv_sec := 1, tv_usec := 0 } - usec_of ex_waiting.time_stamp
      = usec_of ex_waiting.timeout ∧
    stalled_Device ex_waiting { tv_sec := 1, tv_usec := 0 } = true := by
  refine ⟨?_, ?_, ?_, ?_, ?_⟩
  · simp [normalised, ex_waiting]
  · simp [normalised, ex_waiting]
  · simp [normalised]
  · simp [usec_of, ex_waiting]
  · decide

/-- Away from that carry (the microseconds of time stamp and timeout do not
add up to exactly 1000000) stalled_Device is the strict comparison of the
elapsed time with the timeout. -/
theorem stalled_Device_exact_off_carry (dev : Device) (now : Timeval)
    (hts : normalised dev.time_stamp) (hto : normalised dev.timeout) (hnow : normalised now)
    (hcarry : dev.time_stamp.tv_usec + dev.timeout.tv_usec ≠ 1000000) :
    stalled_Device dev now = true ↔
      dev.status.expecting = true ∧
        usec_of now - usec_of dev.time_stamp > usec_of dev.timeout := by
  obtain ⟨h1, h2⟩ := hts
  obtain ⟨h3, h4⟩ := hto
  obtain ⟨h5, h6⟩ := hnow
  simp only [stalled_Device, overdue, usec_of, Bool.and_eq_true, Bool.or_eq_true,
    decide_eq_true_eq]
  constructor
  · rintro ⟨he, h⟩
    refine ⟨he, ?_⟩
    split_ifs at h with hc <;> simp only at h <;> omega
  · rintro ⟨he, h⟩
    refine ⟨he, ?_⟩
    split_ifs with hc <;> simp only <;> omega

/-! ## Supporting facts on the defects -/

/-- The plug loop of do_PMD_semantics does not see unbound plugs: it runs as
if they were not in the list, so they take no character of the vector. -/
theorem do_PMD_semantics_loop_skips_unbound (f : StateField) (plugs : List Plug)
    (ch : Option (List Char)) (cl : Cluster) :
    do_PMD_semantics_loop f plugs ch cl =
      do_PMD_semantics_loop f (plugs.filter (fun p => p.node.isSome)) ch cl := by
  induction plugs generalizing ch cl with
  | nil => rfl
  | cons plug rest ih =>
    cases hn : plug.node with
    | none => simp [do_PMD_semantics_loop, hn, ih]
    | some nd =>
      cases ch with
      | none => simp [do_PMD_semantics_loop, hn]
      | some cs => simp [do_PMD_semantics_loop, hn, ih]

theorem do_target_some_loggedin (rx : Regexec) (cl : Cluster) (dev dev2 : Device)
    (sact : Action) (h : do_target_some rx cl dev sact = some dev2) :
    dev2.loggedin = dev.loggedin := by
  unfold do_target_some at h
  split at h
  · cases h
  · split at h
    · cases h
    · split_ifs at h
      · split at h
        · cases h
        · cases h
          rfl
      · cases h
        rfl
      · cases h
        rfl

theorem set_targets_loggedin (rx : Regexec) (cl : Cluster) (dev dev2 : Device)
    (sact : Action) (h : set_targets rx cl dev sact = some dev2) :
    dev2.loggedin = dev.loggedin := by
  unfold set_targets at h
  cases hc : sact.com <;> simp only [hc] at h <;> split at h
  all_goals first
    | (cases h; rfl)
    | cases h
    | (split_ifs at h
       · exact do_target_some_loggedin rx cl dev dev2 sact h
       · split at h
         · cases h
         · cases h
           rfl)

theorem process_send_loggedin (dev dev2 : Device) (done : Bool)
    (h : process_send dev = some (done, dev2)) : dev2.loggedin = dev.loggedin := by
  unfold process_send at h
  split at h
  · cases h
  · split at h
    · cases h
      rfl
    · cases h

theorem start_script_loop_loggedin (now : Timeval) (fuel : Nat) (dev dev2 : Device)
    (h : start_script_loop now fuel dev = some dev2) : dev2.loggedin = dev.loggedin := by
  induction fuel generalizing dev with
  | zero => simp [start_script_loop] at h
  | succ n ih =>
    unfold start_script_loop at h
    split at h
    · cases h
    · split at h
      · cases h
      · split at h
        · cases h
          rfl
        · split at h
          · dsimp only at h
            split at h
            · cases h
            · rename_i hps
              rw [ih _ h, process_send_loggedin _ _ _ hps]
          · cases h
            rfl
          · cases h
            rfl
          · rw [ih _ h]

/-- The function map_Action_to_Device never changes loggedin, whatever the
action, the script and the queue: no action that ends in its start-up loop
marks the device as logged in. -/
theorem map_Action_to_Device_loggedin (rx : Regexec) (cl : Cluster) (now : Timeval)
    (dev dev2 : Device) (sact : Action)
    (h : map_Action_to_Device rx cl now dev sact = some dev2) :
    dev2.loggedin = dev.loggedin := by
  unfold map_Action_to_Device at h
  split_ifs at h
  · cases h
    rfl
  · cases h
    rfl
  · split at h
    · cases h
    · rename_i dev1 hst
      have h1 := set_targets_loggedin rx cl dev dev1 sact hst
      split at h
      · cases h
        exact h1
      · split at h
        · cases h
        · rw [start_script_loop_loggedin _ _ _ _ h, h1]

/-- The interpretation loop of do_Device_semantics reads only the ON and OFF
expressions of the device. -/
theorem do_Device_semantics_loop_congr (rx : Regexec) (dev dev2 : Device) (f : StateField)
    (hon : dev2.on_re = dev.on_re) (hoff : dev2.off_re = dev.off_re)
    (map : List Interpretation) (cl : Cluster) :
    do_Device_semantics_loop rx dev2 f map cl = do_Device_semantics_loop rx dev f map cl := by
  induction map generalizing cl with
  | nil => rfl
  | cons interp rest ih =>
    cases hn : interp.node with
    | none => simp [do_Device_semantics_loop, hn, ih]
    | some nd =>
      cases hv : interp.val with
      | none => simp [do_Device_semantics_loop, hn, hv]
      | some v => simp [do_Device_semantics_loop, hn, hv, ih, hon, hoff]

/-- The function process_expect never reads the completion expression of the
current EXPECT: with any other completion expression in its place the result
flag, the incoming buffer, the status and the node states come out the
same. -/
theorem process_expect_ignores_completion (rx : Regexec) (max_buf : Int) (dev : Device)
    (cl : Cluster) (act : Action) (rest : List Action) (c1 c2 e : String)
    (m : Option (List Interpretation))
    (hacts : dev.acts = act :: rest) (hcur : act.cur = some (.EXPECT c1 e m)) :
    (process_expect rx max_buf
        { dev with acts := { act with cur := some (.EXPECT c2 e m) } :: rest } cl).map
        (fun r => (r.1, r.2.1.from_, r.2.1.status, r.2.2))
      = (process_expect rx max_buf dev cl).map
        (fun r => (r.1, r.2.1.from_, r.2.1.status, r.2.2)) := by
  cases hfrom : dev.from_ with
  | none => simp [process_expect, hacts, hcur, hfrom]
  | some buf =>
    cases hg : get_String_from_Buffer rx buf e with
    | none => simp [process_expect, hacts, hcur, hfrom, hg]
    | some r =>
      obtain ⟨expect, buf1⟩ := r
      simp only [process_expect, hacts, hcur, hfrom, hg, match_RegEx]
      split_ifs <;> try rfl
      · cases m with
        | none => rfl
        | some m1 =>
          cases m1 with
          | nil => rfl
          | cons interp more =>
            simp only [do_PMD_semantics]
            cases (match act.com with
              | Command.PM_UPDATE_PLUGS =>
                do_PMD_semantics_loop StateField.plug_state dev.plugs
                  (Option.map String.data (some expect)) cl
              | Command.PM_UPDATE_NODES =>
                do_PMD_semantics_loop StateField.node_state dev.plugs
                  (Option.map String.data (some expect)) cl
              | _ => some cl) <;> rfl
      · cases m with
        | none => rfl
        | some m1 =>
          cases hl : match_RegEx_loop max_buf (rx e expect) expect m1 with
          | none => simp [hl]
          | some m2 =>
            simp only [hl, do_Device_semantics]
            rw [do_Device_semantics_loop_congr rx dev _ .plug_state (by rfl) (by rfl),
              do_Device_semantics_loop_congr rx dev _ .node_state (by rfl) (by rfl)]
            conv_rhs =>
              rw [do_Device_semantics_loop_congr rx dev _ .plug_state (by rfl) (by rfl),
                do_Device_semantics_loop_congr rx dev _ .node_state (by rfl) (by rfl)]
            cases (match act.com with
              | Command.PM_UPDATE_PLUGS =>
                do_Device_semantics_loop rx dev StateField.plug_state m2 cl
              | Command.PM_UPDATE_NODES =>
                do_Device_semantics_loop rx dev StateField.node_state m2 cl
              | _ => some cl) <;> rfl

/-! ## Refused and ignored actions (C11, C12) -/

/-- C11: on a device with loggedin = false, map_Action_to_Device refuses
every action whose command is not PM_LOG_IN: it returns the device as it was,
with nothing enqueued, no script started, queue and status unchanged. -/
theorem C11_not_logged_in_action_refused (rx : Regexec) (cl : Cluster) (now : Timeval)
    (dev : Device) (sact : Action)
    (hlog : dev.loggedin = false) (hcom : sact.com ≠ Command.PM_LOG_IN) :
    map_Action_to_Device rx cl now dev sact = some dev := by
  simp [map_Action_to_Device, hlog, hcom]

/-- Witness of C11: a power-on request reaches a device that is still
connecting. -/
theorem C11_witness :
    map_Action_to_Device literal_regexec ex_cluster ex_now
        (ex_connecting [.SEND "login\n", .EXPECT "ok" "ok" none]) (ex_on "node0")
      = some (ex_connecting [.SEND "login\n", .EXPECT "ok" "ok" none]) :=
  C11_not_logged_in_action_refused literal_regexec ex_cluster ex_now
    (ex_connecting [.SEND "login\n", .EXPECT "ok" "ok" none]) (ex_on "node0") rfl (by decide)

theorem act_find_eq (cli_exists : Nat → Bool) (acts : List Action) :
    act_find cli_exists acts =
      ((acts.dropWhile (client_gone cli_exists)).head?,
        acts.dropWhile (client_gone cli_exists)) := by
  induction acts with
  | nil => rfl
  | cons act rest ih =>
    cases hc : act.client with
    | none => simp [act_find, hc, client_gone, List.dropWhile]
    | some c =>
      by_cases he : cli_exists c = true
      · simp [act_find, hc, client_gone, List.dropWhile, he]
      · simp [act_find, hc, client_gone, List.dropWhile, he, ih]

/-- C13: act_find is a total function (it terminates on every queue); it
removes from the head exactly the longest prefix of actions whose client no
longer exists, leaves the rest of the queue in its order, and returns the new
head, an action without client or with a live client, or no action when the
queue has become empty. -/
theorem C13_act_find_drops_dead_prefix (cli_exists : Nat → Bool) (acts : List Action) :
    acts = acts.takeWhile (client_gone cli_exists) ++ (act_find cli_exists acts).2 ∧
      (∀ act ∈ acts.takeWhile (client_gone cli_exists),
        ∃ c, act.client = some c ∧ cli_exists c = false) ∧
      (act_find cli_exists acts).1 = (act_find cli_exists acts).2.head? ∧
      (∀ act, (act_find cli_exists acts).1 = some act →
        act.client = none ∨ ∃ c, act.client = some c ∧ cli_exists c = true) ∧
      ((act_find cli_exists acts).1 = none ↔ (act_find cli_exists acts).2 = []) := by
  rw [act_find_eq]
  refine ⟨(List.takeWhile_append_dropWhile _ _).symm, ?_, rfl, ?_, ?_⟩
  · intro act hact
    have hg := List.mem_takeWhile_imp hact
    cases hc : act.client with
    | none => simp [client_gone, hc] at hg
    | some c => exact ⟨c, rfl, by simpa [client_gone, hc] using hg⟩
  · intro act hact
    simp only at hact
    have hng : ¬ client_gone cli_exists act = true := by
      cases hd : acts.dropWhile (client_gone cli_exists) with
      | nil => simp [hd] at hact
      | cons a rest =>
        simp only [hd, List.head?_cons, Option.some.injEq] at hact
        subst hact
        have := List.head_dropWhile_not (client_gone cli_exists) acts (by simp [hd])
        simpa [hd] using this
    cases hc : act.client with
    | none => exact Or.inl rfl
    | some c => exact Or.inr ⟨c, rfl, by simpa [client_gone, hc] using hng⟩
  · simp only
    cases acts.dropWhile (client_gone cli_exists) <;> simp

theorem act_find_length (cli_exists : Nat → Bool) (acts : List Action) :
    (act_find cli_exists acts).2.length ≤ acts.length := by
  rw [act_find_eq]
  exact (List.dropWhile_sublist _).length_le

theorem act_initiate_fuel_informational (rx : Regexec) (cl : Cluster) (now : Timeval)
    (cli_exists : Nat → Bool) (fuel : Nat) (act : Action) (st : Dispatcher)
    (hinfo : informational act.com = true) :
    act_initiate_fuel rx cl now cli_exists (fuel + 1) act st =
      match act_finish act st with
      | none => none
      | some st1 =>
        match act_find cli_exists st1.act_actions with
        | (none, acts) => some { st1 with act_actions := acts }
        | (some act1, acts) =>
          act_initiate_fuel rx cl now cli_exists fuel act1 { st1 with act_actions := acts } := by
  rw [act_initiate_fuel]
  split <;> first | rfl | (rename_i hc; simp [hc, informational] at hinfo)

theorem act_initiate_fuel_device (rx : Regexec) (cl : Cluster) (now : Timeval)
    (cli_exists : Nat → Bool) (fuel : Nat) (act : Action) (st : Dispatcher)
    (hinfo : informational act.com = false) :
    act_initiate_fuel rx cl now cli_exists (fuel + 1) act st =
      match act_initiate_devices rx cl now act st.dev_devices with
      | none => none
      | some devs => some { st with dev_devices := devs } := by
  rw [act_initiate_fuel]
  split <;> first | rfl | (rename_i hc; simp [hc, informational] at hinfo)

theorem act_finish_some (act : Action) (st st1 : Dispatcher)
    (h : act_finish act st = some st1) :
    ∃ head, st.act_actions = head :: st1.act_actions ∧
      st1.dev_devices = st.dev_devices ∧
      st1.replies = (if act.client ≠ none then st.replies ++ [act] else st.replies) := by
  unfold act_finish act_del_queuehead at h
  cases hq : st.act_actions with
  | nil => simp [hq] at h
  | cons head rest =>
    simp only [hq, Option.some.injEq] at h
    subst h
    exact ⟨head, rfl, rfl, rfl⟩

/-- Any amount of fuel above the queue length gives act_initiate the same
result: the recursion never runs out of it. -/
theorem act_initiate_fuel_enough (rx : Regexec) (cl : Cluster) (now : Timeval)
    (cli_exists : Nat → Bool) (n m : Nat) (act : Action) (st : Dispatcher)
    (hn : st.act_actions.length < n) (hm : st.act_actions.length < m) :
    act_initiate_fuel rx cl now cli_exists n act st =
      act_initiate_fuel rx cl now cli_exists m act st := by
  induction n generalizing m act st with
  | zero => omega
  | succ n ih =>
    cases m with
    | zero => omega
    | succ m =>
      cases hinfo : informational act.com with
      | false =>
        rw [act_initiate_fuel_device _ _ _ _ _ _ _ hinfo,
          act_initiate_fuel_device _ _ _ _ _ _ _ hinfo]
      | true =>
        rw [act_initiate_fuel_informational _ _ _ _ _ _ _ hinfo,
          act_initiate_fuel_informational _ _ _ _ _ _ _ hinfo]
        cases hf : act_finish act st with
        | none => rfl
        | some st1 =>
          obtain ⟨head, hq, -, -⟩ := act_finish_some act st st1 hf
          have hlen := act_find_length cli_exists st1.act_actions
          have hst : st.act_actions.length = st1.act_actions.length + 1 := by
            rw [hq]
            rfl
          dsimp only
          cases hfind : act_find cli_exists st1.act_actions with
          | mk r acts =>
            rw [hfind] at hlen
            have hlen2 : acts.length ≤ st1.act_actions.length := hlen
            cases r with
            | none => rfl
            | some act1 =>
              simp only
              exact ih m act1 _ (by simp only; omega) (by simp only; omega)

/-- C14: when the head of the global queue is an action whose command is
PM_ERROR, PM_LOG_IN, PM_CHECK_LOGIN, PM_LOG_OUT or PM_NAMES, act_initiate
answers it directly: one reply is recorded if the action has a client, the
action is taken off the queue, the device list is left as it is, and the
call goes on with the action act_find returns next, or ends when there is
none. -/
theorem C14_informational_answered_directly (rx : Regexec) (cl : Cluster) (now : Timeval)
    (cli_exists : Nat → Bool) (act : Action) (rest : List Action) (st : Dispatcher)
    (hq : st.act_actions = act :: rest)
    (hinfo : informational act.com = true) :
    act_initiate rx cl now cli_exists act st =
      match act_find cli_exists rest with
      | (none, acts) =>
        some { act_actions := acts, dev_devices := st.dev_devices,
               replies := if act.client ≠ none then st.replies ++ [act] else st.replies }
      | (some act1, acts) =>
        act_initiate rx cl now cli_exists act1
          { act_actions := acts, dev_devices := st.dev_devices,
            replies := if act.client ≠ none then st.replies ++ [act] else st.replies } := by
  unfold act_initiate
  rw [act_initiate_fuel_informational _ _ _ _ _ _ _ hinfo]
  simp only [act_finish, act_del_queuehead, hq]
  have hlen := act_find_length cli_exists rest
  cases hfind : act_find cli_exists rest with
  | mk r acts =>
    rw [hfind] at hlen
    have hlen2 : acts.length ≤ rest.length := hlen
    cases r with
    | none => rfl
    | some act1 =>
      simp only
      exact act_initiate_fuel_enough rx cl now cli_exists _ _ act1 _
        (by simp only [List.length_cons]; omega) (by simp only; omega)

/-- Witness of C14: a PM_NAMES request of client 7 is at the head, followed
by a request of the vanished client 8 and an update. -/
theorem C14_witness :
    act_initiate literal_regexec ex_cluster ex_now ex_clients (ex_req .PM_NAMES (some 7) 1)
        { act_actions := [ex_req .PM_NAMES (some 7) 1, ex_req .PM_NAMES (some 8) 2,
            act_create .PM_UPDATE_PLUGS],
          dev_devices := [], replies := [] } =
      match act_find ex_clients [ex_req .PM_NAMES (some 8) 2, act_create .PM_UPDATE_PLUGS] with
      | (none, acts) =>
        some { act_actions := acts, dev_devices := [],
               replies := if (ex_req .PM_NAMES (some 7) 1).client ≠ none
                 then [] ++ [ex_req .PM_NAMES (some 7) 1] else [] }
      | (some act1, acts) =>
        act_initiate literal_regexec ex_cluster ex_now ex_clients act1
          { act_actions := acts, dev_devices := [],
            replies := if (ex_req .PM_NAMES (some 7) 1).client ≠ none
              then [] ++ [ex_req .PM_NAMES (some 7) 1] else [] } :=
  C14_informational_answered_directly literal_regexec ex_cluster ex_now ex_clients
    (ex_req .PM_NAMES (some 7) 1)
    [ex_req .PM_NAMES (some 8) 2, act_create .PM_UPDATE_PLUGS]
    { act_actions := [ex_req .PM_NAMES (some 7) 1, ex_req .PM_NAMES (some 8) 2,
        act_create .PM_UPDATE_PLUGS],
      dev_devices := [], replies := [] } rfl rfl

theorem filter_live_takeWhile_gone (cli_exists : Nat → Bool) (acts : List Action) :
    (acts.takeWhile (client_gone cli_exists)).filter (client_live cli_exists) = [] := by
  apply List.filter_eq_nil_iff.mpr
  intro act hact
  have hg := List.mem_takeWhile_imp hact
  cases hc : act.client with
  | none => simp [client_gone, hc] at hg
  | some c =>
    simp only [client_gone, hc, Bool.not_eq_true'] at hg
    simp [client_live, hc, hg]

theorem filter_live_head (cli_exists : Nat → Bool) (act : Action)
    (hng : client_gone cli_exists act = false) :
    [act].filter (client_live cli_exists) = (if act.client ≠ none then [act] else []) := by
  cases hc : act.client with
  | none => simp [client_live, hc]
  | some c =>
    simp only [client_gone, hc, Bool.not_eq_false'] at hng
    simp [client_live, hc, hng]

/-- What one call of act_initiate does to queue and replies, for a head
action that act_find has returned: the actions that left the queue, and one
reply for each of them that has a live client. -/
theorem act_initiate_fuel_replies (rx : Regexec) (cl : Cluster) (now : Timeval)
    (cli_exists : Nat → Bool) (fuel : Nat) (act : Action) (st st2 : Dispatcher)
    (hhead : st.act_actions.head? = some act)
    (hng : client_gone cli_exists act = false)
    (h : act_initiate_fuel rx cl now cli_exists fuel act st = some st2) :
    ∃ removed, st.act_actions = removed ++ st2.act_actions ∧
      st2.replies = st.replies ++ removed.filter (client_live cli_exists) := by
  induction fuel generalizing act st with
  | zero => simp [act_initiate_fuel] at h
  | succ n ih =>
    cases hinfo : informational act.com with
    | false =>
      rw [act_initiate_fuel_device _ _ _ _ _ _ _ hinfo] at h
      cases hd : act_initiate_devices rx cl now act st.dev_devices with
      | none => simp [hd] at h
      | some devs =>
        simp only [hd, Option.some.injEq] at h
        subst h
        exact ⟨[], by simp, by simp⟩
    | true =>
      rw [act_initiate_fuel_informational _ _ _ _ _ _ _ hinfo] at h
      cases hf : act_finish act st with
      | none => simp [hf] at h
      | some st1 =>
        obtain ⟨head, hq, -, hrep⟩ := act_finish_some act st st1 hf
        have hha : head = act := by
          rw [hq] at hhead
          simpa using hhead
        subst hha
        rw [hf] at h
        dsimp only at h
        have hfe := act_find_eq cli_exists st1.act_actions
        have hsplit := (List.takeWhile_append_dropWhile (client_gone cli_exists)
          st1.act_actions).symm
        cases hfind : act_find cli_exists st1.act_actions with
        | mk r acts =>
          rw [hfind] at h hfe
          simp only [Prod.mk.injEq] at hfe
          obtain ⟨hr, hacts⟩ := hfe
          rw [← hacts] at hsplit
          cases r with
          | none =>
            simp only [Option.some.injEq] at h
            subst h
            refine ⟨head :: st1.act_actions.takeWhile (client_gone cli_exists), ?_, ?_⟩
            · simp only [List.cons_append]
              rw [hq, ← hsplit]
            · have h1 := filter_live_head cli_exists head hng
              have h2 := filter_live_takeWhile_gone cli_exists st1.act_actions
              simp only [hrep]
              rw [show head :: st1.act_actions.takeWhile (client_gone cli_exists)
                  = [head] ++ st1.act_actions.takeWhile (client_gone cli_exists) from rfl,
                List.filter_append, h1, h2, List.append_nil]
              split_ifs <;> simp
          | some act1 =>
            dsimp only at h
            have hng1 : client_gone cli_exists act1 = false := by
              have hne : acts ≠ [] := by
                intro he
                rw [he] at hacts
                rw [← hacts] at hr
                simp at hr
              have := List.head_dropWhile_not (client_gone cli_exists) st1.act_actions
                (by rw [← hacts]; exact hne)
              have hh : (st1.act_actions.dropWhile (client_gone cli_exists)).head? = some act1 :=
                hr.symm
              rw [List.head?_eq_head (by rw [← hacts]; exact hne)] at hh
              simp only [Option.some.injEq] at hh
              rw [hh] at this
              exact this
            obtain ⟨removed2, hrem, hrep2⟩ := ih act1
              { act_actions := acts, dev_devices := st1.dev_devices, replies := st1.replies }
              (by simp only; rw [hacts]; exact hr.symm) hng1 h
            simp only at hrem hrep2
            refine ⟨head :: st1.act_actions.takeWhile (client_gone cli_exists) ++ removed2,
              ?_, ?_⟩
            · rw [hq]
              simp only [List.cons_append, List.append_assoc]
              rw [← hrem, ← hsplit]
            · have h1 := filter_live_head cli_exists head hng
              have h2 := filter_live_takeWhile_gone cli_exists st1.act_actions
              rw [hrep2, hrep]
              rw [show head :: st1.act_actions.takeWhile (client_gone cli_exists) ++ removed2
                  = [head] ++ (st1.act_actions.takeWhile (client_gone cli_exists) ++ removed2)
                  from rfl,
                List.filter_append, List.filter_append, h1, h2, List.nil_append]
              split_ifs <;> simp

theorem replied_in_initiate (cli_exists : Nat → Bool) :
    replied_in (QueueOp.initiate cli_exists) = client_live cli_exists := by
  funext act
  rfl

/-- What one call of the select loop does to queue and replies: the actions
that leave the queue, and one reply for each of them that the call replies
to. -/
theorem queue_step_replies (rx : Regexec) (cl : Cluster) (now : Timeval) (op : QueueOp)
    (st st2 : Dispatcher) (h : queue_step rx cl now op st = some st2) :
    ∃ removed, st.act_actions ++ queue_added op = removed ++ st2.act_actions ∧
      st2.replies = st.replies ++ removed.filter (replied_in op) := by
  cases op with
  | add act =>
    simp only [queue_step, Option.some.injEq] at h
    subst h
    exact ⟨[], by simp [act_add, queue_added], by simp [act_add]⟩
  | update =>
    simp only [queue_step, Option.some.injEq] at h
    subst h
    exact ⟨[], by simp [act_update, queue_added], by simp [act_update]⟩
  | find cli_exists =>
    simp only [queue_step, Option.some.injEq] at h
    subst h
    refine ⟨st.act_actions.takeWhile (client_gone cli_exists), ?_, ?_⟩
    · simp [queue_added, act_find_eq]
    · simp [replied_in]
  | initiate cli_exists =>
    simp only [queue_step] at h
    have hfe := act_find_eq cli_exists st.act_actions
    have hsplit := (List.takeWhile_append_dropWhile (client_gone cli_exists)
      st.act_actions).symm
    cases hfind : act_find cli_exists st.act_actions with
    | mk r acts =>
      rw [hfind] at h hfe
      simp only [Prod.mk.injEq] at hfe
      obtain ⟨hr, hacts⟩ := hfe
      rw [← hacts] at hsplit
      cases r with
      | none =>
        simp only [Option.some.injEq] at h
        subst h
        refine ⟨st.act_actions.takeWhile (client_gone cli_exists), ?_, ?_⟩
        · simpa [queue_added] using hsplit
        · rw [replied_in_initiate, filter_live_takeWhile_gone]
          simp
      | some act =>
        dsimp only at h
        have hne : acts ≠ [] := by
          intro he
          rw [he] at hacts
          rw [← hacts] at hr
          simp at hr
        have hng : client_gone cli_exists act = false := by
          have := List.head_dropWhile_not (client_gone cli_exists) st.act_actions
            (by rw [← hacts]; exact hne)
          have hh : (st.act_actions.dropWhile (client_gone cli_exists)).head? = some act :=
            hr.symm
          rw [List.head?_eq_head (by rw [← hacts]; exact hne)] at hh
          simp only [Option.some.injEq] at hh
          rw [hh] at this
          exact this
        obtain ⟨removed2, hrem, hrep2⟩ := act_initiate_fuel_replies rx cl now cli_exists _ act
          { act_actions := acts, dev_devices := st.dev_devices, replies := st.replies } st2
          (by simp only; rw [hacts]; exact hr.symm) hng h
        simp only at hrem hrep2
        refine ⟨st.act_actions.takeWhile (client_gone cli_exists) ++ removed2, ?_, ?_⟩
        · simp only [queue_added, List.append_nil, List.append_assoc]
          rw [← hrem]
          exact hsplit
        · rw [replied_in_initiate, List.filter_append, filter_live_takeWhile_gone,
            List.nil_append]
          exact hrep2
  | finish =>
    simp only [queue_step] at h
    cases hq : st.act_actions with
    | nil =>
      simp only [hq, Option.some.injEq] at h
      subst h
      exact ⟨[], by simp [queue_added, hq], by simp⟩
    | cons act rest =>
      simp only [hq, act_finish, act_del_queuehead, Option.some.injEq] at h
      subst h
      refine ⟨[act], by simp [queue_added], ?_⟩
      cases hc : act.client <;> simp [replied_in, hc]

/-- C15: over any run of calls into action.c (requests and updates appended,
act_find, the dispatcher step with act_initiate, act_finish on the action in
flight) that returns, the global queue is first in, first out, and every
action that leaves it in some call causes at most one reply: exactly one,
through act_finish, when the call is act_finish or act_initiate and the
action has a client (for act_initiate, one that act_find saw alive), none
when act_find discarded it for a vanished client, and never one when the
action has no client. -/
theorem C15_each_leaving_action_at_most_one_reply (rx : Regexec) (cl : Cluster)
    (now : Timeval) (ops : List QueueOp) (st st2 : Dispatcher)
    (h : queue_run rx cl now ops st = some st2) :
    ∃ parts : List (List Action), parts.length = ops.length ∧
      st.act_actions ++ queue_added_run ops = parts.flatten ++ st2.act_actions ∧
      st2.replies = st.replies ++
        (List.zipWith (fun op removed => removed.filter (replied_in op)) ops parts).flatten ∧
      ∀ act ∈ (List.zipWith (fun op removed => removed.filter (replied_in op))
        ops parts).flatten, act.client ≠ none := by
  induction ops generalizing st with
  | nil =>
    simp only [queue_run, Option.some.injEq] at h
    subst h
    exact ⟨[], rfl, by simp [queue_added_run], by simp, by simp⟩
  | cons op ops ih =>
    simp only [queue_run] at h
    cases hs : queue_step rx cl now op st with
    | none => simp [hs] at h
    | some st1 =>
      rw [hs] at h
      dsimp only at h
      obtain ⟨removed, hrem, hrep⟩ := queue_step_replies rx cl now op st st1 hs
      obtain ⟨parts, hlen, hq, hreplies, hcli⟩ := ih st1 h
      refine ⟨removed :: parts, by simp [hlen], ?_, ?_, ?_⟩
      · simp only [queue_added_run, List.map_cons, List.flatten_cons] at hq ⊢
        rw [← List.append_assoc, hrem, List.append_assoc, hq, List.append_assoc]
      · simp only [List.zipWith_cons_cons, List.flatten_cons]
        rw [hreplies, hrep, List.append_assoc]
      · intro act hact
        simp only [List.zipWith_cons_cons, List.flatten_cons, List.mem_append] at hact
        rcases hact with hact | hact
        · have hp := (List.mem_filter.mp hact).2
          cases hc : act.client with
          | none =>
            cases op <;> simp [replied_in, client_live, hc] at hp
          | some c => simp
        · exact hcli act hact

/-- Witness of C15: a PM_NAMES request of client 7, a power-on request of the
vanished client 8 and an update are queued; the dispatcher runs and the
update in flight is finished.  Only the request of client 7 is replied to. -/
theorem C15_witness :
    ∃ parts : List (List Action),
      parts.length = [QueueOp.initiate ex_clients, QueueOp.finish].length ∧
      [ex_req .PM_NAMES (some 7) 1, ex_req .PM_POWER_ON (some 8) 2,
          act_create .PM_UPDATE_PLUGS] ++
          queue_added_run [QueueOp.initiate ex_clients, QueueOp.finish]
        = parts.flatten ++ ([] : List Action) ∧
      [ex_req .PM_NAMES (some 7) 1] = ([] : List Action) ++
        (List.zipWith (fun op removed => removed.filter (replied_in op))
          [QueueOp.initiate ex_clients, QueueOp.finish] parts).flatten ∧
      ∀ act ∈ (List.zipWith (fun op removed => removed.filter (replied_in op))
        [QueueOp.initiate ex_clients, QueueOp.finish] parts).flatten, act.client ≠ none :=
  C15_each_leaving_action_at_most_one_reply literal_regexec ex_cluster ex_now
    [QueueOp.initiate ex_clients, QueueOp.finish]
    { act_actions := [ex_req .PM_NAMES (some 7) 1, ex_req .PM_POWER_ON (some 8) 2,
        act_create .PM_UPDATE_PLUGS],
      dev_devices := [], replies := [] }
    { act_actions := [], dev_devices := [], replies := [ex_req .PM_NAMES (some 7) 1] }
    (by rfl)

/-! ## Log-in and REGEX targets (C16, C17) -/

/-- C16: set_targets with a PM_LOG_IN action puts the new PM_LOG_IN at the
head of the device queue, keeps the actions queued before in their order
behind it, and, when the queue was not empty, sets the script iterator of the
previous head back to the start of its script (nothing else of that action
changes). -/
theorem C16_login_pushed_at_head (rx : Regexec) (cl : Cluster) (dev : Device)
    (sact : Action) (script : List Script_El)
    (hcom : sact.com = Command.PM_LOG_IN)
    (hscript : dev.prot.scripts Command.PM_LOG_IN = some script) :
    (dev.acts = [] →
      set_targets rx cl dev sact = some { dev with acts := [copied_action sact script none] }) ∧
    (∀ (act : Action) (rest : List Action) (itr : ListIterator),
      dev.acts = act :: rest → act.itr = some itr →
      set_targets rx cl dev sact =
        some { dev with acts :=
          (copied_action sact script none ::
            { act with itr := some { list := itr.list, pos := 0 } } :: rest) }) := by
  have hcopy := do_target_copy_eq dev sact script (by rw [hcom]; exact hscript) none
  constructor
  · intro hempty
    unfold set_targets
    simp [hcom, hempty, hcopy]
  · intro act rest itr hacts hitr
    unfold set_targets
    simp [hcom, hacts, hitr, hcopy, list_iterator_reset]

/-- Witness of C16: a power-off action at its fourth element is the head of
the queue when the PM_LOG_IN arrives. -/
theorem C16_witness :
    ((ex_dev [⟨"2", some 1⟩] [ex_running]).acts = [] →
      set_targets literal_regexec ex_cluster (ex_dev [⟨"2", some 1⟩] [ex_running])
          (make_Action .PM_LOG_IN)
        = some { (ex_dev [⟨"2", some 1⟩] [ex_running]) with
            acts := [copied_action (make_Action .PM_LOG_IN)
              [.SEND "login\n", .EXPECT "ok" "ok" none] none] }) ∧
    (∀ (act : Action) (rest : List Action) (itr : ListIterator),
      (ex_dev [⟨"2", some 1⟩] [ex_running]).acts = act :: rest →
      act.itr = some itr →
      set_targets literal_regexec ex_cluster (ex_dev [⟨"2", some 1⟩] [ex_running])
          (make_Action .PM_LOG_IN)
        = some { (ex_dev [⟨"2", some 1⟩] [ex_running]) with
            acts := (copied_action (make_Action .PM_LOG_IN)
                [.SEND "login\n", .EXPECT "ok" "ok" none] none ::
              { act with itr := some { list := itr.list, pos := 0 } } :: rest) }) :=
  C16_login_pushed_at_head literal_regexec ex_cluster (ex_dev [⟨"2", some 1⟩] [ex_running])
    (make_Action .PM_LOG_IN) [.SEND "login\n", .EXPECT "ok" "ok" none] rfl rfl

/-- C17: on a REGEX-mode device set_targets appends, for a targeted command
with selector T, exactly one per-device action to the tail of the device
queue, and its target is T itself, whatever plugs the device has and
whatever nodes they carry. -/
theorem C17_regex_mode_target_verbatim (rx : Regexec) (cl : Cluster) (dev : Device)
    (sact : Action) (target : String) (script : List Script_El)
    (hmode : dev.prot.mode = String_Mode.REGEX)
    (hcom : targeted sact.com = true)
    (htarget : sact.target = some target)
    (hscript : dev.prot.scripts sact.com = some script) :
    set_targets rx cl dev sact =
      some { dev with acts := dev.acts ++ [copied_action sact script (some target)] } := by
  have hcopy := do_target_copy_eq dev sact script hscript (some target)
  unfold set_targets
  cases hc : sact.com <;> simp [hc, targeted] at hcom <;>
    simp only [htarget, hmode] <;> rw [hcopy] <;> simp

/-- Witness of C17: the selector "node[0-9]+" reaches a REGEX-mode device
whose only plug is unbound. -/
theorem C17_witness :
    set_targets literal_regexec ex_cluster (ex_regex_dev [⟨"1", none⟩] [])
        (ex_on "node[0-9]+")
      = some { (ex_regex_dev [⟨"1", none⟩] []) with
          acts := [] ++ [copied_action (ex_on "node[0-9]+")
            [.SEND "on %s\n", .EXPECT "done" "done" none] (some "node[0-9]+")] } :=
  C17_regex_mode_target_verbatim literal_regexec ex_cluster (ex_regex_dev [⟨"1", none⟩] [])
    (ex_on "node[0-9]+") "node[0-9]+" [.SEND "on %s\n", .EXPECT "done" "done" none]
    rfl rfl rfl rfl

/-! ## Replies of an ordinary device (C18) -/

theorem get_other_set_state (f : StateField) (cl : Cluster) (nd nd2 : NodeRef)
    (v : State_Val) :
    get_state (other_field f) (set_state f cl nd v) nd2 = get_state (other_field f) cl nd2 := by
  by_cases h : nd2 = nd
  · subst h
    cases f <;> simp [get_state, set_state, other_field]
  · cases f <;> simp [get_state, set_state, other_field, Function.update_noteq h]

/-- One turn of the interpretation loop of do_Device_semantics on a bound
entry: OFF when the OFF test succeeds, else ON when the ON test succeeds,
else UNKNOWN. -/
theorem device_turn_state (f : StateField) (cl : Cluster) (nd : NodeRef) (p_on p_off : Bool) :
    get_state f
        (if p_off = true then
          set_state f (if p_on = true then
            set_state f (set_state f cl nd .ST_UNKNOWN) nd .ST_ON
            else set_state f cl nd .ST_UNKNOWN) nd .ST_OFF
        else (if p_on = true then
            set_state f (set_state f cl nd .ST_UNKNOWN) nd .ST_ON
            else set_state f cl nd .ST_UNKNOWN)) nd =
      (if p_off = true then State_Val.ST_OFF
       else if p_on = true then State_Val.ST_ON else State_Val.ST_UNKNOWN) := by
  cases p_on <;> cases p_off <;> simp [get_set_state_same]

theorem device_turn_other (f : StateField) (cl : Cluster) (nd nd2 : NodeRef) (p_on p_off : Bool)
    (h : nd2 ≠ nd) :
    (if p_off = true then
          set_state f (if p_on = true then
            set_state f (set_state f cl nd .ST_UNKNOWN) nd .ST_ON
            else set_state f cl nd .ST_UNKNOWN) nd .ST_OFF
        else (if p_on = true then
            set_state f (set_state f cl nd .ST_UNKNOWN) nd .ST_ON
            else set_state f cl nd .ST_UNKNOWN)) nd2 = cl nd2 := by
  cases p_on <;> cases p_off <;> simp [set_state_other f _ nd nd2 _ h]

theorem device_turn_other_field (f : StateField) (cl : Cluster) (nd nd2 : NodeRef)
    (p_on p_off : Bool) :
    get_state (other_field f)
        (if p_off = true then
          set_state f (if p_on = true then
            set_state f (set_state f cl nd .ST_UNKNOWN) nd .ST_ON
            else set_state f cl nd .ST_UNKNOWN) nd .ST_OFF
        else (if p_on = true then
            set_state f (set_state f cl nd .ST_UNKNOWN) nd .ST_ON
            else set_state f cl nd .ST_UNKNOWN)) nd2 = get_state (other_field f) cl nd2 := by
  cases p_on <;> cases p_off <;> simp [get_other_set_state]

/-- The interpretation loop of do_Device_semantics leaves alone every node
that no entry of the map is bound to, and the other state field of every
node. -/
theorem do_Device_semantics_loop_frame (rx : Regexec) (dev : Device) (f : StateField)
    (map : List Interpretation) (cl cl2 : Cluster)
    (hrun : do_Device_semantics_loop rx dev f map cl = some cl2) :
    (∀ nd, (∀ interp ∈ map, interp.node ≠ some nd) → cl2 nd = cl nd) ∧
      ∀ nd, get_state (other_field f) cl2 nd = get_state (other_field f) cl nd := by
  induction map generalizing cl with
  | nil =>
    simp only [do_Device_semantics_loop, Option.some.injEq] at hrun
    subst hrun
    exact ⟨fun _ _ => rfl, fun _ => rfl⟩
  | cons interp rest ih =>
    cases hn : interp.node with
    | none =>
      simp only [do_Device_semantics_loop, hn] at hrun
      obtain ⟨h1, h2⟩ := ih cl hrun
      exact ⟨fun nd hfree => h1 nd (fun i hi => hfree i (List.mem_cons_of_mem _ hi)), h2⟩
    | some nd1 =>
      cases hv : interp.val with
      | none => simp [do_Device_semantics_loop, hn, hv] at hrun
      | some v =>
        simp only [do_Device_semantics_loop, hn, hv] at hrun
        obtain ⟨h1, h2⟩ := ih _ hrun
        constructor
        · intro nd hfree
          have hne : nd ≠ nd1 := by
            intro h
            exact hfree interp (List.mem_cons_self _ _) (by rw [hn, h])
          rw [h1 nd (fun i hi => hfree i (List.mem_cons_of_mem _ hi))]
          exact device_turn_other f cl nd1 nd _ _ hne
        · intro nd
          rw [h2 nd]
          exact device_turn_other_field f cl nd1 nd _ _

/-- The interpretation loop of do_Device_semantics on a map whose bound
entries all have their value set: it returns, and the node of entry number i,
when no later entry is bound to the same node, ends in the state that the ON
and OFF tests on the trimmed value of entry i give. -/
theorem do_Device_semantics_loop_bound (rx : Regexec) (dev : Device) (f : StateField)
    (map : List Interpretation) (cl : Cluster)
    (hval : ∀ interp ∈ map, interp.node ≠ none → interp.val ≠ none) :
    ∃ cl2, do_Device_semantics_loop rx dev f map cl = some cl2 ∧
      ∀ (i : Nat) (interp : Interpretation) (nd : NodeRef) (v : String),
        map.get? i = some interp → interp.node = some nd → interp.val = some v →
        (∀ (j : Nat) (interp2 : Interpretation), i < j → map.get? j = some interp2 →
          interp2.node ≠ some nd) →
        get_state f cl2 nd =
          (if find_RegEx rx dev.off_re (trim_token v) = true then State_Val.ST_OFF
           else if find_RegEx rx dev.on_re (trim_token v) = true then State_Val.ST_ON
           else State_Val.ST_UNKNOWN) := by
  induction map generalizing cl with
  | nil => exact ⟨cl, rfl, by intro i interp nd v h; simp at h⟩
  | cons interp0 rest ih =>
    have hrest : ∀ interp ∈ rest, interp.node ≠ none → interp.val ≠ none :=
      fun i hi => hval i (List.mem_cons_of_mem _ hi)
    cases hn : interp0.node with
    | none =>
      obtain ⟨cl2, hrun, hstates⟩ := ih cl hrest
      refine ⟨cl2, by simpa only [do_Device_semantics_loop, hn] using hrun, ?_⟩
      intro i interp nd v hi hnd hv hlast
      cases i with
      | zero =>
        simp only [List.get?_cons_zero, Option.some.injEq] at hi
        subst hi
        rw [hn] at hnd
        cases hnd
      | succ k =>
        simp only [List.get?_cons_succ] at hi
        exact hstates k interp nd v hi hnd hv
          (fun j i2 hj hi2 => hlast (j + 1) i2 (Nat.succ_lt_succ hj) (by simpa using hi2))
    | some nd0 =>
      cases hv0 : interp0.val with
      | none =>
        exact absurd hv0 (hval interp0 (List.mem_cons_self _ _) (by rw [hn]; simp))
      | some v0 =>
        obtain ⟨cl2, hrun, hstates⟩ := ih
          (if find_RegEx rx dev.off_re (trim_token v0) = true then
            set_state f (if find_RegEx rx dev.on_re (trim_token v0) = true then
              set_state f (set_state f cl nd0 .ST_UNKNOWN) nd0 .ST_ON
              else set_state f cl nd0 .ST_UNKNOWN) nd0 .ST_OFF
          else (if find_RegEx rx dev.on_re (trim_token v0) = true then
              set_state f (set_state f cl nd0 .ST_UNKNOWN) nd0 .ST_ON
              else set_state f cl nd0 .ST_UNKNOWN)) hrest
        refine ⟨cl2, by simpa only [do_Device_semantics_loop, hn, hv0] using hrun, ?_⟩
        intro i interp nd v hi hnd hv hlast
        cases i with
        | zero =>
          simp only [List.get?_cons_zero, Option.some.injEq] at hi
          subst hi
          rw [hn] at hnd
          cases hnd
          rw [hv0] at hv
          cases hv
          have hfree : ∀ i2 ∈ rest, i2.node ≠ some nd0 := by
            intro i2 hi2
            obtain ⟨k, hk⟩ := List.get?_of_mem hi2
            exact hlast (k + 1) i2 (Nat.succ_pos k) (by simpa using hk)
          have hkeep := (do_Device_semantics_loop_frame rx dev f rest _ cl2 hrun).1 nd0 hfree
          have hturn := device_turn_state f cl nd0 (find_RegEx rx dev.on_re (trim_token v0))
            (find_RegEx rx dev.off_re (trim_token v0))
          cases f <;> simp only [get_state] at hturn ⊢ <;> rw [hkeep, hturn]
        | succ k =>
          simp only [List.get?_cons_succ] at hi
          exact hstates k interp nd v hi hnd hv
            (fun j i2 hj hi2 => hlast (j + 1) i2 (Nat.succ_lt_succ hj) (by simpa using hi2))

theorem match_RegEx_loop_vals (max_buf : Int) (r : RegexecOut) (str : String)
    (m m1 : List Interpretation) (h : match_RegEx_loop max_buf r str m = some m1) :
    ∀ interp ∈ m1, interp.val ≠ none := by
  induction m generalizing m1 with
  | nil =>
    simp only [match_RegEx_loop, Option.some.injEq] at h
    subst h
    simp
  | cons i0 rest ih =>
    simp only [match_RegEx_loop] at h
    split_ifs at h
    cases hr : match_RegEx_loop max_buf r str rest with
    | none => simp [hr] at h
    | some rest1 =>
      simp only [hr, Option.some.injEq] at h
      subst h
      intro interp hi
      rcases List.mem_cons.mp hi with h0 | h0
      · subst h0
        simp
      · exact ih rest1 hr interp h0

/-- For an ordinary device match_RegEx sets the value of every entry of the
map. -/
theorem match_RegEx_device_vals (rx : Regexec) (max_buf : Int) (dev : Device)
    (expect : String) (map : List Interpretation)
    (htype : dev.type ≠ Dev_Type.PMD_DEV)
    (hmr : match_RegEx rx max_buf dev expect = some (true, some map)) :
    ∀ interp ∈ map, interp.val ≠ none := by
  unfold match_RegEx at hmr
  cases hacts : dev.acts with
  | nil => simp [hacts] at hmr
  | cons act rest =>
    simp only [hacts] at hmr
    cases hcur : act.cur with
    | none => simp [hcur] at hmr
    | some el =>
      cases el with
      | SND_EXP_UNKNOWN => simp [hcur] at hmr
      | SEND fmt => simp [hcur] at hmr
      | DELAY tv => simp [hcur] at hmr
      | EXPECT completion exp m =>
        simp only [hcur, htype, if_false] at hmr
        split_ifs at hmr <;> try (exact absurd hmr (by simp))
        cases m with
        | none => simp at hmr
        | some m0 =>
          simp only at hmr
          cases hl : match_RegEx_loop max_buf (rx exp expect) expect m0 with
          | none => simp [hl] at hmr
          | some m1 =>
            simp only [hl, Option.some.injEq, Prod.mk.injEq, true_and] at hmr
            subst hmr
            exact match_RegEx_loop_vals max_buf _ expect m0 m1 hl

/-- The loop of match_RegEx, when it returns, has set the value of every
entry to the reply from the start of the entry's subgroup on. -/
theorem match_RegEx_loop_eq (max_buf : Int) (r : RegexecOut) (str : String)
    (m m1 : List Interpretation) (h : match_RegEx_loop max_buf r str m = some m1) :
    m1 = m.map (fun interp =>
      { interp with val := some (str.drop (r.pm interp.match_pos).rm_so.toNat) }) := by
  induction m generalizing m1 with
  | nil =>
    simp only [match_RegEx_loop, Option.some.injEq] at h
    subst h
    rfl
  | cons i0 rest ih =>
    simp only [match_RegEx_loop] at h
    split_ifs at h
    cases hr : match_RegEx_loop max_buf r str rest with
    | none => simp [hr] at h
    | some rest1 =>
      simp only [hr, Option.some.injEq] at h
      subst h
      rw [ih rest1 hr]
      rfl

/-- For an ordinary device at an EXPECT with a map, the map match_RegEx hands
on is the map of the EXPECT with every value set to the reply from the start
of the entry's subgroup on. -/
theorem match_RegEx_device_map (rx : Regexec) (max_buf : Int) (dev : Device)
    (act : Action) (rest : List Action) (completion exp : String)
    (map0 map : List Interpretation) (reply : String)
    (htype : dev.type ≠ Dev_Type.PMD_DEV)
    (hacts : dev.acts = act :: rest)
    (hcur : act.cur = some (.EXPECT completion exp (some map0)))
    (hmr : match_RegEx rx max_buf dev reply = some (true, some map)) :
    map = map0.map (fun interp =>
      { interp with
        val := some (reply.drop ((rx exp reply).pm interp.match_pos).rm_so.toNat) }) := by
  unfold match_RegEx at hmr
  simp only [hacts, hcur, htype, if_false] at hmr
  split_ifs at hmr <;> try (exact absurd hmr (by simp))
  cases hl : match_RegEx_loop max_buf (rx exp reply) reply map0 with
  | none => simp [hl] at hmr
  | some m1 =>
    simp only [hl, Option.some.injEq, Prod.mk.injEq, true_and] at hmr
    subst hmr
    exact match_RegEx_loop_eq max_buf _ reply map0 m1 hl

/-- The scan of do_Device_semantics stops at the first white space: when the
text is `tok` followed by `after`, `tok` has no white space and `after` is
empty or starts with white space, the trimmed token is `tok`. -/
theorem trim_token_eq (str : String) (tok after : List Char)
    (hsplit : str.data = tok ++ after)
    (htok : ∀ c ∈ tok, isspace c = false)
    (hafter : after = [] ∨ ∃ c tl, after = c :: tl ∧ isspace c = true) :
    trim_token str = String.mk tok := by
  have h : ∀ t : List Char, (∀ c ∈ t, isspace c = false) →
      (t ++ after).takeWhile (fun c => !isspace c) = t := by
    intro t
    induction t with
    | nil =>
      intro _
      rcases hafter with h0 | ⟨c, tl, h0, hc⟩
      · subst h0
        rfl
      · subst h0
        simp [List.takeWhile_cons, hc]
    | cons c t ih =>
      intro ht
      have hc : isspace c = false := ht c (List.mem_cons_self _ _)
      simp only [List.cons_append, List.takeWhile_cons, hc, Bool.not_false, if_true]
      rw [ih (fun c2 h2 => ht c2 (List.mem_cons_of_mem _ h2))]
  unfold trim_token
  rw [hsplit, h tok htok]

/-- Counterexample to C18 as stated: the EXPECT "p1=([01]),p2=([01])\n" of a
plug update matches the reply "p1=1,p2=0\n"; subgroup 1 (offsets 3 to 4, the
text "1") is the plug of node 0.  The captured text "1" matches the ON
expression "1" and not the OFF expression "0", yet process_expect leaves node
0 OFF: match_RegEx points the value at offset 3 and does not use the end
offset, so the token tested is "1,p2=0", the reply from the start of the
subgroup to the first white space, and it matches both expressions. -/
theorem C18_counterexample :
    (group_regexec "p1=([01]),p2=([01])\n" "p1=1,p2=0\n").pm 1 = { rm_so := 3, rm_eo := 4 } ∧
    String.mk (("p1=1,p2=0\n".data.drop 3).take (4 - 3)) = "1" ∧
    find_RegEx group_regexec "1" "1" = true ∧
    find_RegEx group_regexec "0" "1" = false ∧
    (match_RegEx group_regexec 64000
        (ex_capture_dev "p1=([01]),p2=([01])\n" "") "p1=1,p2=0\n").map
        (fun r => (r.1, r.2.map (fun m => m.map (fun i => i.val.map trim_token))))
      = some (true, some [some "1,p2=0", some "0"]) ∧
    (process_expect group_regexec 64000
        (ex_capture_dev "p1=([01]),p2=([01])\n" "p1=1,p2=0\n") ex_cluster).map
        (fun r => (r.1, (r.2.2 0).p_state, (r.2.2 1).p_state))
      = some (false, .ST_OFF, .ST_OFF) := by
  refine ⟨?_, ?_, ?_, ?_, ?_, ?_⟩ <;> decide

/-- C18 (amended): for an ordinary (non-proxy) device whose head action is
PM_UPDATE_PLUGS (state field plug-state) or PM_UPDATE_NODES (node-state) and
stands at an EXPECT with a map, do_Device_semantics on the map match_RegEx
hands on returns.  The token of an entry is the text of the reply from the
start offset of the entry's subgroup up to the first white space, or to the
end of the reply when no white space follows; the end offset of the subgroup
plays no part.  The turn for an entry with a bound node sets the state of
that node to ON when the token matches only the ON expression, to OFF when
it matches only the OFF expression, and to UNKNOWN when it matches neither:
this is the node's state after the loop has walked the entries up to this
one, and in the end unless a later entry is bound to the same node.  Entries
without node write nothing: a node that no entry is bound to keeps its
record, and the other state field of every node stays as it was. -/
theorem C18_device_reply_sets_states (rx : Regexec) (max_buf : Int) (dev : Device)
    (cl : Cluster) (act : Action) (rest : List Action) (completion exp : String)
    (map0 : List Interpretation) (reply : String)
    (map : List Interpretation) (f : StateField)
    (htype : dev.type ≠ Dev_Type.PMD_DEV)
    (hacts : dev.acts = act :: rest)
    (hcom : act.com = update_command f)
    (hcur : act.cur = some (.EXPECT completion exp (some map0)))
    (hmr : match_RegEx rx max_buf dev reply = some (true, some map)) :
    ∃ cl2, do_Device_semantics rx dev map cl = some cl2 ∧
      (∀ (i : Nat) (interp : Interpretation) (nd : NodeRef) (tok after : List Char),
        map0.get? i = some interp → interp.node = some nd →
        reply.data.drop ((rx exp reply).pm interp.match_pos).rm_so.toNat = tok ++ after →
        (∀ c ∈ tok, isspace c = false) →
        (after = [] ∨ ∃ c tl, after = c :: tl ∧ isspace c = true) →
        (∃ cl1, do_Device_semantics rx dev (map.take (i + 1)) cl = some cl1 ∧
          (find_RegEx rx dev.on_re (String.mk tok) = true →
            find_RegEx rx dev.off_re (String.mk tok) = false →
            get_state f cl1 nd = State_Val.ST_ON) ∧
          (find_RegEx rx dev.on_re (String.mk tok) = false →
            find_RegEx rx dev.off_re (String.mk tok) = true →
            get_state f cl1 nd = State_Val.ST_OFF) ∧
          (find_RegEx rx dev.on_re (String.mk tok) = false →
            find_RegEx rx dev.off_re (String.mk tok) = false →
            get_state f cl1 nd = State_Val.ST_UNKNOWN)) ∧
        ((∀ (j : Nat) (interp2 : Interpretation), i < j → map0.get? j = some interp2 →
            interp2.node ≠ some nd) →
          (find_RegEx rx dev.on_re (String.mk tok) = true →
            find_RegEx rx dev.off_re (String.mk tok) = false →
            get_state f cl2 nd = State_Val.ST_ON) ∧
          (find_RegEx rx dev.on_re (String.mk tok) = false →
            find_RegEx rx dev.off_re (String.mk tok) = true →
            get_state f cl2 nd = State_Val.ST_OFF) ∧
          (find_RegEx rx dev.on_re (String.mk tok) = false →
            find_RegEx rx dev.off_re (String.mk tok) = false →
            get_state f cl2 nd = State_Val.ST_UNKNOWN))) ∧
      (∀ nd, (∀ interp ∈ map0, interp.node ≠ some nd) → cl2 nd = cl nd) ∧
      (∀ nd, get_state (other_field f) cl2 nd = get_state (other_field f) cl nd) := by
  have hmap := match_RegEx_device_map rx max_buf dev act rest completion exp map0 map reply
    htype hacts hcur hmr
  have hval : ∀ interp ∈ map, interp.node ≠ none → interp.val ≠ none := by
    intro interp hi _
    rw [hmap] at hi
    obtain ⟨i0, -, rfl⟩ := List.mem_map.mp hi
    simp
  have hget : ∀ (j : Nat) (interp : Interpretation), map0.get? j = some interp →
      map.get? j = some { interp with
        val := some (reply.drop ((rx exp reply).pm interp.match_pos).rm_so.toNat) } := by
    intro j interp hj
    rw [hmap, List.get?_eq_getElem?, List.getElem?_map, ← List.get?_eq_getElem?, hj]
    rfl
  have hback : ∀ (j : Nat) (interp2 : Interpretation), map.get? j = some interp2 →
      ∃ interp0, map0.get? j = some interp0 ∧ interp2.node = interp0.node := by
    intro j interp2 hj
    rw [hmap, List.get?_eq_getElem?, List.getElem?_map] at hj
    obtain ⟨interp0, h0, rfl⟩ := Option.map_eq_some'.mp hj
    exact ⟨interp0, by rw [List.get?_eq_getElem?]; exact h0, rfl⟩
  have hsem : ∀ m : List Interpretation,
      do_Device_semantics rx dev m cl = do_Device_semantics_loop rx dev f m cl := by
    intro m
    cases f <;> simp [do_Device_semantics, hacts, hcom, update_command]
  have hread : ∀ (p_on p_off : Bool) (s : State_Val),
      s = (if p_off = true then State_Val.ST_OFF
           else if p_on = true then State_Val.ST_ON else State_Val.ST_UNKNOWN) →
      (p_on = true → p_off = false → s = State_Val.ST_ON) ∧
      (p_on = false → p_off = true → s = State_Val.ST_OFF) ∧
      (p_on = false → p_off = false → s = State_Val.ST_UNKNOWN) := by
    intro p_on p_off s hs
    cases p_on <;> cases p_off <;> simp [hs]
  obtain ⟨cl2, hrun, hstates⟩ := do_Device_semantics_loop_bound rx dev f map cl hval
  obtain ⟨hframe, hother⟩ := do_Device_semantics_loop_frame rx dev f map cl cl2 hrun
  refine ⟨cl2, by rw [hsem, hrun], ?_, ?_, hother⟩
  · intro i interp nd tok after hi hnd hsplit htok hafter
    have htrim : trim_token
        (reply.drop ((rx exp reply).pm interp.match_pos).rm_so.toNat) = String.mk tok :=
      trim_token_eq _ tok after (by rw [String.data_drop]; exact hsplit) htok hafter
    have hi2 := hget i interp hi
    constructor
    · have hval1 : ∀ interp ∈ map.take (i + 1), interp.node ≠ none → interp.val ≠ none :=
        fun i2 hi2 h => hval i2 (List.mem_of_mem_take hi2) h
      obtain ⟨cl1, hrun1, hstates1⟩ :=
        do_Device_semantics_loop_bound rx dev f (map.take (i + 1)) cl hval1
      refine ⟨cl1, by rw [hsem, hrun1], ?_⟩
      have hi1 : (map.take (i + 1)).get? i = some { interp with
          val := some (reply.drop ((rx exp reply).pm interp.match_pos).rm_so.toNat) } := by
        rw [List.get?_eq_getElem?, List.getElem?_take_of_lt (Nat.lt_succ_self i),
          ← List.get?_eq_getElem?]
        exact hi2
      have hnone : ∀ (j : Nat) (interp2 : Interpretation), i < j →
          (map.take (i + 1)).get? j = some interp2 → interp2.node ≠ some nd := by
        intro j interp2 hj hp2
        have hshort : (map.take (i + 1)).length ≤ j := by
          rw [List.length_take]
          omega
        rw [List.get?_eq_none.mpr hshort] at hp2
        cases hp2
      have hs := hstates1 i _ nd _ hi1 hnd rfl hnone
      rw [htrim] at hs
      exact hread _ _ _ hs
    · intro hlast
      have hlast2 : ∀ (j : Nat) (interp2 : Interpretation), i < j →
          map.get? j = some interp2 → interp2.node ≠ some nd := by
        intro j interp2 hj hp2
        obtain ⟨interp0, h0, hnode⟩ := hback j interp2 hp2
        rw [hnode]
        exact hlast j interp0 hj h0
      have hs := hstates i _ nd _ hi2 hnd rfl hlast2
      rw [htrim] at hs
      exact hread _ _ _ hs
  · intro nd hfree
    apply hframe nd
    intro interp hi
    rw [hmap] at hi
    obtain ⟨i0, hi0, rfl⟩ := List.mem_map.mp hi
    exact hfree i0 hi0

/-- Witness of C18 (amended): the EXPECT "p1=([01]) p2=([01])\n" matches the
reply "p1=1 p2=0\n"; the token of subgroup 1 is "1", which runs to the blank
and matches the ON expression only, and node 0 ends ON. -/
theorem C18_witness :
    ∃ map cl2,
      match_RegEx group_regexec 64000 (ex_capture_dev "p1=([01]) p2=([01])\n" "")
        "p1=1 p2=0\n" = some (true, some map) ∧
      do_Device_semantics group_regexec (ex_capture_dev "p1=([01]) p2=([01])\n" "")
        map ex_cluster = some cl2 ∧
      (cl2 0).p_state = State_Val.ST_ON ∧ (cl2 0).n_state = State_Val.ST_UNKNOWN ∧
      cl2 2 = ex_cluster 2 := by
  have hmr : match_RegEx group_regexec 64000 (ex_capture_dev "p1=([01]) p2=([01])\n" "")
      "p1=1 p2=0\n" =
      some (true, some [{ plug_name := "1", match_pos := 1, val := some "1 p2=0\n",
                          node := some 0 },
                        { plug_name := "2", match_pos := 2, val := some "0\n",
                          node := some 1 }]) := by
    decide
  obtain ⟨cl2, hrun, hstates, hframe, hother⟩ :=
    C18_device_reply_sets_states group_regexec 64000
      (ex_capture_dev "p1=([01]) p2=([01])\n" "") ex_cluster _ []
      "p1=([01]) p2=([01])\n" "p1=([01]) p2=([01])\n" ex_capture_map "p1=1 p2=0\n" _
      .plug_state (by decide) rfl rfl rfl hmr
  refine ⟨_, cl2, hmr, hrun, ?_, ?_, ?_⟩
  · have h := (hstates 0 _ 0 ['1'] " p2=0\n".data rfl rfl (by decide) (by decide)
      (Or.inr ⟨' ', "p2=0\n".data, rfl, by decide⟩)).2
      (by
        intro j interp2 hj hget
        cases j with
        | zero => omega
        | succ k =>
          cases k with
          | zero =>
            simp only [ex_capture_map, List.get?_cons_succ, List.get?_cons_zero,
              Option.some.injEq] at hget
            subst hget
            simp
          | succ k2 => simp [ex_capture_map] at hget)
    exact h.1 (by decide) (by decide)
  · have h := hother 0
    simpa [get_state, other_field, ex_cluster] using h
  · exact hframe 2 (by
      intro interp hi
      simp only [ex_capture_map, List.mem_cons, List.mem_singleton, List.not_mem_nil,
        or_false] at hi
      rcases hi with h | h <;> subst h <;> simp)

/-! ## Recovery after an EXPECT timeout (C19, C20) -/

theorem list_next_some (itr itr1 : ListIterator) (el : Script_El)
    (h : list_next itr = (some el, itr1)) :
    itr1 = { list := itr.list, pos := itr.pos + 1 } ∧ itr.pos < itr.list.length := by
  unfold list_next at h
  cases hg : itr.list.get? itr.pos with
  | none =>
    rw [hg] at h
    simp at h
  | some e =>
    rw [hg] at h
    simp only [Prod.mk.injEq, Option.some.injEq] at h
    refine ⟨h.2.symm, ?_⟩
    by_contra hlt
    rw [List.get?_eq_none.mpr (by omega)] at hg
    cases hg

/-- The start-up loop of map_Action_to_Device returns when the head action
has an iterator and the outgoing buffer exists; it changes neither the
connection state, loggedin nor the descriptor, and of the queue only the head,
which it advances or removes. -/
theorem start_script_loop_returns (now : Timeval) (fuel : Nat) (dev : Device)
    (act : Action) (rest : List Action) (itr : ListIterator) (buf : Buffer)
    (hacts : dev.acts = act :: rest) (hitr : act.itr = some itr)
    (hto : dev.to_ = some buf) (hfuel : itr.list.length - itr.pos < fuel) :
    ∃ dev2, start_script_loop now fuel dev = some dev2 ∧
      dev2.status.conn = dev.status.conn ∧ dev2.loggedin = dev.loggedin ∧
      dev2.fd = dev.fd ∧ dev2.to_ ≠ none ∧ dev2.from_ = dev.from_ ∧
      (dev2.acts = rest ∨ ∃ act2, dev2.acts = act2 :: rest ∧ act2.com = act.com) := by
  induction fuel generalizing dev act itr buf with
  | zero => omega
  | succ n ih =>
    rw [start_script_loop]
    simp only [hacts, hitr]
    cases hnext : list_next itr with
    | mk r itr1 =>
      cases r with
      | none =>
        exact ⟨_, rfl, rfl, rfl, rfl, by simp [hto], rfl, Or.inl (by simp [del_Action, hacts])⟩
      | some el =>
        obtain ⟨hitr1, hpos⟩ := list_next_some itr itr1 el hnext
        cases el with
        | SND_EXP_UNKNOWN =>
          dsimp only
          obtain ⟨dev2, hrun, h1, h2, h3, h4, h5, h6⟩ := ih
            { dev with acts := { act with cur := some .SND_EXP_UNKNOWN, itr := some itr1 } :: rest }
            { act with cur := some .SND_EXP_UNKNOWN, itr := some itr1 } itr1 buf rfl rfl hto
            (by rw [hitr1]; simp only; omega)
          exact ⟨dev2, hrun, h1, h2, h3, h4, h5, h6⟩
        | SEND fmt =>
          dsimp only
          simp only [process_send, hto]
          obtain ⟨dev2, hrun, h1, h2, h3, h4, h5, h6⟩ := ih
            { dev with
              acts := { act with cur := some (.SEND fmt), itr := some itr1 } :: rest,
              to_ := some (send_Buffer buf fmt act.target),
              status := { conn := dev.status.conn, sending := true,
                          expecting := dev.status.expecting } }
            { act with cur := some (.SEND fmt), itr := some itr1 } itr1
            (send_Buffer buf fmt act.target) rfl rfl rfl
            (by rw [hitr1]; simp only; omega)
          exact ⟨dev2, hrun, h1, h2, h3, h4, h5, h6⟩
        | EXPECT c e m =>
          exact ⟨_, rfl, rfl, rfl, rfl, by simp [hto], rfl, Or.inr ⟨_, rfl, rfl⟩⟩
        | DELAY tv =>
          exact ⟨_, rfl, rfl, rfl, rfl, by simp [hto], rfl, Or.inr ⟨_, rfl, rfl⟩⟩

/-- The log-in that follows a completed connect, on a device with an empty
queue and an outgoing buffer: map_Action_to_Device returns, the connection
state, loggedin and the descriptor stay, and the queue ends empty or with the
PM_LOG_IN action alone. -/
theorem map_Action_to_Device_login_returns (rx : Regexec) (cl : Cluster) (now : Timeval)
    (dev : Device) (buf : Buffer) (hacts : dev.acts = []) (hto : dev.to_ = some buf) :
    ∃ dev2, map_Action_to_Device rx cl now dev (make_Action .PM_LOG_IN) = some dev2 ∧
      dev2.status.conn = dev.status.conn ∧ dev2.loggedin = dev.loggedin ∧
      dev2.fd = dev.fd ∧ dev2.to_ ≠ none ∧ dev2.from_ = dev.from_ ∧
      (dev2.acts = [] ∨ ∃ act2, dev2.acts = [act2] ∧ act2.com = Command.PM_LOG_IN) := by
  unfold map_Action_to_Device
  simp only [make_Action, ne_eq, not_true_eq_false, decide_False, Bool.and_false,
    Bool.false_eq_true, if_false]
  cases hs : dev.prot.scripts Command.PM_LOG_IN with
  | none =>
    simp only [Option.isNone_none, if_true]
    exact ⟨dev, rfl, rfl, rfl, rfl, by simp [hto], rfl, Or.inl hacts⟩
  | some script =>
    simp only [Option.isNone_some, Bool.false_eq_true, if_false, set_targets, hacts,
      do_target_copy, hs, list_iterator_create]
    obtain ⟨dev2, hrun, h1, h2, h3, h4, h5, h6⟩ := start_script_loop_returns now
      (script.length - 0 + 1)
      { dev with acts := [{ com := Command.PM_LOG_IN, client := none, seq := 0,
                            itr := some { list := script, pos := 0 }, cur := none,
                            target := none }] }
      _ [] { list := script, pos := 0 } buf rfl rfl hto (by simp)
    exact ⟨dev2, hrun, h1, h2, h3, h4, h5, h6⟩

/-- The function do_Device_reconnect on a TCP or proxy device that has its
buffers and an empty queue: it returns with loggedin false and a new
descriptor; while the connect is in progress the queue stays empty and the
status is CONNECTING alone, after an immediate connect the status is
CONNECTED and the queue holds at most the new PM_LOG_IN. -/
theorem do_Device_reconnect_returns (rx : Regexec) (cl : Cluster) (now : Timeval)
    (newfd : Nat) (n : Int) (dev : Device) (bfrom bto : Buffer)
    (htype : dev.type = Dev_Type.TCP_DEV ∨ dev.type = Dev_Type.PMD_DEV)
    (hfrom : dev.from_ = some bfrom) (hto : dev.to_ = some bto)
    (hacts : dev.acts = []) :
    ∃ dev2, do_Device_reconnect rx cl now newfd n dev = some dev2 ∧
      dev2.loggedin = false ∧ dev2.fd = some newfd ∧
      (n < 0 → dev2.acts = [] ∧
        dev2.status = { conn := Conn.DEV_CONNECTING, sending := false, expecting := false }) ∧
      (0 ≤ n → dev2.status.conn = Conn.DEV_CONNECTED ∧
        (dev2.acts = [] ∨ ∃ act2, dev2.acts = [act2] ∧ act2.com = Command.PM_LOG_IN)) := by
  have hnot : dev.type ≠ Dev_Type.TELNET_DEV := by
    rcases htype with h | h <;> rw [h] <;> decide
  unfold do_Device_reconnect
  simp only [hfrom, hto, hacts]
  unfold initiate_nonblocking_connect
  simp only [htype, hnot, not_true_eq_false, ne_eq, if_false, or_false]
  by_cases hn : n ≥ 0
  · simp only [hn, if_true]
    obtain ⟨dev2, hrun, h1, h2, h3, -, -, h6⟩ := map_Action_to_Device_login_returns rx cl now
      { dev with fd := some newfd, from_ := some "", to_ := some "",
                 status := { conn := Conn.DEV_CONNECTED, sending := false, expecting := false },
                 loggedin := false, error := false, acts := [] } "" rfl rfl
    refine ⟨dev2, ?_, h2, h3, ?_, ?_⟩
    · rw [← hrun]
      simp
    · intro hneg
      omega
    · intro _
      exact ⟨h1, h6⟩
  · simp only [hn, if_false]
    refine ⟨_, rfl, rfl, rfl, ?_, ?_⟩
    · intro _
      exact ⟨rfl, rfl⟩
    · intro hpos
      exact hpos.elim

theorem recover_turn_same (cl : Cluster) (nd : NodeRef) :
    (set_state .node_state (set_state .plug_state cl nd .ST_UNKNOWN) nd .ST_UNKNOWN nd).p_state
        = State_Val.ST_UNKNOWN ∧
      (set_state .node_state (set_state .plug_state cl nd .ST_UNKNOWN) nd .ST_UNKNOWN nd).n_state
        = State_Val.ST_UNKNOWN := by
  simp [set_state]

theorem recover_turn_other (cl : Cluster) (nd nd2 : NodeRef) (h : nd2 ≠ nd) :
    set_state .node_state (set_state .plug_state cl nd .ST_UNKNOWN) nd .ST_UNKNOWN nd2
      = cl nd2 := by
  simp [set_state, Function.update_noteq h]

/-- The plug loop of recover_Device does not touch a node that is on none of
the plugs. -/
theorem recover_Device_loop_frame (plugs : List Plug) (cl : Cluster) (nd : NodeRef)
    (hfree : ∀ plug ∈ plugs, plug.node ≠ some nd) :
    recover_Device_loop plugs cl nd = cl nd := by
  induction plugs generalizing cl with
  | nil => rfl
  | cons plug rest ih =>
    have hrest : ∀ p ∈ rest, p.node ≠ some nd := fun p hp => hfree p (List.mem_cons_of_mem _ hp)
    cases hn : plug.node with
    | none =>
      simp only [recover_Device_loop, hn]
      exact ih cl hrest
    | some nd1 =>
      have hne : nd ≠ nd1 := by
        intro h
        exact hfree plug (List.mem_cons_self _ _) (by rw [hn, h])
      simp only [recover_Device_loop, hn]
      rw [ih _ hrest]
      exact recover_turn_other cl nd1 nd hne

/-- The plug loop of recover_Device keeps a node UNKNOWN that is UNKNOWN. -/
theorem recover_Device_loop_keeps_unknown (plugs : List Plug) (cl : Cluster) (nd : NodeRef)
    (h : (cl nd).p_state = State_Val.ST_UNKNOWN ∧ (cl nd).n_state = State_Val.ST_UNKNOWN) :
    (recover_Device_loop plugs cl nd).p_state = State_Val.ST_UNKNOWN ∧
      (recover_Device_loop plugs cl nd).n_state = State_Val.ST_UNKNOWN := by
  induction plugs generalizing cl with
  | nil => exact h
  | cons plug rest ih =>
    cases hn : plug.node with
    | none =>
      simp only [recover_Device_loop, hn]
      exact ih cl h
    | some nd1 =>
      simp only [recover_Device_loop, hn]
      apply ih
      by_cases hnd : nd = nd1
      · subst hnd
        exact recover_turn_same cl nd
      · rw [recover_turn_other cl nd1 nd hnd]
        exact h

/-- The plug loop of recover_Device makes both states of every node on a plug
UNKNOWN. -/
theorem recover_Device_loop_bound (plugs : List Plug) (cl : Cluster) (plug : Plug)
    (nd : NodeRef) (hp : plug ∈ plugs) (hnd : plug.node = some nd) :
    (recover_Device_loop plugs cl nd).p_state = State_Val.ST_UNKNOWN ∧
      (recover_Device_loop plugs cl nd).n_state = State_Val.ST_UNKNOWN := by
  induction plugs generalizing cl with
  | nil => simp at hp
  | cons plug0 rest ih =>
    rcases List.mem_cons.mp hp with h0 | h0
    · subst h0
      simp only [recover_Device_loop, hnd]
      exact recover_Device_loop_keeps_unknown rest _ nd (recover_turn_same cl nd)
    · cases hn : plug0.node with
      | none =>
        simp only [recover_Device_loop, hn]
        exact ih cl h0
      | some nd1 =>
        simp only [recover_Device_loop, hn]
        exact ih _ h0

/-- Counterexample to C19 as stated: the connect that recover_Device starts
completes at once (Connect returns 0).  The log-in script is launched right
away: the queue holds the new PM_LOG_IN and the status has SENDING and
EXPECTING set. -/
theorem C19_counterexample :
    (recover_Device literal_regexec ex_cluster ex_now 5 0 ex_stalled).map
        (fun r => (r.1.acts.map Action.com, r.1.status, r.1.loggedin))
      = some ([Command.PM_LOG_IN],
          { conn := Conn.DEV_CONNECTED, sending := true, expecting := true }, false) := by
  decide

/-- C19 (amended): recover_Device on a TCP or proxy device that has its
buffers returns with loggedin false and a new connection under way.  While
the connect is in progress (Connect returns a negative value) the per-device
queue is empty and the status is CONNECTING, with neither SENDING nor
EXPECTING.  When the connect completes at once, the status is CONNECTED and
the queue holds nothing but the new PM_LOG_IN action, if any. -/
theorem C19_recover_empties_queue_and_reconnects (rx : Regexec) (cl : Cluster)
    (now : Timeval) (newfd : Nat) (n : Int) (dev : Device) (bfrom bto : Buffer)
    (htype : dev.type = Dev_Type.TCP_DEV ∨ dev.type = Dev_Type.PMD_DEV)
    (hfrom : dev.from_ = some bfrom) (hto : dev.to_ = some bto) :
    ∃ dev2 cl2, recover_Device rx cl now newfd n dev = some (dev2, cl2) ∧
      dev2.loggedin = false ∧ dev2.fd = some newfd ∧
      (n < 0 → dev2.acts = [] ∧
        dev2.status = { conn := Conn.DEV_CONNECTING, sending := false, expecting := false }) ∧
      (0 ≤ n → dev2.status.conn = Conn.DEV_CONNECTED ∧
        (dev2.acts = [] ∨ ∃ act2, dev2.acts = [act2] ∧ act2.com = Command.PM_LOG_IN)) := by
  obtain ⟨dev2, hrun, h1, h2, h3, h4⟩ := do_Device_reconnect_returns rx
    (recover_Device_loop dev.plugs cl) now newfd n { dev with acts := [] } bfrom bto
    htype hfrom hto rfl
  exact ⟨dev2, recover_Device_loop dev.plugs cl, by simp [recover_Device, hrun], h1, h2, h3, h4⟩

/-- Witness of C19 (amended): the stalled example device, with the connect in
progress and with the connect completed at once. -/
theorem C19_witness :
    (∃ dev2 cl2, recover_Device literal_regexec ex_cluster ex_now 5 (-1) ex_stalled
        = some (dev2, cl2) ∧
      dev2.loggedin = false ∧ dev2.fd = some 5 ∧
      ((-1 : Int) < 0 → dev2.acts = [] ∧
        dev2.status = { conn := Conn.DEV_CONNECTING, sending := false, expecting := false }) ∧
      ((0 : Int) ≤ -1 → dev2.status.conn = Conn.DEV_CONNECTED ∧
        (dev2.acts = [] ∨ ∃ act2, dev2.acts = [act2] ∧ act2.com = Command.PM_LOG_IN))) ∧
    (recover_Device literal_regexec ex_cluster ex_now 5 (-1) ex_stalled).map
        (fun r => (r.1.acts, r.1.status, r.1.loggedin))
      = some ([], { conn := Conn.DEV_CONNECTING, sending := false, expecting := false },
          false) :=
  ⟨C19_recover_empties_queue_and_reconnects literal_regexec ex_cluster ex_now 5 (-1)
      ex_stalled "" "" (Or.inl rfl) rfl rfl,
    by decide⟩

/-- C20: recover_Device, on a TCP or proxy device that has its buffers,
returns with both the plug-state and the node-state of every node bound to
one of the device's plugs UNKNOWN, and with the record of every node that is
on none of the device's plugs as it was. -/
theorem C20_recover_invalidates_bound_nodes (rx : Regexec) (cl : Cluster)
    (now : Timeval) (newfd : Nat) (n : Int) (dev : Device) (bfrom bto : Buffer)
    (htype : dev.type = Dev_Type.TCP_DEV ∨ dev.type = Dev_Type.PMD_DEV)
    (hfrom : dev.from_ = some bfrom) (hto : dev.to_ = some bto) :
    ∃ dev2 cl2, recover_Device rx cl now newfd n dev = some (dev2, cl2) ∧
      (∀ plug ∈ dev.plugs, ∀ nd, plug.node = some nd →
        (cl2 nd).p_state = State_Val.ST_UNKNOWN ∧ (cl2 nd).n_state = State_Val.ST_UNKNOWN) ∧
      (∀ nd, (∀ plug ∈ dev.plugs, plug.node ≠ some nd) → cl2 nd = cl nd) := by
  obtain ⟨dev2, hrun, -⟩ := do_Device_reconnect_returns rx
    (recover_Device_loop dev.plugs cl) now newfd n { dev with acts := [] } bfrom bto
    htype hfrom hto rfl
  refine ⟨dev2, recover_Device_loop dev.plugs cl, by simp [recover_Device, hrun], ?_, ?_⟩
  · intro plug hp nd hnd
    exact recover_Device_loop_bound dev.plugs cl plug nd hp hnd
  · intro nd hfree
    exact recover_Device_loop_frame dev.plugs cl nd hfree

/-- Witness of C20: nodes 0 and 1 are on the plugs of the stalled device and
become UNKNOWN, node 2 is not and stays ON. -/
theorem C20_witness :
    ∃ dev2 cl2, recover_Device literal_regexec ex_cluster_on ex_now 5 (-1) ex_stalled
        = some (dev2, cl2) ∧
      (cl2 0).p_state = State_Val.ST_UNKNOWN ∧ (cl2 0).n_state = State_Val.ST_UNKNOWN ∧
      (cl2 1).p_state = State_Val.ST_UNKNOWN ∧ (cl2 1).n_state = State_Val.ST_UNKNOWN ∧
      cl2 2 = ex_cluster_on 2 := by
  obtain ⟨dev2, cl2, hrun, hbound, hframe⟩ :=
    C20_recover_invalidates_bound_nodes literal_regexec ex_cluster_on ex_now 5 (-1)
      ex_stalled "" "" (Or.inl rfl) rfl rfl
  have h0 := hbound ⟨"1", some 0⟩ (by simp [ex_stalled, ex_dev]) 0 rfl
  have h1 := hbound ⟨"2", some 1⟩ (by simp [ex_stalled, ex_dev]) 1 rfl
  refine ⟨dev2, cl2, hrun, h0.1, h0.2, h1.1, h1.2, hframe 2 ?_⟩
  intro plug hp
  have h : plug = ⟨"1", some 0⟩ ∨ plug = ⟨"2", some 1⟩ := by
    simpa [ex_stalled, ex_dev] using hp
  rcases h with h | h <;> subst h <;> simp

/-! ## Disconnects and connection errors (C21, C22) -/

/-- The log-in that follows a completed connect, on a device with an outgoing
buffer whose queued actions all have an iterator: map_Action_to_Device
returns; connection state, loggedin, descriptor and incoming buffer stay; the
queue is the old one, with the iterator of its head reset when the log-in
was queued, behind at most one PM_LOG_IN action. -/
theorem map_Action_to_Device_login_spec (rx : Regexec) (cl : Cluster) (now : Timeval)
    (dev : Device) (buf : Buffer) (hto : dev.to_ = some buf)
    (hitr : ∀ act ∈ dev.acts, act.itr ≠ none) :
    ∃ dev2, map_Action_to_Device rx cl now dev (make_Action .PM_LOG_IN) = some dev2 ∧
      dev2.status.conn = dev.status.conn ∧ dev2.loggedin = dev.loggedin ∧
      dev2.fd = dev.fd ∧ dev2.to_ ≠ none ∧ dev2.from_ = dev.from_ ∧
      ∃ pre kept, dev2.acts = pre ++ kept ∧
        (pre = [] ∨ ∃ act2, pre = [act2] ∧ act2.com = Command.PM_LOG_IN) ∧
        (kept = dev.acts ∨ kept = reset_head dev.acts) := by
  unfold map_Action_to_Device
  simp only [make_Action, ne_eq, not_true_eq_false, decide_False, Bool.and_false,
    Bool.false_eq_true, if_false]
  cases hs : dev.prot.scripts Command.PM_LOG_IN with
  | none =>
    simp only [Option.isNone_none, if_true]
    exact ⟨dev, rfl, rfl, rfl, rfl, by simp [hto], rfl, [], dev.acts, rfl, Or.inl rfl,
      Or.inl rfl⟩
  | some script =>
    cases hacts : dev.acts with
    | nil =>
      simp only [Option.isNone_some, Bool.false_eq_true, if_false, set_targets, hacts,
        do_target_copy, hs, list_iterator_create]
      obtain ⟨dev2, hrun, h1, h2, h3, h4, h5, h6⟩ := start_script_loop_returns now
        (script.length - 0 + 1)
        { dev with acts := [{ com := Command.PM_LOG_IN, client := none, seq := 0,
                              itr := some { list := script, pos := 0 }, cur := none,
                              target := none }] }
        _ [] { list := script, pos := 0 } buf rfl rfl hto (by simp)
      refine ⟨dev2, hrun, h1, h2, h3, h4, h5, ?_⟩
      rcases h6 with h6 | ⟨act2, h6, hc⟩
      · exact ⟨[], [], by simp [h6], Or.inl rfl, Or.inl rfl⟩
      · exact ⟨[act2], [], by simp [h6], Or.inr ⟨act2, rfl, hc⟩, Or.inl rfl⟩
    | cons act rest =>
      have hsome : act.itr ≠ none := hitr act (by rw [hacts]; exact List.mem_cons_self _ _)
      cases hi : act.itr with
      | none => exact absurd hi hsome
      | some itr =>
        simp only [Option.isNone_some, Bool.false_eq_true, if_false, set_targets, hacts, hi,
          do_target_copy, hs, list_iterator_create]
        obtain ⟨dev2, hrun, h1, h2, h3, h4, h5, h6⟩ := start_script_loop_returns now
          (script.length - 0 + 1)
          { dev with acts :=
              { com := Command.PM_LOG_IN, client := none, seq := 0,
                itr := some { list := script, pos := 0 }, cur := none, target := none } ::
              { act with itr := some (list_iterator_reset itr) } :: rest }
          _ ({ act with itr := some (list_iterator_reset itr) } :: rest)
          { list := script, pos := 0 } buf rfl rfl hto (by simp)
        have hreset : reset_head (act :: rest) =
            { act with itr := some (list_iterator_reset itr) } :: rest := by
          simp [reset_head, hi]
        refine ⟨dev2, hrun, h1, h2, h3, h4, h5, ?_⟩
        rcases h6 with h6 | ⟨act2, h6, hc⟩
        · exact ⟨[], _, by rw [h6]; rfl, Or.inl rfl, Or.inr hreset.symm⟩
        · exact ⟨[act2], _, by rw [h6]; rfl, Or.inr ⟨act2, rfl, hc⟩, Or.inr hreset.symm⟩

/-- The function initiate_nonblocking_connect on a TCP or proxy device that
is not connected and has no descriptor: it returns with the new descriptor
and both buffers; while the connect is in progress the queue is untouched and
the status is CONNECTING, after an immediate connect the status is CONNECTED
and the queue is the old one behind at most one PM_LOG_IN. -/
theorem initiate_nonblocking_connect_spec (rx : Regexec) (cl : Cluster) (now : Timeval)
    (newfd : Nat) (n : Int) (dev : Device)
    (htype : dev.type = Dev_Type.TCP_DEV ∨ dev.type = Dev_Type.PMD_DEV)
    (hstatus : dev.status =
      { conn := Conn.DEV_NOT_CONNECTED, sending := false, expecting := false })
    (hfd : dev.fd = none)
    (hitr : ∀ act ∈ dev.acts, act.itr ≠ none) :
    ∃ dev2, initiate_nonblocking_connect rx cl now newfd n dev = some dev2 ∧
      dev2.loggedin = dev.loggedin ∧ dev2.fd = some newfd ∧
      dev2.to_ ≠ none ∧ dev2.from_ ≠ none ∧
      (n < 0 → dev2.acts = dev.acts ∧
        dev2.status = { conn := Conn.DEV_CONNECTING, sending := false, expecting := false }) ∧
      (0 ≤ n → dev2.status.conn = Conn.DEV_CONNECTED ∧
        ∃ pre kept, dev2.acts = pre ++ kept ∧
          (pre = [] ∨ ∃ act2, pre = [act2] ∧ act2.com = Command.PM_LOG_IN) ∧
          (kept = dev.acts ∨ kept = reset_head dev.acts)) := by
  have hnot : dev.type ≠ Dev_Type.TELNET_DEV := by
    rcases htype with h | h <;> rw [h] <;> decide
  unfold initiate_nonblocking_connect
  simp only [htype, hnot, hstatus, hfd, not_true_eq_false, ne_eq, if_false, or_false]
  by_cases hn : n ≥ 0
  · simp only [hn, if_true]
    obtain ⟨dev2, hrun, h1, h2, h3, h4, h5, h6⟩ := map_Action_to_Device_login_spec rx cl now
      { dev with fd := some newfd, to_ := some (dev.to_.getD ""),
                 from_ := some (dev.from_.getD ""), error := false,
                 status := { conn := Conn.DEV_CONNECTED, sending := false,
                             expecting := false } }
      (dev.to_.getD "") rfl hitr
    refine ⟨dev2, hrun, h2, h3, h4, by rw [h5]; simp, ?_, ?_⟩
    · intro hneg
      omega
    · intro _
      exact ⟨h1, h6⟩
  · simp only [hn, if_false]
    refine ⟨_, rfl, rfl, rfl, by simp, by simp, ?_, ?_⟩
    · intro _
      exact ⟨rfl, rfl⟩
    · intro hpos
      exact hpos.elim

/-- The function do_Device_reconnect on a TCP or proxy device that has its
buffers and whose queued actions all have an iterator: it returns with
loggedin false, a new descriptor and new buffers; a PM_LOG_IN at the head of
the queue is gone, every other action is kept in its place (behind the new
PM_LOG_IN, and with the iterator of the head reset, when the connect
completed at once). -/
theorem do_Device_reconnect_spec (rx : Regexec) (cl : Cluster) (now : Timeval)
    (newfd : Nat) (n : Int) (dev : Device) (bfrom bto : Buffer)
    (htype : dev.type = Dev_Type.TCP_DEV ∨ dev.type = Dev_Type.PMD_DEV)
    (hfrom : dev.from_ = some bfrom) (hto : dev.to_ = some bto)
    (hitr : ∀ act ∈ dev.acts, act.itr ≠ none) :
    ∃ dev2, do_Device_reconnect rx cl now newfd n dev = some dev2 ∧
      dev2.loggedin = false ∧ dev2.fd = some newfd ∧
      dev2.to_ ≠ none ∧ dev2.from_ ≠ none ∧
      (n < 0 → dev2.acts = kept_after_disconnect dev.acts ∧
        dev2.status = { conn := Conn.DEV_CONNECTING, sending := false, expecting := false }) ∧
      (0 ≤ n → dev2.status.conn = Conn.DEV_CONNECTED ∧
        ∃ pre kept, dev2.acts = pre ++ kept ∧
          (pre = [] ∨ ∃ act2, pre = [act2] ∧ act2.com = Command.PM_LOG_IN) ∧
          (kept = kept_after_disconnect dev.acts ∨
            kept = reset_head (kept_after_disconnect dev.acts))) := by
  have hkept : ∀ act ∈ kept_after_disconnect dev.acts, act.itr ≠ none := by
    intro act hact
    cases hq : dev.acts with
    | nil => simp [hq, kept_after_disconnect] at hact
    | cons a rest =>
      rw [hq] at hact
      simp only [kept_after_disconnect] at hact
      split_ifs at hact
      · exact hitr act (by rw [hq]; exact List.mem_cons_of_mem _ hact)
      · exact hitr act (by rw [hq]; exact hact)
  have hdev : do_Device_reconnect rx cl now newfd n dev =
      initiate_nonblocking_connect rx cl now newfd n
        { dev with fd := none, from_ := none, to_ := none,
                   status := { conn := Conn.DEV_NOT_CONNECTED, sending := false,
                               expecting := false },
                   loggedin := false, acts := kept_after_disconnect dev.acts } := by
    unfold do_Device_reconnect
    simp only [hfrom, hto]
    cases hq : dev.acts with
    | nil => simp [kept_after_disconnect]
    | cons a rest =>
      by_cases hc : a.com = Command.PM_LOG_IN
      · simp [kept_after_disconnect, hc, del_Action]
      · simp [kept_after_disconnect, hc]
  rw [hdev]
  exact initiate_nonblocking_connect_spec rx cl now newfd n _ htype rfl rfl hkept

/-- C21: when the read on a device reports end of file or a connection reset,
the reconnect that handle_Device_read starts returns (TCP or proxy device
with its buffers) with loggedin false; it removes the head of the queue
exactly when that is a PM_LOG_IN, and keeps every other action queued before
the disconnect in its place: the queue is the kept one while the connect is
in progress, and the kept one behind at most one new PM_LOG_IN (its head's
iterator reset with it) when the connect completed at once. -/
theorem C21_disconnect_drops_login_keeps_rest (rx : Regexec) (cl : Cluster)
    (now : Timeval) (newfd : Nat) (n : Int) (res : ReadResult) (dev : Device)
    (bfrom bto : Buffer)
    (hres : res = ReadResult.eof ∨ res = ReadResult.econnreset)
    (htype : dev.type = Dev_Type.TCP_DEV ∨ dev.type = Dev_Type.PMD_DEV)
    (hfrom : dev.from_ = some bfrom) (hto : dev.to_ = some bto)
    (hitr : ∀ act ∈ dev.acts, act.itr ≠ none) :
    ∃ dev2, handle_Device_read rx cl now newfd n res dev = some dev2 ∧
      dev2.loggedin = false ∧
      (n < 0 → dev2.acts = kept_after_disconnect dev.acts) ∧
      (0 ≤ n → ∃ pre kept, dev2.acts = pre ++ kept ∧
        (pre = [] ∨ ∃ act2, pre = [act2] ∧ act2.com = Command.PM_LOG_IN) ∧
        (kept = kept_after_disconnect dev.acts ∨
          kept = reset_head (kept_after_disconnect dev.acts))) ∧
      (∀ act rest, dev.acts = act :: rest → act.com = Command.PM_LOG_IN →
        kept_after_disconnect dev.acts = rest) ∧
      (∀ act rest, dev.acts = act :: rest → act.com ≠ Command.PM_LOG_IN →
        kept_after_disconnect dev.acts = act :: rest) ∧
      (dev.acts = [] → kept_after_disconnect dev.acts = []) := by
  obtain ⟨dev2, hrun, h1, -, -, -, h5, h6⟩ :=
    do_Device_reconnect_spec rx cl now newfd n dev bfrom bto htype hfrom hto hitr
  refine ⟨dev2, ?_, h1, fun hn => (h5 hn).1, fun hn => (h6 hn).2, ?_, ?_, ?_⟩
  · rcases hres with h | h <;> rw [h] <;> exact hrun
  · intro act rest hq hc
    simp [hq, kept_after_disconnect, hc]
  · intro act rest hq hc
    simp [hq, kept_after_disconnect, hc]
  · intro hq
    simp [hq, kept_after_disconnect]

/-- Witness of C21: the connection of the example device drops while the
power-off action is running; the action stays in the queue. -/
theorem C21_witness :
    ∃ dev2, handle_Device_read literal_regexec ex_cluster ex_now 5 (-1) .eof ex_stalled
        = some dev2 ∧
      dev2.loggedin = false ∧ dev2.acts = [ex_running] := by
  obtain ⟨dev2, hrun, hlog, hneg, -, -, hkeep, -⟩ :=
    C21_disconnect_drops_login_keeps_rest literal_regexec ex_cluster ex_now 5 (-1) .eof
      ex_stalled "" "" (Or.inl rfl) (Or.inl rfl) rfl rfl
      (by
        intro act hact
        have h : act = ex_running := by simpa [ex_stalled, ex_dev] using hact
        subst h
        simp [ex_running])
  refine ⟨dev2, hrun, hlog, ?_⟩
  rw [hneg (by decide)]
  exact hkeep ex_running [] rfl (by decide)

/-- C22: when do_Device_connect observes a nonzero socket error (on a device
that has its buffers), the device ends without descriptor, with error true
and status NOT_CONNECTED; the buffers are emptied and nothing else changes:
the per-device queue is as it was, no PM_LOG_IN is created and no connect is
started. -/
theorem C22_connect_error_no_retry (rx : Regexec) (cl : Cluster) (now : Timeval)
    (err : Int) (dev : Device) (bfrom bto : Buffer)
    (herr : err ≠ 0) (hfrom : dev.from_ = some bfrom) (hto : dev.to_ = some bto) :
    do_Device_connect rx cl now err dev =
      some { dev with fd := none, error := true,
                      status := { conn := Conn.DEV_NOT_CONNECTED, sending := false,
                                  expecting := false },
                      to_ := some "", from_ := some "" } := by
  simp [do_Device_connect, herr, hfrom, hto]

/-- Witness of C22: the connect of the example device fails with error
111. -/
theorem C22_witness :
    do_Device_connect literal_regexec ex_cluster ex_now 111
        (ex_connecting [.SEND "login\n", .EXPECT "ok" "ok" none]) =
      some { (ex_connecting [.SEND "login\n", .EXPECT "ok" "ok" none]) with
        fd := none, error := true,
        status := { conn := Conn.DEV_NOT_CONNECTED, sending := false, expecting := false },
        to_ := some "", from_ := some "" } :=
  C22_connect_error_no_retry literal_regexec ex_cluster ex_now 111
    (ex_connecting [.SEND "login\n", .EXPECT "ok" "ok" none]) "" "" (by decide) rfl rfl

/-! ## Proxy replies of the wrong length (C23) -/

/-- C24: act_update appends to the tail of the global queue exactly two
actions, PM_UPDATE_PLUGS followed by PM_UPDATE_NODES, both without client and
without target (and without iterator or current element); the actions queued
before stay unchanged ahead of them, and device list and replies are not
touched. -/
theorem C24_act_update_appends_two_updates (st : Dispatcher) :
    act_update st =
      { act_actions := st.act_actions ++
          [{ com := Command.PM_UPDATE_PLUGS, client := none, seq := 0, itr := none,
             cur := none, target := none },
           { com := Command.PM_UPDATE_NODES, client := none, seq := 0, itr := none,
             cur := none, target := none }],
        dev_devices := st.dev_devices, replies := st.replies } := by
  simp [act_update, act_create]

/-! ## Repeated updates (C25) -/

theorem overwrite_none (f : StateField) (cl : Cluster) :
    overwrite f (fun _ => none) cl = cl := by
  funext nd
  simp [overwrite]

theorem overwrite_idem (f : StateField) (w : NodeRef → Option State_Val) (cl : Cluster) :
    overwrite f w (overwrite f w cl) = overwrite f w cl := by
  funext nd
  cases hw : w nd <;> cases f <;> simp [overwrite, hw]

theorem overwrite_overwrite (f : StateField) (w1 w2 : NodeRef → Option State_Val)
    (cl : Cluster) :
    overwrite f w2 (overwrite f w1 cl) =
      overwrite f (fun nd => match w2 nd with | some v => some v | none => w1 nd) cl := by
  funext nd
  cases h2 : w2 nd <;> cases h1 : w1 nd <;> cases f <;> simp [overwrite, h1, h2]

theorem set_state_eq_overwrite (f : StateField) (cl : Cluster) (nd : NodeRef)
    (v : State_Val) :
    set_state f cl nd v = overwrite f (fun x => if x = nd then some v else none) cl := by
  funext x
  by_cases hx : x = nd
  · subst hx
    cases f <;> simp [set_state, overwrite]
  · cases f <;> simp [set_state, overwrite, hx, Function.update_noteq hx]

theorem set_state_set_state (f : StateField) (cl : Cluster) (nd : NodeRef)
    (a b : State_Val) :
    set_state f (set_state f cl nd a) nd b = set_state f cl nd b := by
  funext x
  by_cases hx : x = nd
  · subst hx
    cases f <;> simp [set_state]
  · cases f <;> simp [set_state, Function.update_noteq hx]

/-- One turn of either semantics loop is a single write whose value does not
depend on the node store. -/
theorem turn_eq_set_state (f : StateField) (cl : Cluster) (nd : NodeRef) (p q : Prop)
    [Decidable p] [Decidable q] :
    (if q then
        set_state f (if p then set_state f (set_state f cl nd .ST_UNKNOWN) nd .ST_ON
          else set_state f cl nd .ST_UNKNOWN) nd .ST_OFF
      else (if p then set_state f (set_state f cl nd .ST_UNKNOWN) nd .ST_ON
          else set_state f cl nd .ST_UNKNOWN)) =
      set_state f cl nd
        (if q then State_Val.ST_OFF else if p then State_Val.ST_ON
          else State_Val.ST_UNKNOWN) := by
  by_cases hq : q <;> by_cases hp : p <;> simp [hq, hp, set_state_set_state]

/-- The plug loop of do_PMD_semantics either fails on every node store, or
overwrites every node store with the same values. -/
theorem do_PMD_semantics_loop_overwrite (f : StateField) (plugs : List Plug)
    (ch : Option (List Char)) :
    (∀ cl, do_PMD_semantics_loop f plugs ch cl = none) ∨
      ∃ w, ∀ cl, do_PMD_semantics_loop f plugs ch cl = some (overwrite f w cl) := by
  induction plugs generalizing ch with
  | nil => exact Or.inr ⟨fun _ => none, fun cl => by simp [do_PMD_semantics_loop, overwrite_none]⟩
  | cons plug rest ih =>
    cases hn : plug.node with
    | none =>
      rcases ih ch with h | ⟨w, h⟩
      · exact Or.inl (fun cl => by simp [do_PMD_semantics_loop, hn, h])
      · exact Or.inr ⟨w, fun cl => by simp [do_PMD_semantics_loop, hn, h]⟩
    | some nd =>
      cases ch with
      | none => exact Or.inl (fun cl => by simp [do_PMD_semantics_loop, hn])
      | some cs =>
        rcases ih (match cs with | [] => none | _ :: tl => some tl) with h | ⟨w, h⟩
        · exact Or.inl (fun cl => by simp only [do_PMD_semantics_loop, hn, h])
        · refine Or.inr ⟨fun x => match w x with
            | some v => some v
            | none => if x = nd then some (if cs.head? = some '0' then State_Val.ST_OFF
                else if cs.head? = some '1' then State_Val.ST_ON
                else State_Val.ST_UNKNOWN) else none, fun cl => ?_⟩
          simp only [do_PMD_semantics_loop, hn, h]
          rw [turn_eq_set_state, set_state_eq_overwrite, overwrite_overwrite]

/-- The interpretation loop of do_Device_semantics either fails on every node
store, or overwrites every node store with the same values. -/
theorem do_Device_semantics_loop_overwrite (rx : Regexec) (dev : Device) (f : StateField)
    (map : List Interpretation) :
    (∀ cl, do_Device_semantics_loop rx dev f map cl = none) ∨
      ∃ w, ∀ cl, do_Device_semantics_loop rx dev f map cl = some (overwrite f w cl) := by
  induction map with
  | nil =>
    exact Or.inr ⟨fun _ => none, fun cl => by simp [do_Device_semantics_loop, overwrite_none]⟩
  | cons interp rest ih =>
    cases hn : interp.node with
    | none =>
      rcases ih with h | ⟨w, h⟩
      · exact Or.inl (fun cl => by simp [do_Device_semantics_loop, hn, h])
      · exact Or.inr ⟨w, fun cl => by simp [do_Device_semantics_loop, hn, h]⟩
    | some nd =>
      cases hv : interp.val with
      | none => exact Or.inl (fun cl => by simp [do_Device_semantics_loop, hn, hv])
      | some v =>
        rcases ih with h | ⟨w, h⟩
        · exact Or.inl (fun cl => by simp only [do_Device_semantics_loop, hn, hv, h])
        · refine Or.inr ⟨fun x => match w x with
            | some u => some u
            | none => if x = nd then
                some (if find_RegEx rx dev.off_re (trim_token v) = true then State_Val.ST_OFF
                  else if find_RegEx rx dev.on_re (trim_token v) = true then State_Val.ST_ON
                  else State_Val.ST_UNKNOWN) else none, fun cl => ?_⟩
          simp only [do_Device_semantics_loop, hn, hv, h]
          rw [turn_eq_set_state, set_state_eq_overwrite, overwrite_overwrite]

/-- What process_expect runs on the map either fails on every node store, or
overwrites the field of the head action's command with values that do not
depend on the node store. -/
theorem expect_semantics_overwrite (rx : Regexec) (dev : Device)
    (map : List Interpretation) :
    (∀ cl, expect_semantics rx dev map cl = none) ∨
      ∃ w, ∀ cl, expect_semantics rx dev map cl = some (overwrite (head_field dev) w cl) := by
  have hid : ∀ f : StateField, ∃ w : NodeRef → Option State_Val,
      ∀ cl : Cluster, (some cl : Option Cluster) = some (overwrite f w cl) :=
    fun f => ⟨fun _ => none, fun cl => by rw [overwrite_none]⟩
  unfold expect_semantics
  cases hacts : dev.acts with
  | nil => exact Or.inl (fun cl => by simp [do_PMD_semantics, do_Device_semantics, hacts])
  | cons act rest =>
    by_cases ht : dev.type = Dev_Type.PMD_DEV
    · simp only [ht, if_true, do_PMD_semantics, hacts, head_field]
      cases map with
      | nil => exact Or.inl (fun cl => rfl)
      | cons interp more =>
        cases hc : act.com <;> simp only [] <;>
          first
          | exact Or.inr (hid _)
          | exact do_PMD_semantics_loop_overwrite _ dev.plugs _
    · simp only [ht, if_false, do_Device_semantics, hacts, head_field]
      cases hc : act.com <;> simp only [] <;>
        first
        | exact Or.inr (hid _)
        | exact do_Device_semantics_loop_overwrite rx dev _ map

/-- C25: interpreting the same reply twice gives what interpreting it once
gives.  When the semantics function that process_expect runs (do_PMD_semantics
for a proxy device, do_Device_semantics otherwise) returns a node store, then
run again on that store, with the same device and map, it returns the same
store; and on any node store it returns that store with the state field of
the command (the plug-state for PM_UPDATE_PLUGS) overwritten by values that
depend on device, map and reply only. -/
theorem C25_update_twice_same_states (rx : Regexec) (dev : Device)
    (map : List Interpretation) (cl cl1 : Cluster)
    (h : expect_semantics rx dev map cl = some cl1) :
    expect_semantics rx dev map cl1 = some cl1 ∧
      ∃ w : NodeRef → Option State_Val,
        ∀ cl2, expect_semantics rx dev map cl2 = some (overwrite (head_field dev) w cl2) := by
  rcases expect_semantics_overwrite rx dev map with hnone | ⟨w, hw⟩
  · rw [hnone] at h
    cases h
  · refine ⟨?_, w, hw⟩
    have h1 : cl1 = overwrite (head_field dev) w cl := by
      have := hw cl
      rw [h] at this
      exact Option.some.inj this
    rw [hw cl1, h1, overwrite_idem]

theorem C25_witness :
    ∃ cl1,
      expect_semantics literal_regexec
          (ex_pmd_dev .PM_UPDATE_PLUGS [⟨"p0", some 0⟩, ⟨"p1", some 1⟩])
          [{ plug_name := "vector", match_pos := 0, val := some "10", node := none }]
          ex_cluster_on = some cl1 ∧
      expect_semantics literal_regexec
          (ex_pmd_dev .PM_UPDATE_PLUGS [⟨"p0", some 0⟩, ⟨"p1", some 1⟩])
          [{ plug_name := "vector", match_pos := 0, val := some "10", node := none }]
          cl1 = some cl1 ∧
      (cl1 0).p_state = State_Val.ST_ON ∧ (cl1 1).p_state = State_Val.ST_OFF :=
  ⟨_, rfl,
    (C25_update_twice_same_states literal_regexec
      (ex_pmd_dev .PM_UPDATE_PLUGS [⟨"p0", some 0⟩, ⟨"p1", some 1⟩])
      [{ plug_name := "vector", match_pos := 0, val := some "10", node := none }]
      ex_cluster_on _ rfl).1, rfl, rfl⟩

/-! ## A token that matches both expressions (C29) -/

/-- C29: in do_Device_semantics, for a head action PM_UPDATE_PLUGS (state
field plug-state) or PM_UPDATE_NODES (node-state), an entry with a bound node
whose trimmed value matches both the ON and the OFF expression of the device
leaves that node OFF: this is the node's state after the loop has walked the
entries up to this one, and in the end unless a later entry is bound to the
same node.  The function returns whenever every entry with a node carries a
value. -/
theorem C29_both_match_gives_off (rx : Regexec) (dev : Device) (cl : Cluster)
    (act : Action) (rest : List Action) (map : List Interpretation) (f : StateField)
    (hacts : dev.acts = act :: rest)
    (hcom : act.com = update_command f)
    (hval : ∀ interp ∈ map, interp.node ≠ none → interp.val ≠ none) :
    ∃ cl2, do_Device_semantics rx dev map cl = some cl2 ∧
      ∀ (i : Nat) (interp : Interpretation) (nd : NodeRef) (v : String),
        map.get? i = some interp → interp.node = some nd → interp.val = some v →
        find_RegEx rx dev.on_re (trim_token v) = true →
        find_RegEx rx dev.off_re (trim_token v) = true →
        (∃ cl1, do_Device_semantics rx dev (map.take (i + 1)) cl = some cl1 ∧
          get_state f cl1 nd = State_Val.ST_OFF) ∧
        ((∀ (j : Nat) (interp2 : Interpretation), i < j → map.get? j = some interp2 →
            interp2.node ≠ some nd) →
          get_state f cl2 nd = State_Val.ST_OFF) := by
  have hsem : ∀ m : List Interpretation,
      do_Device_semantics rx dev m cl = do_Device_semantics_loop rx dev f m cl := by
    intro m
    cases f <;> simp [do_Device_semantics, hacts, hcom, update_command]
  obtain ⟨cl2, hrun, hstates⟩ := do_Device_semantics_loop_bound rx dev f map cl hval
  refine ⟨cl2, by rw [hsem, hrun], ?_⟩
  intro i interp nd v hi hnd hv hon hoff
  constructor
  · have hval1 : ∀ interp ∈ map.take (i + 1), interp.node ≠ none → interp.val ≠ none :=
      fun i2 hi2 h => hval i2 (List.mem_of_mem_take hi2) h
    obtain ⟨cl1, hrun1, hstates1⟩ :=
      do_Device_semantics_loop_bound rx dev f (map.take (i + 1)) cl hval1
    refine ⟨cl1, by rw [hsem, hrun1], ?_⟩
    have hi1 : (map.take (i + 1)).get? i = some interp := by
      rw [List.get?_eq_getElem?, List.getElem?_take_of_lt (Nat.lt_succ_self i),
        ← List.get?_eq_getElem?]
      exact hi
    have hnone : ∀ (j : Nat) (interp2 : Interpretation), i < j →
        (map.take (i + 1)).get? j = some interp2 → interp2.node ≠ some nd := by
      intro j interp2 hj hp2
      have hshort : (map.take (i + 1)).length ≤ j := by
        rw [List.length_take]
        omega
      rw [List.get?_eq_none.mpr hshort] at hp2
      cases hp2
    rw [hstates1 i interp nd v hi1 hnd hv hnone, hoff]
    rfl
  · intro hlast
    rw [hstates i interp nd v hi hnd hv hlast, hoff]
    rfl

/-- Witness of C29: the token "ON" matches the ON expression "O" and the OFF
expression "N" of the device; the plug-state of node 0, which was ON, ends
OFF. -/
theorem C29_witness :
    ∃ cl2,
      do_Device_semantics literal_regexec ex_overlap_dev
          [{ plug_name := "1", match_pos := 0, val := some "ON done", node := some 0 }]
          ex_cluster_on = some cl2 ∧
      find_RegEx literal_regexec ex_overlap_dev.on_re (trim_token "ON done") = true ∧
      find_RegEx literal_regexec ex_overlap_dev.off_re (trim_token "ON done") = true ∧
      (cl2 0).p_state = State_Val.ST_OFF := by
  obtain ⟨cl2, hrun, hstates⟩ :=
    C29_both_match_gives_off literal_regexec ex_overlap_dev ex_cluster_on _ []
      [{ plug_name := "1", match_pos := 0, val := some "ON done", node := some 0 }]
      .plug_state rfl rfl
      (by
        intro interp hi
        simp only [List.mem_singleton] at hi
        subst hi
        simp)
  refine ⟨cl2, hrun, by decide, by decide, ?_⟩
  exact (hstates 0 _ 0 "ON done" rfl rfl rfl (by decide) (by decide)).2
    (by
      intro j interp2 hj hget
      cases j with
      | zero => omega
      | succ k => simp at hget)

/-! ## Commands without a response pointer (C28) -/

/-- Whenever the command is sent and the receive loop ends with PM_ESUCCESS,
_server_command called with response = NULL reaches the store
`*response = buf` of _server_recv_response with the null pointer: it has no
defined result. -/
theorem _server_command_null_response (cp_eol : String) (cp_linemax : Nat)
    (writes : List Int) (reads : List RecvEvent) (cmd : String) (arg : Option String)
    (buf : String)
    (hsend : _server_send_command cp_eol cp_linemax writes cmd arg = some .PM_ESUCCESS)
    (hrecv : server_recv_loop reads "" = some (.PM_ESUCCESS, buf)) :
    _server_command cp_eol cp_linemax writes reads cmd arg none = none := by
  simp [_server_command, _server_recv_response, hsend, hrecv]

/-- C28 fails in the code: pm_disconnect calls
_server_command (pmh, "quit", NULL, NULL).  The six bytes of the command line
are written, the read returns the server's answer, the receive loop ends with
PM_ESUCCESS, and _server_recv_response then stores the buffer through the
null response pointer: the call has no defined result, where the claim has it
store nothing and return PM_ESUCCESS.  With a response pointer the same run
returns PM_ESUCCESS and the buffer. -/
theorem C28_null_response_is_stored_through :
    _server_send_command "\r\n" 80 [6] "quit" none = some .PM_ESUCCESS ∧
    server_recv_loop [.data "bye\r\n"] "" = some (.PM_ESUCCESS, "bye\r\n") ∧
    _server_command "\r\n" 80 [6] [.data "bye\r\n"] "quit" none none = none ∧
    _server_command "\r\n" 80 [6] [.data "bye\r\n"] "quit" none none ≠
      some (.PM_ESUCCESS, none) ∧
    _server_command "\r\n" 80 [6] [.data "bye\r\n"] "quit" none (some none) =
      some (.PM_ESUCCESS, some (some "bye\r\n")) := by
  have hsend : _server_send_command "\r\n" 80 [6] "quit" none = some .PM_ESUCCESS := by
    rfl
  have hrecv : server_recv_loop [.data "bye\r\n"] "" = some (.PM_ESUCCESS, "bye\r\n") := by
    rfl
  have hnull := _server_command_null_response "\r\n" 80 [6] [.data "bye\r\n"] "quit" none
    "bye\r\n" hsend hrecv
  refine ⟨hsend, hrecv, hnull, ?_, ?_⟩
  · rw [hnull]
    exact fun h => Option.noConfusion h
  · simp [_server_command, _server_recv_response, hsend, hrecv]

/-! ## Buffers and the file descriptor (C27) -/

/-- Counterexample to C27 as stated: the connect of the example device fails
with socket error 111.  do_Device_connect closes the descriptor and empties
the two buffers with clear_Buffer, it does not free them: afterwards the
device has no descriptor and has both buffers. -/
theorem C27_counterexample :
    (do_Device_connect literal_regexec ex_cluster ex_now 111
        (ex_connecting [.SEND "login\n", .EXPECT "ok" "ok" none])).map
        (fun d => (d.fd, d.to_, d.from_))
      = some (none, some "", some "") := by
  rfl

/-- C27 (amended): a descriptor never comes without the two buffers, and only
a failed connect leaves buffers without a descriptor.  make_Device gives
neither descriptor nor buffers.  After initiate_nonblocking_connect (on a TCP
or proxy device in NOT_CONNECTED without descriptor), after a successful
do_Device_connect, after do_Device_reconnect and after recover_Device (on a
device with descriptor and both buffers) the device has the descriptor and
both buffers.  After a failed do_Device_connect the device has no descriptor
and keeps both buffers, emptied. -/
theorem C27_descriptor_comes_with_buffers (rx : Regexec) (cl : Cluster) (now : Timeval)
    (newfd : Nat) (n err : Int) (name : String) (dev0 dev : Device) (fd : Nat)
    (bfrom bto : Buffer)
    (htype0 : dev0.type = Dev_Type.TCP_DEV ∨ dev0.type = Dev_Type.PMD_DEV)
    (hstatus0 : dev0.status =
      { conn := Conn.DEV_NOT_CONNECTED, sending := false, expecting := false })
    (hfd0 : dev0.fd = none)
    (hitr0 : ∀ act ∈ dev0.acts, act.itr ≠ none)
    (htype : dev.type = Dev_Type.TCP_DEV ∨ dev.type = Dev_Type.PMD_DEV)
    (hfd : dev.fd = some fd)
    (hfrom : dev.from_ = some bfrom) (hto : dev.to_ = some bto)
    (hitr : ∀ act ∈ dev.acts, act.itr ≠ none)
    (herr : err ≠ 0) :
    ((make_Device name now).fd = none ∧ (make_Device name now).to_ = none ∧
      (make_Device name now).from_ = none) ∧
    (∃ dev2, initiate_nonblocking_connect rx cl now newfd n dev0 = some dev2 ∧
      dev2.fd = some newfd ∧ dev2.to_ ≠ none ∧ dev2.from_ ≠ none) ∧
    (∃ dev2, do_Device_connect rx cl now 0 dev = some dev2 ∧
      dev2.fd = some fd ∧ dev2.to_ ≠ none ∧ dev2.from_ ≠ none) ∧
    (∃ dev2, do_Device_connect rx cl now err dev = some dev2 ∧
      dev2.fd = none ∧ dev2.to_ = some "" ∧ dev2.from_ = some "") ∧
    (∃ dev2, do_Device_reconnect rx cl now newfd n dev = some dev2 ∧
      dev2.fd = some newfd ∧ dev2.to_ ≠ none ∧ dev2.from_ ≠ none) ∧
    (∃ dev2 cl2, recover_Device rx cl now newfd n dev = some (dev2, cl2) ∧
      dev2.fd = some newfd ∧ dev2.to_ ≠ none ∧ dev2.from_ ≠ none) := by
  refine ⟨⟨rfl, rfl, rfl⟩, ?_, ?_, ?_, ?_, ?_⟩
  · obtain ⟨dev2, hrun, -, h2, h3, h4, -⟩ :=
      initiate_nonblocking_connect_spec rx cl now newfd n dev0 htype0 hstatus0 hfd0 hitr0
    exact ⟨dev2, hrun, h2, h3, h4⟩
  · obtain ⟨dev2, hrun, -, -, h3, h4, h5, -⟩ :=
      map_Action_to_Device_login_spec rx cl now
        { dev with error := false,
                   status := { conn := Conn.DEV_CONNECTED, sending := false,
                               expecting := false } } bto hto hitr
    refine ⟨dev2, by simpa [do_Device_connect] using hrun, ?_, h4, ?_⟩
    · rw [h3]
      exact hfd
    · rw [h5]
      simp [hfrom]
  · exact ⟨{ dev with fd := none, error := true,
                      status := { conn := Conn.DEV_NOT_CONNECTED, sending := false,
                                  expecting := false },
                      to_ := some "", from_ := some "" },
      by simp [do_Device_connect, herr, hfrom, hto], rfl, rfl, rfl⟩
  · obtain ⟨dev2, hrun, -, h2, h3, h4, -⟩ :=
      do_Device_reconnect_spec rx cl now newfd n dev bfrom bto htype hfrom hto hitr
    exact ⟨dev2, hrun, h2, h3, h4⟩
  · obtain ⟨dev2, hrun, -, h2, h3, h4, -⟩ :=
      do_Device_reconnect_spec rx (recover_Device_loop dev.plugs cl) now newfd n
        { dev with acts := [] } bfrom bto htype hfrom hto
        (by intro act hact; cases hact)
    exact ⟨dev2, recover_Device_loop dev.plugs cl, by simp [recover_Device, hrun],
      h2, h3, h4⟩

/-- Witness of C27: the unconnected example device starts a connect on
descriptor 5; the connecting example device completes, fails, reconnects and
recovers. -/
theorem C27_witness :
    (∃ dev2, initiate_nonblocking_connect literal_regexec ex_cluster ex_now 5 (-1)
        ex_unconnected = some dev2 ∧
      dev2.fd = some 5 ∧ dev2.to_ ≠ none ∧ dev2.from_ ≠ none) ∧
    (∃ dev2, do_Device_connect literal_regexec ex_cluster ex_now 0
        (ex_connecting [.SEND "login\n", .EXPECT "ok" "ok" none]) = some dev2 ∧
      dev2.fd = some 3 ∧ dev2.to_ ≠ none ∧ dev2.from_ ≠ none) ∧
    (∃ dev2, do_Device_connect literal_regexec ex_cluster ex_now 111
        (ex_connecting [.SEND "login\n", .EXPECT "ok" "ok" none]) = some dev2 ∧
      dev2.fd = none ∧ dev2.to_ = some "" ∧ dev2.from_ = some "") :=
  have h := C27_descriptor_comes_with_buffers literal_regexec ex_cluster ex_now 5 (-1) 111
    "pdu" ex_unconnected (ex_connecting [.SEND "login\n", .EXPECT "ok" "ok" none]) 3 "" ""
    (Or.inl rfl) rfl rfl (by intro act hact; cases hact) (Or.inl rfl) rfl rfl rfl
    (by intro act hact; cases hact) (by decide)
  ⟨h.2.1, h.2.2.1, h.2.2.2.1⟩

/-! ## One action per dispatcher call (C26) -/

theorem dropWhile_dropWhile_of_imp {α : Type} (p q : α → Bool)
    (hqp : ∀ a, q a = true → p a = true) (l : List α) :
    (l.dropWhile q).dropWhile p = l.dropWhile p := by
  induction l with
  | nil => rfl
  | cons a rest ih =>
    cases hq : q a with
    | true => simp [List.dropWhile_cons, hq, hqp a hq, ih]
    | false => simp [List.dropWhile_cons, hq]

theorem takeWhile_split_of_imp {α : Type} (p q : α → Bool)
    (hqp : ∀ a, q a = true → p a = true) (l : List α) :
    l.takeWhile p = l.takeWhile q ++ (l.dropWhile q).takeWhile p := by
  induction l with
  | nil => rfl
  | cons a rest ih =>
    cases hq : q a with
    | true => simp [List.takeWhile_cons, List.dropWhile_cons, hq, hqp a hq, ih]
    | false => simp [List.takeWhile_cons, List.dropWhile_cons, hq]

/-- The device loop of act_initiate returns a device list exactly when
dev_acttodev returns for every device, and the list holds its results in
order. -/
theorem act_initiate_devices_iff (rx : Regexec) (cl : Cluster) (now : Timeval)
    (act : Action) (devs devs2 : List Device) :
    act_initiate_devices rx cl now act devs = some devs2 ↔
      List.Forall₂ (fun d d2 => dev_acttodev rx cl now d act = some d2) devs devs2 := by
  induction devs generalizing devs2 with
  | nil =>
    constructor
    · intro h
      simp only [act_initiate_devices, Option.some.injEq] at h
      subst h
      exact List.Forall₂.nil
    · intro h
      cases h
      rfl
  | cons d rest ih =>
    constructor
    · intro h
      simp only [act_initiate_devices] at h
      cases h1 : dev_acttodev rx cl now d act with
      | none => simp [h1] at h
      | some d1 =>
        cases h2 : act_initiate_devices rx cl now act rest with
        | none => simp [h1, h2] at h
        | some rest1 =>
          simp only [h1, h2, Option.some.injEq] at h
          subst h
          exact List.Forall₂.cons h1 ((ih rest1).mp h2)
    · intro h
      cases h with
      | cons h1 h2 =>
        simp only [act_initiate_devices, h1, (ih _).mpr h2]

/-- The run of act_initiate with fuel enough: the actions passed over are
taken off the queue and answered when their client lives, and the first
action that is not passed over, if any, goes through the device loop. -/
theorem act_initiate_fuel_dropWhile (rx : Regexec) (cl : Cluster) (now : Timeval)
    (cli_exists : Nat → Bool) (fuel : Nat) (act : Action) (rest : List Action)
    (st : Dispatcher)
    (hq : st.act_actions = act :: rest)
    (hng : client_gone cli_exists act = false)
    (hfuel : rest.length < fuel) :
    act_initiate_fuel rx cl now cli_exists fuel act st =
      match (act :: rest).dropWhile (passed_over cli_exists) with
      | [] =>
        some { act_actions := [], dev_devices := st.dev_devices,
               replies := st.replies ++
                 ((act :: rest).takeWhile (passed_over cli_exists)).filter
                   (client_live cli_exists) }
      | a :: more =>
        (act_initiate_devices rx cl now a st.dev_devices).map
          (fun devs =>
            { act_actions := a :: more, dev_devices := devs,
              replies := st.replies ++
                ((act :: rest).takeWhile (passed_over cli_exists)).filter
                  (client_live cli_exists) }) := by
  induction fuel generalizing act rest st with
  | zero => omega
  | succ fuel ih =>
    have himp : ∀ a, client_gone cli_exists a = true → passed_over cli_exists a = true := by
      intro a ha
      simp [passed_over, ha]
    cases hinfo : informational act.com with
    | false =>
      have hp : passed_over cli_exists act = false := by simp [passed_over, hinfo, hng]
      rw [act_initiate_fuel_device _ _ _ _ _ _ _ hinfo]
      simp only [List.dropWhile_cons, List.takeWhile_cons, hp, Bool.false_eq_true, if_false,
        List.filter_nil, List.append_nil]
      cases st with
      | mk q ds rs =>
        simp only at hq
        subst hq
        cases act_initiate_devices rx cl now act ds <;> rfl
    | true =>
      have hp : passed_over cli_exists act = true := by simp [passed_over, hinfo]
      rw [act_initiate_fuel_informational _ _ _ _ _ _ _ hinfo]
      have hfin : act_finish act st =
          some { st with act_actions := rest,
                         replies := if act.client ≠ none then st.replies ++ [act]
                           else st.replies } := by
        simp [act_finish, act_del_queuehead, hq]
      rw [hfin]
      simp only [act_find_eq]
      have hdrop := dropWhile_dropWhile_of_imp (passed_over cli_exists)
        (client_gone cli_exists) himp rest
      have htake := takeWhile_split_of_imp (passed_over cli_exists)
        (client_gone cli_exists) himp rest
      have hrep : (if act.client ≠ none then st.replies ++ [act] else st.replies) =
          st.replies ++ [act].filter (client_live cli_exists) := by
        rw [filter_live_head cli_exists act hng]
        split_ifs <;> simp
      simp only [List.dropWhile_cons, List.takeWhile_cons, hp, if_true]
      rw [← hdrop, htake]
      have hfilter : (act :: (rest.takeWhile (client_gone cli_exists) ++
          (rest.dropWhile (client_gone cli_exists)).takeWhile (passed_over cli_exists))).filter
            (client_live cli_exists) =
          [act].filter (client_live cli_exists) ++
            ((rest.dropWhile (client_gone cli_exists)).takeWhile
              (passed_over cli_exists)).filter (client_live cli_exists) := by
        rw [show act :: (rest.takeWhile (client_gone cli_exists) ++
            (rest.dropWhile (client_gone cli_exists)).takeWhile (passed_over cli_exists)) =
            [act] ++ (rest.takeWhile (client_gone cli_exists) ++
              (rest.dropWhile (client_gone cli_exists)).takeWhile (passed_over cli_exists))
            from rfl]
        rw [List.filter_append, List.filter_append, filter_live_takeWhile_gone,
          List.nil_append]
      rw [hfilter, hrep]
      have hlen : (rest.dropWhile (client_gone cli_exists)).length ≤ rest.length :=
        (List.dropWhile_sublist _).length_le
      cases hD : rest.dropWhile (client_gone cli_exists) with
      | nil =>
        simp only [List.head?_nil, List.dropWhile_nil, List.takeWhile_nil, List.filter_nil,
          List.append_nil]
      | cons act1 rest1 =>
        have hng1 : client_gone cli_exists act1 = false := by
          have := List.head_dropWhile_not (client_gone cli_exists) rest
            (by rw [hD]; exact List.cons_ne_nil _ _)
          simpa [hD] using this
        rw [hD] at hlen
        simp only [List.length_cons] at hlen hfuel
        simp only [List.head?_cons]
        rw [ih act1 rest1 _ rfl hng1 (by omega)]
        simp only [List.append_assoc]

/-- C26: one call of act_initiate hands at most one global action to the
devices.  The call is made with the head of the global queue, an action whose
client has not vanished.  It takes the actions it passes over (those with an
informational command, and those act_find discards) off the front of the
queue and records a reply for each whose client lives.  When the queue
runs out, the device list is left as it is.  Otherwise the first action `a`
that is not passed over needs device communication, and the call returns
exactly when dev_acttodev returns for every device with `a`: then every
device of the list has been given `a` once, in order, `a` is the head of the
global queue with everything behind it still queued, and no reply for `a`
has been recorded. -/
theorem C26_one_action_per_initiate (rx : Regexec) (cl : Cluster) (now : Timeval)
    (cli_exists : Nat → Bool) (act : Action) (rest : List Action) (st : Dispatcher)
    (hq : st.act_actions = act :: rest)
    (hng : client_gone cli_exists act = false) :
    (st.act_actions.dropWhile (passed_over cli_exists) = [] →
      act_initiate rx cl now cli_exists act st =
        some { act_actions := [], dev_devices := st.dev_devices,
               replies := st.replies ++
                 (st.act_actions.takeWhile (passed_over cli_exists)).filter
                   (client_live cli_exists) }) ∧
    (∀ (a : Action) (more : List Action),
      st.act_actions.dropWhile (passed_over cli_exists) = a :: more →
      informational a.com = false ∧
      ∀ st2, act_initiate rx cl now cli_exists act st = some st2 ↔
        (st2.act_actions = a :: more ∧
          st2.replies = st.replies ++
            (st.act_actions.takeWhile (passed_over cli_exists)).filter
              (client_live cli_exists) ∧
          List.Forall₂ (fun d d2 => dev_acttodev rx cl now d a = some d2)
            st.dev_devices st2.dev_devices)) := by
  have hrun := act_initiate_fuel_dropWhile rx cl now cli_exists (st.act_actions.length + 1)
    act rest st hq hng (by rw [hq]; simp only [List.length_cons]; omega)
  rw [← hq] at hrun
  constructor
  · intro hD
    rw [act_initiate, hrun, hD]
  · intro a more hD
    constructor
    · have := List.head_dropWhile_not (passed_over cli_exists) st.act_actions
        (by rw [hD]; exact List.cons_ne_nil _ _)
      simp only [hD, List.head_cons, passed_over, Bool.not_eq_true,
        Bool.or_eq_false_iff] at this
      exact this.1
    · intro st2
      rw [act_initiate, hrun, hD]
      simp only [Option.map_eq_some']
      constructor
      · rintro ⟨devs, hdevs, rfl⟩
        exact ⟨rfl, rfl, (act_initiate_devices_iff rx cl now a _ devs).mp hdevs⟩
      · rintro ⟨h1, h2, h3⟩
        refine ⟨st2.dev_devices, (act_initiate_devices_iff rx cl now a _ _).mpr h3, ?_⟩
        cases st2 with
        | mk q ds rs =>
          simp only at h1 h2
          subst h1 h2
          rfl

/-- Witness of C26: the NAMES request of client 7 is answered, the NAMES
request of the vanished client 8 is discarded, the power-on of node0 is given
to the one device and stays at the head of the queue; the plug update behind
it is not touched. -/
theorem C26_witness :
    ∃ st2,
      act_initiate literal_regexec ex_cluster ex_now ex_clients (ex_req .PM_NAMES (some 7) 1)
        ex_dispatcher = some st2 ∧
      st2.act_actions = [ex_on "node0", act_create .PM_UPDATE_PLUGS] ∧
      st2.replies = [ex_req .PM_NAMES (some 7) 1] ∧
      List.Forall₂
        (fun d d2 => dev_acttodev literal_regexec ex_cluster ex_now d (ex_on "node0") = some d2)
        ex_dispatcher.dev_devices st2.dev_devices ∧
      st2.dev_devices.map (fun d => d.acts.map Action.com) = [[Command.PM_POWER_ON]] := by
  have h := ((C26_one_action_per_initiate literal_regexec ex_cluster ex_now ex_clients
    (ex_req .PM_NAMES (some 7) 1) _ ex_dispatcher rfl rfl).2
    (ex_on "node0") [act_create .PM_UPDATE_PLUGS] rfl).2
  cases hrun : act_initiate literal_regexec ex_cluster ex_now ex_clients
      (ex_req .PM_NAMES (some 7) 1) ex_dispatcher with
  | none =>
    have hsome : (act_initiate literal_regexec ex_cluster ex_now ex_clients
      (ex_req .PM_NAMES (some 7) 1) ex_dispatcher).isSome = true := rfl
    rw [hrun] at hsome
    cases hsome
  | some st2 =>
    obtain ⟨h1, h2, h3⟩ := (h st2).mp hrun
    refine ⟨st2, rfl, h1, ?_, h3, ?_⟩
    · rw [h2]
      rfl
    · have hval : (act_initiate literal_regexec ex_cluster ex_now ex_clients
          (ex_req .PM_NAMES (some 7) 1) ex_dispatcher).map
            (fun s => s.dev_devices.map (fun d => d.acts.map Action.com)) =
          some [[Command.PM_POWER_ON]] := rfl
      rw [hrun] at hval
      exact Option.some.inj hval

end Powerman
